import Mathlib

/-!
# Verification development for the BIND 9 excerpts

Shallow embedding of

* `lib/isc/random.c` (xoshiro128** generator, `isc_random_buf`, `isc_random_uniform`),
* `lib/dns/rdata/generic/soa_6.c` (SOA rdata codec),
* `lib/dns/rdata/hs_4/a_1.c` (Hesiod A rdata codec),

followed by the theorems about them.

Conventions.  A `uint32_t` is a `Nat` below `2 ^ 32`; every operation that can
leave that range is followed by an explicit `% 2 ^ 32`.  A `uint64_t` is a
`Nat` below `2 ^ 64`.  Bytes are `Nat`s below `256`.  C functions that can stop
in an assertion macro return an `Outcome`.
-/

namespace Bind9

/-! ## Outcomes of running a C function -/

/-- Ways a call can end.  `returned a`: the function returned `a`.  `aborted`:
a `REQUIRE`, `INSIST` or `RUNTIME_CHECK` failed and the process was stopped.
`undefined`: an `int` was given a value it cannot represent, after which the C
standard no longer fixes what the program does.  `unfinished`: the fuel given to a `while` loop
ran out before the loop condition became false. -/
inductive Outcome (α : Type) where
  | returned (a : α)
  | aborted
  | undefined
  | unfinished
  deriving DecidableEq

/-- Sequencing: run `f` on the value `x` returned, pass every other ending on. -/
def Outcome.bind {α β : Type} (x : Outcome α) (f : α → Outcome β) : Outcome β :=
  match x with
  | .returned a => f a
  | .aborted => .aborted
  | .undefined => .undefined
  | .unfinished => .unfinished

/-! ## `lib/isc/random.c` -/

/-- The thread-local `static uint32_t seed[4]`. -/
structure Seed where
  s0 : Nat
  s1 : Nat
  s2 : Nat
  s3 : Nat
  deriving DecidableEq

/-- All four words are `uint32_t` values. -/
def Seed.WF (s : Seed) : Prop :=
  s.s0 < 2 ^ 32 ∧ s.s1 < 2 ^ 32 ∧ s.s2 < 2 ^ 32 ∧ s.s3 < 2 ^ 32

instance (s : Seed) : Decidable s.WF := by
  unfold Seed.WF; infer_instance

/-- The state the comments call "everywhere zero". -/
def Seed.allZero (s : Seed) : Prop :=
  s.s0 = 0 ∧ s.s1 = 0 ∧ s.s2 = 0 ∧ s.s3 = 0

instance (s : Seed) : Decidable s.allZero := by
  unfold Seed.allZero; infer_instance

/-- The C `rotl(x, k)`: `(x << k) | (x >> (32 - k))` on `uint32_t`. -/
def rotl (x k : Nat) : Nat :=
  ((x <<< k) % 2 ^ 32) ||| (x >>> (32 - k))

/-- The C `next()`: one step of xoshiro128**.  Returns `result_starstar` and the
updated `seed`. -/
def next (seed : Seed) : Nat × Seed :=
  let result_starstar := (rotl ((seed.s0 * 5) % 2 ^ 32) 7 * 9) % 2 ^ 32
  let t := (seed.s1 <<< 9) % 2 ^ 32
  let s2 := seed.s2 ^^^ seed.s0
  let s3 := seed.s3 ^^^ seed.s1
  let s1 := seed.s1 ^^^ s2
  let s0 := seed.s0 ^^^ s3
  let s2 := s2 ^^^ t
  let s3 := rotl s3 11
  (result_starstar, ⟨s0, s1, s2, s3⟩)

/-- Memory as seen by `memmove`: a byte for every address. -/
abbrev Mem := Nat → Nat

/-- The C `memmove(dst, src, n)` where the source object is given by its bytes:
the `n` bytes at `dst .. dst + n` become the first `n` bytes of `src`, every
other byte of memory is unchanged. -/
def memmove (mem : Mem) (dst : Nat) (src : List Nat) (n : Nat) : Mem :=
  fun a => if dst ≤ a ∧ a < dst + n then src.getD (a - dst) 0 else mem a

/-- The object representation of a `uint32_t` in host memory order: its four
bytes, lowest address first (`be = true` on a big-endian host). -/
def u32_bytes (be : Bool) (r : Nat) : List Nat :=
  let b (k : Nat) : Nat := (r >>> (8 * k)) % 256
  if be then [b 3, b 2, b 1, b 0] else [b 0, b 1, b 2, b 3]

/-- The `uint32_t` whose object representation is the four bytes of `bs`
starting at `off`, in host memory order. -/
def u32_at (be : Bool) (bs : List Nat) (off : Nat) : Nat :=
  let b (k : Nat) : Nat := bs.getD (off + k) 0 % 256
  if be then b 0 * 2 ^ 24 + b 1 * 2 ^ 16 + b 2 * 2 ^ 8 + b 3
  else b 3 * 2 ^ 24 + b 2 * 2 ^ 16 + b 1 * 2 ^ 8 + b 0

/-- The C `isc_random_initialize()`.  `fuzzing` is `FUZZING_BUILD_MODE_UNSAFE_FOR_PRODUCTION`;
`entropy k` is byte `k` that `isc_entropy_get(useed, sizeof(useed))` stores
(`isc_entropy_get` is declared in `entropy_private.h`, outside these sources, so
its output is an argument).  `int useed[4] = { 0, 0, 0, 1 }` is overwritten by
the 16 entropy bytes unless `fuzzing`, then copied over `seed` by `memmove`. -/
def isc_random_initialize (fuzzing be : Bool) (entropy : Nat → Nat) : Seed :=
  let useed : List Nat :=
    u32_bytes be 0 ++ u32_bytes be 0 ++ u32_bytes be 0 ++ u32_bytes be 1
  let useed : List Nat :=
    if fuzzing then useed else (List.range 16).map (fun k => entropy k % 256)
  ⟨u32_at be useed 0, u32_at be useed 4, u32_at be useed 8, u32_at be useed 12⟩

/-!
The draw functions.  Each starts with
`RUNTIME_CHECK(isc_once_do(&isc_random_once, isc_random_initialize) == ISC_R_SUCCESS)`;
the definitions below are the code after that call, run on the state it
leaves.  They call `next()` and nothing else of the generator, so the
generator is the argument `nxt`: with `nxt := next` and `σ := Seed` they are
the functions of `random.c`; with another `nxt` they run on an arbitrary
stream of raw draws.
-/

section draws

variable {σ : Type} (nxt : σ → Nat × σ)

/-- The C `isc_random8()`: `next() & 0xff`. -/
def isc_random8 (s : σ) : Nat × σ :=
  ((nxt s).1 &&& 0xff, (nxt s).2)

/-- The C `isc_random16()`: `next() & 0xffff`. -/
def isc_random16 (s : σ) : Nat × σ :=
  ((nxt s).1 &&& 0xffff, (nxt s).2)

/-- The C `isc_random32()`: `next()`. -/
def isc_random32 (s : σ) : Nat × σ :=
  nxt s

/-- The C `INT_MAX` for the 32-bit `int` of the loop index `i`. -/
def INT_MAX : Nat := 2 ^ 31 - 1

/-- The loop of `isc_random_buf`:
`for (i = 0; i + sizeof(r) <= buflen; i += sizeof(r)) { r = next(); memmove((uint8_t *)buf + i, &r, sizeof(r)); }`.
The index `i` is an `int`; when `i + sizeof(r)` is not representable in it the
run is `undefined`.  One unit of fuel is one iteration.  Returns the final
`i`, memory and generator state. -/
def isc_random_buf_loop (be : Bool) (buf buflen : Nat) :
    Nat → Nat → Mem → σ → Outcome (Nat × Mem × σ)
  | 0, i, mem, s =>
    if i + 4 ≤ buflen then .unfinished else .returned (i, mem, s)
  | fuel + 1, i, mem, s =>
    if i + 4 ≤ buflen then
      let r := (nxt s).1
      let mem := memmove mem (buf + i) (u32_bytes be r) 4
      if i + 4 ≤ INT_MAX then
        isc_random_buf_loop be buf buflen fuel (i + 4) mem (nxt s).2
      else .undefined
    else .returned (i, mem, s)

/-- The C `isc_random_buf(buf, buflen)`.  `buf` is the address the pointer holds
(`0` for `NULL`).  The loop gets `buflen` units of fuel, which is more than the
`buflen / 4` iterations it can make. -/
def isc_random_buf (be : Bool) (mem : Mem) (buf buflen : Nat) (s : σ) :
    Outcome (Mem × σ) :=
  if buf = 0 then .aborted
  else if ¬ (buflen > 0) then .aborted
  else
    match isc_random_buf_loop nxt be buf buflen buflen 0 mem s with
    | .returned (i, mem, s) =>
      let r := (nxt s).1
      .returned (memmove mem (buf + i) (u32_bytes be r) (buflen % 4), (nxt s).2)
    | .aborted => .aborted
    | .undefined => .undefined
    | .unfinished => .unfinished

/-- The resample loop of `isc_random_uniform`:
`while ((uint32_t)(num) < residue) { num = (uint64_t)next() * (uint64_t)limit; }`.
One unit of fuel is one iteration. -/
def isc_random_uniform_loop (limit residue : Nat) :
    Nat → Nat → σ → Outcome (Nat × σ)
  | 0, num, s =>
    if num % 2 ^ 32 < residue then .unfinished else .returned (num, s)
  | fuel + 1, num, s =>
    if num % 2 ^ 32 < residue then
      isc_random_uniform_loop limit residue fuel
        (((nxt s).1 * limit) % 2 ^ 64) (nxt s).2
    else .returned (num, s)

/-- The C `isc_random_uniform(limit)`, the resample loop running on `fuel`.
Returns `(uint32_t)(num >> 32)` and the generator state. -/
def isc_random_uniform (fuel limit : Nat) (s : σ) : Outcome (Nat × σ) :=
  let num := ((nxt s).1 * limit) % 2 ^ 64
  let s := (nxt s).2
  if num % 2 ^ 32 < limit then
    let residue := ((2 ^ 32 - limit) % 2 ^ 32) % limit
    match isc_random_uniform_loop nxt limit residue fuel num s with
    | .returned (num, s) => .returned ((num >>> 32) % 2 ^ 32, s)
    | .aborted => .aborted
    | .undefined => .undefined
    | .unfinished => .unfinished
  else .returned ((num >>> 32) % 2 ^ 32, s)

end draws

/-- The generator state after `n` calls of `nxt`. -/
def drawn {σ : Type} (nxt : σ → Nat × σ) : Nat → σ → σ
  | 0, s => s
  | n + 1, s => drawn nxt n (nxt s).2

/-- The value returned by the `k`-th call of `nxt` from state `s`, counting
from zero. -/
def output {σ : Type} (nxt : σ → Nat × σ) (k : Nat) (s : σ) : Nat :=
  (nxt (drawn nxt k s)).1

/-- The generator whose every draw is `r`. -/
def constant_draw (r : Nat) : Unit → Nat × Unit :=
  fun _ => (r, ())

/-! ## Results, buffers, regions and contexts shared by the rdata files -/

/-- The `isc_result_t` / `dns_result_t` values that `soa_6.c` and `a_1.c`
return themselves (`DNS_R_SUCCESS`/`ISC_R_SUCCESS`, `..._NOSPACE`,
`..._UNEXPECTEDEND`, `..._NOTIMPLEMENTED`, `DNS_R_BADDOTTEDQUAD`); `other code`
is any further result a collaborator hands back. -/
inductive Result where
  | success
  | nospace
  | unexpectedend
  | notimplemented
  | baddottedquad
  | other (code : Nat)
  deriving DecidableEq

/-- Modelled from the spec: `isc_buffer_t`, whose definition and operations
(lib/isc/buffer.c, isc/buffer.h) are not among the sources.  Spec 4.1: a
fixed-capacity byte store (`base`, the capacity is its length) with two
cursors, `consumed` (read position) and `used` (write position). -/
structure isc_buffer_t where
  base : List Nat
  used : Nat
  consumed : Nat
  deriving DecidableEq

/-- The cursors are in order and inside the store. -/
def isc_buffer_t.WF (b : isc_buffer_t) : Prop :=
  b.consumed ≤ b.used ∧ b.used ≤ b.base.length

instance (b : isc_buffer_t) : Decidable b.WF := by
  unfold isc_buffer_t.WF; infer_instance

/-- Modelled from the spec: `isc_region_t` (isc/region.h is not among the
sources), a non-owning view `(base, length)`.  For a region of a buffer
`base` is the offset of its first byte in the buffer's store. -/
structure isc_region_t where
  base : Nat
  length : Nat
  deriving DecidableEq

/-- Modelled from the spec: `isc_buffer_active`; spec 4.1: "The active region
(bytes available to read) is `[consumed, used)`". -/
def isc_buffer_active (b : isc_buffer_t) : isc_region_t :=
  ⟨b.consumed, b.used - b.consumed⟩

/-- Modelled from the spec: `isc_buffer_available`; spec 4.1: "the available
region (bytes available to write) is `[used, capacity)`". -/
def isc_buffer_available (b : isc_buffer_t) : isc_region_t :=
  ⟨b.used, b.base.length - b.used⟩

/-- Modelled from the spec: `isc_buffer_activeregion`, the name `a_1.c` uses
for `isc_buffer_active`. -/
def isc_buffer_activeregion (b : isc_buffer_t) : isc_region_t :=
  isc_buffer_active b

/-- Modelled from the spec: `isc_buffer_availableregion`, the name `a_1.c`
uses for `isc_buffer_available`. -/
def isc_buffer_availableregion (b : isc_buffer_t) : isc_region_t :=
  isc_buffer_available b

/-- Modelled from the spec: `isc_buffer_forward(b, n)`; spec 4.1: "advance
`consumed` by n (read commit)", which fails "with a bounds error if n exceeds
the respective remaining span". -/
def isc_buffer_forward (b : isc_buffer_t) (n : Nat) : Outcome isc_buffer_t :=
  if n ≤ b.used - b.consumed then .returned { b with consumed := b.consumed + n }
  else .aborted

/-- Modelled from the spec: `isc_buffer_add(b, n)`; spec 4.1: "advance `used`
by n (write commit)", which fails "with a bounds error if n exceeds the
respective remaining span". -/
def isc_buffer_add (b : isc_buffer_t) (n : Nat) : Outcome isc_buffer_t :=
  if n ≤ b.base.length - b.used then .returned { b with used := b.used + n }
  else .aborted

/-- The C `memcpy(dst + doff, src + soff, n)` on byte stores: the `n` bytes of `dst`
from offset `doff` are replaced by the `n` bytes of `src` from offset `soff`. -/
def memcpy (dst : List Nat) (doff : Nat) (src : List Nat) (soff n : Nat) : List Nat :=
  dst.take doff ++ (src.drop soff).take n ++ dst.drop (doff + n)

/-- Modelled from the spec: `dns_rdata_t` (dns/rdata.h is not among the
sources); spec 3: "(class, type, length, byte span)".  `data` is the byte
span and `length` its length. -/
structure dns_rdata_t where
  rdclass : Nat
  type : Nat
  data : List Nat
  deriving DecidableEq

/-- The `length` field of a `dns_rdata_t`. -/
def dns_rdata_t.length (rdata : dns_rdata_t) : Nat :=
  rdata.data.length

/-- Modelled from the spec: the sets of compression methods the two files
name (dns/compress.h is not among the sources). -/
inductive Methods where
  | DNS_COMPRESS_NONE
  | DNS_COMPRESS_GLOBAL14
  | DNS_COMPRESS_ALL
  deriving DecidableEq

/-- Modelled from the spec: `dns_decompress_t` (dns/compress.h is not among
the sources); spec 3: the read side "carries only the permitted-methods flag
set", chosen from "a negotiated extension level and a strict/relaxed mode". -/
structure dns_decompress_t where
  edns : Int
  strict : Bool
  allowed : Methods
  deriving DecidableEq

/-- Modelled from the spec: `dns_compress_t` (dns/compress.h is not among the
sources); spec 3: "write-side dictionary (name → previously-written offset)
plus a permitted-methods flag set", with the negotiated extension level. -/
structure dns_compress_t where
  edns : Int
  allowed : Methods
  table : List (List Nat × Nat)
  deriving DecidableEq

/-- Modelled from the spec: `dns_decompress_edns`. -/
def dns_decompress_edns (dctx : dns_decompress_t) : Int :=
  dctx.edns

/-- Modelled from the spec: `dns_decompress_strict`. -/
def dns_decompress_strict (dctx : dns_decompress_t) : Bool :=
  dctx.strict

/-- Modelled from the spec: `dns_decompress_setmethods`. -/
def dns_decompress_setmethods (dctx : dns_decompress_t) (allowed : Methods) :
    dns_decompress_t :=
  { dctx with allowed := allowed }

/-- Modelled from the spec: `dns_compress_getedns`. -/
def dns_compress_getedns (cctx : dns_compress_t) : Int :=
  cctx.edns

/-- Modelled from the spec: `dns_compress_setmethods`. -/
def dns_compress_setmethods (cctx : dns_compress_t) (allowed : Methods) :
    dns_compress_t :=
  { cctx with allowed := allowed }

/-- Modelled from the spec: `isc_region_consume(r, n)` on a region given by
its bytes (the macro is in isc/region.h, not among the sources): the view
moves `n` bytes forward; asking for more than the region holds is a bounds
error. -/
def isc_region_consume (r : List Nat) (n : Nat) : Outcome (List Nat) :=
  if n ≤ r.length then .returned (r.drop n) else .aborted

/-!
The name subsystem (`dns_name_fromwire`, `dns_name_towire`,
`dns_name_fromregion`, in lib/dns/name.c) is not among the sources.  The rdata
functions receive it as arguments of the following types.  A name is the list
of its uncompressed wire bytes, so `name_length` is the list length.
-/

/-- The C `dns_name_fromwire(name, source, dctx, downcase, target)`: the result code
and the source and target buffers as the call leaves them. -/
abbrev NameFromwire :=
  isc_buffer_t → dns_decompress_t → Bool → isc_buffer_t → Result × isc_buffer_t × isc_buffer_t

/-- The C `dns_name_towire(name, cctx, target)`: the result code and the compression
context and target buffer as the call leaves them. -/
abbrev NameTowire :=
  List Nat → dns_compress_t → isc_buffer_t → Result × dns_compress_t × isc_buffer_t

/-- The C `dns_name_fromregion(name, region)`: the name that starts the region. -/
abbrev NameFromregion :=
  List Nat → List Nat

/-- The C `name_length(name)`. -/
def name_length (name : List Nat) : Nat :=
  name.length

/-- The buffer after `bytes` are copied to the start of its available region
and committed: `memcpy(available.base, bytes, n)` then `isc_buffer_add(b, n)`,
with `n` the number of bytes. -/
def isc_buffer_t.put (b : isc_buffer_t) (bytes : List Nat) : isc_buffer_t :=
  { b with base := memcpy b.base b.used bytes 0 bytes.length,
           used := b.used + bytes.length }

/-- Modelled from the spec: the length of the uncompressed wire name that
starts `bytes` (lib/dns/name.c is not among the sources); spec 3: a name is an
"ordered sequence of labels, each a length-prefixed byte string", and 4.2:
"decode labels until a pointer or a zero-length terminator".  `none` when no
terminator is reached or a length byte is not a label length. -/
def plain_name_length : Nat → List Nat → Option Nat
  | 0, _ => none
  | _ + 1, [] => none
  | fuel + 1, n :: rest =>
    if n = 0 then some 1
    else if n ≤ 63 ∧ n ≤ rest.length then
      match plain_name_length fuel (rest.drop n) with
      | some m => some (n + 1 + m)
      | none => none
    else none

/-- Modelled from the spec: `dns_name_fromregion` for uncompressed names, the
name that starts the region (the whole region when it starts with none). -/
def plain_name_fromregion : NameFromregion :=
  fun r =>
    match plain_name_length r.length r with
    | some n => r.take n
    | none => r

/-- Modelled from the spec: `dns_name_towire` without compression: the name is
appended to the target when it fits, `nospace` otherwise (spec 4.2: "emit the
full name"; "insufficient space in the destination buffer ... → NoSpace"). -/
def plain_name_towire : NameTowire :=
  fun name cctx target =>
    if (isc_buffer_available target).length < name.length then (.nospace, cctx, target)
    else (.success, cctx, target.put name)

/-- Modelled from the spec: `dns_name_fromwire` for names without compression
pointers: the labels up to the zero-length terminator are read from the active
region of the source and appended to the target (spec 4.2: "fewer source bytes
than the minimum decodable unit → Truncated; insufficient space in the
destination buffer ... → NoSpace"). -/
def plain_name_fromwire : NameFromwire :=
  fun source _ _ target =>
    let active := (source.base.drop source.consumed).take (source.used - source.consumed)
    match plain_name_length active.length active with
    | none => (.unexpectedend, source, target)
    | some n =>
      if (isc_buffer_available target).length < n then (.nospace, source, target)
      else (.success, { source with consumed := source.consumed + n },
            target.put (active.take n))

/-! ## `lib/dns/rdata/generic/soa_6.c` -/

/-- Lines 145-148 of `fromwire_soa`: the methods the decompression context is
given before any name is read. -/
def fromwire_soa_setmethods (dctx : dns_decompress_t) : dns_decompress_t :=
  if dns_decompress_edns dctx ≥ 1 ∨ ¬ dns_decompress_strict dctx then
    dns_decompress_setmethods dctx .DNS_COMPRESS_ALL
  else
    dns_decompress_setmethods dctx .DNS_COMPRESS_GLOBAL14

/-- Lines 179-182 of `towire_soa`: the methods the compression context is
given before any name is written. -/
def towire_soa_setmethods (cctx : dns_compress_t) : dns_compress_t :=
  if dns_compress_getedns cctx ≥ 1 then
    dns_compress_setmethods cctx .DNS_COMPRESS_ALL
  else
    dns_compress_setmethods cctx .DNS_COMPRESS_GLOBAL14

/-- The C `fromwire_soa(rdclass, type, source, dctx, downcase, target)`.  Returns the
result code with the source buffer, decompression context and target buffer as
the call leaves them.  `RETERR(x)` returns `x` when it is not success. -/
def fromwire_soa (dns_name_fromwire : NameFromwire) (rdclass type : Nat)
    (source : isc_buffer_t) (dctx : dns_decompress_t) (downcase : Bool)
    (target : isc_buffer_t) :
    Outcome (Result × isc_buffer_t × dns_decompress_t × isc_buffer_t) :=
  if type ≠ 6 then .aborted
  else
    let _ := rdclass
    let dctx := fromwire_soa_setmethods dctx
    let (result, source, target) := dns_name_fromwire source dctx downcase target
    if result ≠ .success then .returned (result, source, dctx, target)
    else
      let (result, source, target) := dns_name_fromwire source dctx downcase target
      if result ≠ .success then .returned (result, source, dctx, target)
      else
        let sregion := isc_buffer_active source
        let tregion := isc_buffer_available target
        if sregion.length < 20 then .returned (.unexpectedend, source, dctx, target)
        else if tregion.length < 20 then .returned (.nospace, source, dctx, target)
        else
          let target :=
            { target with base := memcpy target.base tregion.base source.base sregion.base 20 }
          (isc_buffer_forward source 20).bind fun source =>
          (isc_buffer_add target 20).bind fun target =>
          .returned (.success, source, dctx, target)

/-- The C `towire_soa(rdata, cctx, target)`.  Returns the result code with the
compression context and target buffer as the call leaves them. -/
def towire_soa (dns_name_fromregion : NameFromregion) (dns_name_towire : NameTowire)
    (rdata : dns_rdata_t) (cctx : dns_compress_t) (target : isc_buffer_t) :
    Outcome (Result × dns_compress_t × isc_buffer_t) :=
  if rdata.type ≠ 6 then .aborted
  else
    let cctx := towire_soa_setmethods cctx
    let sregion := rdata.data
    let mname := dns_name_fromregion sregion
    (isc_region_consume sregion (name_length mname)).bind fun sregion =>
    let (result, cctx, target) := dns_name_towire mname cctx target
    if result ≠ .success then .returned (result, cctx, target)
    else
      let rname := dns_name_fromregion sregion
      (isc_region_consume sregion (name_length rname)).bind fun sregion =>
      let (result, cctx, target) := dns_name_towire rname cctx target
      if result ≠ .success then .returned (result, cctx, target)
      else
        let tregion := isc_buffer_available target
        if tregion.length < 20 then .returned (.nospace, cctx, target)
        else
          let target :=
            { target with base := memcpy target.base tregion.base sregion 0 20 }
          (isc_buffer_add target 20).bind fun target =>
          .returned (.success, cctx, target)

/-- The SOA rdata of the spec's example
`ns1.example. hostmaster.example. ( 2020010100 3600 600 1209600 3600 )`:
first name. -/
def soa_example_mname : List Nat :=
  [3, 110, 115, 49, 7, 101, 120, 97, 109, 112, 108, 101, 0]

/-- Second name of the example, `hostmaster.example.`. -/
def soa_example_rname : List Nat :=
  [10, 104, 111, 115, 116, 109, 97, 115, 116, 101, 114,
   7, 101, 120, 97, 109, 112, 108, 101, 0]

/-- The five 32-bit fields of the example, big-endian. -/
def soa_example_tail : List Nat :=
  [120, 102, 232, 116, 0, 0, 14, 16, 0, 0, 2, 88, 0, 18, 117, 0, 0, 0, 14, 16]

/-- The example as a `dns_rdata_t` of class IN (1) and type SOA (6). -/
def soa_example : dns_rdata_t :=
  ⟨1, 6, soa_example_mname ++ (soa_example_rname ++ soa_example_tail)⟩

/-- An empty message buffer of 64 bytes whose first two bytes are in use. -/
def example_message : isc_buffer_t :=
  ⟨List.replicate 64 0, 2, 0⟩

/-- An empty decoding target of 60 bytes whose first three bytes are in use. -/
def example_target : isc_buffer_t :=
  ⟨List.replicate 60 7, 3, 0⟩

/-! ## `lib/dns/rdata/hs_4/a_1.c` -/

/-- The C `fromwire_hs_a(rdclass, type, source, dctx, downcase, target)`.  Returns
the result code with the source and target buffers as the call leaves them. -/
def fromwire_hs_a (rdclass type : Nat) (source : isc_buffer_t) (dctx : dns_decompress_t)
    (downcase : Bool) (target : isc_buffer_t) :
    Outcome (Result × isc_buffer_t × isc_buffer_t) :=
  if type ≠ 1 then .aborted
  else if rdclass ≠ 4 then .aborted
  else
    let _ := dctx
    let _ := downcase
    let sregion := isc_buffer_activeregion source
    let tregion := isc_buffer_availableregion target
    if sregion.length < 4 then .returned (.unexpectedend, source, target)
    else if tregion.length < 4 then .returned (.nospace, source, target)
    else
      let target :=
        { target with base := memcpy target.base tregion.base source.base sregion.base 4 }
      (isc_buffer_forward source 4).bind fun source =>
      (isc_buffer_add target 4).bind fun target =>
      .returned (.success, source, target)

/-- The C `towire_hs_a(rdata, cctx, target)`.  Returns the result code with the
target buffer as the call leaves it. -/
def towire_hs_a (rdata : dns_rdata_t) (cctx : dns_compress_t) (target : isc_buffer_t) :
    Outcome (Result × isc_buffer_t) :=
  if rdata.type ≠ 1 then .aborted
  else if rdata.rdclass ≠ 4 then .aborted
  else
    let _ := cctx
    let region := isc_buffer_availableregion target
    if region.length < rdata.length then .returned (.nospace, target)
    else
      let target :=
        { target with base := memcpy target.base region.base rdata.data 0 rdata.length }
      (isc_buffer_add target 4).bind fun target =>
      .returned (.success, target)

/-! ## Further collaborators of the rdata files -/

/-- The C `memcmp(s1, s2, n)` on byte lists: the difference of the first two
bytes that differ among the first `n`, and `0` when there is none (the C
standard fixes only the sign).  Bytes past the end of a list are not read:
the comparison stops there with `0`. -/
def memcmp : List Nat → List Nat → Nat → Int
  | _, _, 0 => 0
  | [], _, _ + 1 => 0
  | _ :: _, [], _ + 1 => 0
  | a :: s1, b :: s2, n + 1 => if a = b then memcmp s1 s2 n else (a : Int) - (b : Int)

/-- Modelled from the spec: `uint32_fromregion(region)` (lib/dns/rdata.c is not
among the sources); spec 6: "all integers big-endian".  A region of fewer than
four bytes is a bounds error. -/
def uint32_fromregion (region : List Nat) : Outcome Nat :=
  if region.length < 4 then .aborted
  else .returned (region.getD 0 0 % 256 * 2 ^ 24 + region.getD 1 0 % 256 * 2 ^ 16 +
    region.getD 2 0 % 256 * 2 ^ 8 + region.getD 3 0 % 256)

/-- Modelled from the spec: `dns_rdatacommon_t`, the head of every struct
form (dns/rdatastruct.h is not among the sources): class, type, and the list
link, which `ISC_LINK_INIT` leaves unlinked (`none`). -/
structure dns_rdatacommon_t where
  rdclass : Nat
  rdtype : Nat
  link : Option Nat
  deriving DecidableEq

/-- Modelled from the spec: `dns_rdata_soa_t`; spec 3: "two names plus five
unsigned 32-bit fields".  The field names are those `tostruct_soa` assigns. -/
structure dns_rdata_soa_t where
  common : dns_rdatacommon_t
  origin : List Nat
  mname : List Nat
  serial : Nat
  refresh : Nat
  retry : Nat
  expire : Nat
  minimum : Nat
  deriving DecidableEq

/-- Modelled from the spec: `dns_rdata_hs_a_t`: the common head and
`in_addr.s_addr`, a 32-bit value. -/
structure dns_rdata_hs_a_t where
  common : dns_rdatacommon_t
  in_addr : Nat
  deriving DecidableEq

/-- The C `htonl(n)`: `n` itself on a big-endian host (`be = true`), its four
bytes reversed on a little-endian one. -/
def htonl (be : Bool) (n : Nat) : Nat :=
  if be then n % 2 ^ 32
  else (n % 256) * 2 ^ 24 + (n / 2 ^ 8 % 256) * 2 ^ 16 + (n / 2 ^ 16 % 256) * 2 ^ 8 +
    (n / 2 ^ 24 % 256)

/-- The type of `dns_name_rdatacompare(name1, name2)` (lib/dns/name.c is not
among the sources): an `int`. -/
abbrev NameCompare :=
  List Nat → List Nat → Int

/-- The type of `compare_region(r1, r2)` (lib/dns/rdata.c is not among the
sources): an `int`. -/
abbrev RegionCompare :=
  List Nat → List Nat → Int

/-- The type of a digest callback `dns_digestfunc_t`, `(digest)(arg, &r)`:
`arg` is the callback's state, of type `α`; the call hands back a result and
the state it leaves. -/
abbrev DigestFunc (α : Type) :=
  α → List Nat → Result × α

/-- The type of `dns_name_digest(name, digest, arg)` (lib/dns/name.c is not
among the sources). -/
abbrev NameDigest (α : Type) :=
  List Nat → DigestFunc α → α → Result × α

/-! ## `soa_6.c`, continued -/

/-- The C `compare_soa(rdata1, rdata2)`. -/
def compare_soa (dns_name_fromregion : NameFromregion)
    (dns_name_rdatacompare : NameCompare) (compare_region : RegionCompare)
    (rdata1 rdata2 : dns_rdata_t) : Outcome Int :=
  if rdata1.type ≠ rdata2.type then .aborted
  else if rdata1.rdclass ≠ rdata2.rdclass then .aborted
  else if rdata1.type ≠ 6 then .aborted
  else
    let region1 := rdata1.data
    let region2 := rdata2.data
    let name1 := dns_name_fromregion region1
    let name2 := dns_name_fromregion region2
    let result := dns_name_rdatacompare name1 name2
    if result ≠ 0 then .returned result
    else
      (isc_region_consume region1 (name_length name1)).bind fun region1 =>
      (isc_region_consume region2 (name_length name2)).bind fun region2 =>
      let name1 := dns_name_fromregion region1
      let name2 := dns_name_fromregion region2
      let result := dns_name_rdatacompare name1 name2
      if result ≠ 0 then .returned result
      else
        (isc_region_consume region1 (name_length name1)).bind fun region1 =>
        (isc_region_consume region2 (name_length name2)).bind fun region2 =>
        .returned (compare_region region1 region2)

/-- The C `tostruct_soa(rdata, target, mctx)`.  `target` is the struct the
pointer refers to, `none` for `NULL`; the struct as the call leaves it is
returned with the result code.  `mctx` is unused. -/
def tostruct_soa (dns_name_fromregion : NameFromregion) (rdata : dns_rdata_t)
    (target : Option dns_rdata_soa_t) : Outcome (Result × dns_rdata_soa_t) :=
  if rdata.type ≠ 6 then .aborted
  else
    match target with
    | none => .aborted
    | some soa =>
      let soa := { soa with common := ⟨rdata.rdclass, rdata.type, none⟩ }
      let region := rdata.data
      let soa := { soa with origin := dns_name_fromregion region }
      (isc_region_consume region (name_length soa.origin)).bind fun region =>
      let soa := { soa with mname := dns_name_fromregion region }
      (isc_region_consume region (name_length soa.mname)).bind fun region =>
      (uint32_fromregion region).bind fun serial =>
      let soa := { soa with serial := serial }
      (isc_region_consume region 4).bind fun region =>
      (uint32_fromregion region).bind fun refresh =>
      let soa := { soa with refresh := refresh }
      (isc_region_consume region 4).bind fun region =>
      (uint32_fromregion region).bind fun retry =>
      let soa := { soa with retry := retry }
      (isc_region_consume region 4).bind fun region =>
      (uint32_fromregion region).bind fun expire =>
      let soa := { soa with expire := expire }
      (isc_region_consume region 4).bind fun region =>
      (uint32_fromregion region).bind fun minimum =>
      let soa := { soa with minimum := minimum }
      .returned (.success, soa)

/-- The C `digest_soa(rdata, digest, arg)`.  Returns the result code and the
callback state. -/
def digest_soa {α : Type} (dns_name_fromregion : NameFromregion)
    (dns_name_digest : NameDigest α) (rdata : dns_rdata_t) (digest : DigestFunc α)
    (arg : α) : Outcome (Result × α) :=
  if rdata.type ≠ 6 then .aborted
  else
    let r := rdata.data
    let name := dns_name_fromregion r
    let (result, arg) := dns_name_digest name digest arg
    if result ≠ .success then .returned (result, arg)
    else
      (isc_region_consume r (name_length name)).bind fun r =>
      let name := dns_name_fromregion r
      let (result, arg) := dns_name_digest name digest arg
      if result ≠ .success then .returned (result, arg)
      else
        (isc_region_consume r (name_length name)).bind fun r =>
        .returned (digest arg r)

/-! ## `a_1.c`, continued -/

/-- The C `compare_hs_a(rdata1, rdata2)`. -/
def compare_hs_a (rdata1 rdata2 : dns_rdata_t) : Outcome Int :=
  if rdata1.type ≠ rdata2.type then .aborted
  else if rdata1.rdclass ≠ rdata2.type then .aborted
  else if rdata1.type ≠ 1 then .aborted
  else if rdata1.rdclass ≠ 4 then .aborted
  else
    let order := memcmp rdata1.data rdata2.data 4
    let order := if order ≠ 0 then (if order < 0 then -1 else 1) else order
    .returned order

/-- The C `fromstruct_hs_a(rdclass, type, source, target)`.  `source` is the
struct behind the `void *`, of any type.  Returns the result code and the
target buffer. -/
def fromstruct_hs_a {α : Type} (rdclass type : Nat) (source : α) (target : isc_buffer_t) :
    Outcome (Result × isc_buffer_t) :=
  if type ≠ 1 then .aborted
  else if rdclass ≠ 4 then .aborted
  else
    let _ := source
    .returned (.notimplemented, target)

/-- The C `tostruct_hs_a(rdata, target, mctx)`.  `target` is the struct the
pointer refers to; the struct as the call leaves it is returned with the
result code.  `be` is the host byte order for `htonl`.  `mctx` is unused. -/
def tostruct_hs_a (be : Bool) (rdata : dns_rdata_t) (target : dns_rdata_hs_a_t) :
    Outcome (Result × dns_rdata_hs_a_t) :=
  if rdata.type ≠ 1 then .aborted
  else if rdata.rdclass ≠ 4 then .aborted
  else
    let a := { target with common := ⟨rdata.rdclass, rdata.type, none⟩ }
    let region := rdata.data
    (uint32_fromregion region).bind fun n =>
    let a := { a with in_addr := htonl be n }
    .returned (.success, a)

/-- The C `ISC_FALSE`. -/
def ISC_FALSE : Bool := false

/-- The C `freestruct_hs_a(source)`.  `source` is the struct the pointer
refers to, `none` for `NULL`.  The two lines of the body are
`REQUIRE(source != NULL);` and `REQUIRE(ISC_FALSE);`. -/
def freestruct_hs_a (source : Option dns_rdata_hs_a_t) : Outcome Unit :=
  if source = none then .aborted
  else if ISC_FALSE = false then .aborted
  else .returned ()

/-- The C `freestruct_soa(source)`: `REQUIRE(source != NULL)`,
`REQUIRE(soa->common.rdtype == 6)`, then "No action required". -/
def freestruct_soa (source : Option dns_rdata_soa_t) : Outcome Unit :=
  match source with
  | none => .aborted
  | some soa => if soa.common.rdtype ≠ 6 then .aborted else .returned ()

/-- Modelled from the spec: `compare_region(r1, r2)` (lib/dns/rdata.c is not
among the sources); spec 4.3: the "remaining fixed fields byte-by-byte".  The
common prefix is compared with `memcmp`, then the lengths; the value is `-1`,
`0` or `1`. -/
def plain_compare_region : RegionCompare :=
  fun r1 r2 =>
    let result := memcmp r1 r2 (min r1.length r2.length)
    if result ≠ 0 then (if result < 0 then -1 else 1)
    else if r1.length = r2.length then 0
    else if r1.length < r2.length then -1 else 1

/-- A digest callback that records the spans it is given and always
succeeds. -/
def recording_digest : DigestFunc (List (List Nat)) :=
  fun arg r => (.success, arg ++ [r])

/-- A digest callback that records the spans it is given and fails, with
result code 7, on a span of more than 13 bytes. -/
def failing_digest : DigestFunc (List (List Nat)) :=
  fun arg r => (if r.length ≤ 13 then .success else .other 7, arg ++ [r])

/-- Modelled from the spec: `dns_name_digest(name, digest, arg)` for a name
given by its wire bytes: the callback is run on those bytes (spec 4.3: "feed
the record's canonical ... bytes to a caller-supplied hashing callback"). -/
def plain_name_digest {α : Type} : NameDigest α :=
  fun name digest arg => digest arg name

/-- The example with serial 2020010101. -/
def soa_example_next : dns_rdata_t :=
  ⟨1, 6, soa_example_mname ++ (soa_example_rname ++
    ([120, 102, 232, 117] ++ soa_example_tail.drop 4))⟩

/-- A struct form with every field zero. -/
def blank_hs_a : dns_rdata_hs_a_t :=
  ⟨⟨0, 0, none⟩, 0⟩

/-! ## Text form: tokens, numbers and names -/

/-- The characters of a C string literal, as bytes. -/
def cstr (s : String) : List Nat :=
  s.data.map Char.toNat

/-- Modelled from the spec: `isc_tokentype_t`, the two kinds of token
`fromtext_soa` asks for (isc/lex.h is not among the sources); spec 6: "typed
tokens (string/number)". -/
inductive isc_tokentype_t where
  | isc_tokentype_string
  | isc_tokentype_number
  deriving DecidableEq

/-- Modelled from the spec: `isc_token_t`: a string token carries its text
(`value.as_region`), a number token its value (`value.as_ulong`). -/
inductive isc_token_t where
  | string (as_region : List Nat)
  | number (as_ulong : Nat)
  deriving DecidableEq

/-- The C `token.value.as_region`. -/
def isc_token_t.as_region : isc_token_t → List Nat
  | .string r => r
  | .number _ => []

/-- The C `token.value.as_ulong`. -/
def isc_token_t.as_ulong : isc_token_t → Nat
  | .string _ => 0
  | .number n => n

/-- Modelled from the spec: `isc_lex_t`, the lexer, as the tokens it has still
to supply. -/
abbrev isc_lex_t := List isc_token_t

/-- Modelled from the spec: `gettoken(lexer, &token, expect, ISC_FALSE)`
(lib/dns/rdata.c is not among the sources); spec 4.3 and 6: the tokenizer
supplies the next token, and `fromtext` "fails on ... wrong token kind".
`unexpectedend` when no token is left, `other 1` for a token of the wrong
kind; the lexer keeps a token it did not deliver. -/
def gettoken (lexer : isc_lex_t) (expect : isc_tokentype_t) :
    Result × isc_token_t × isc_lex_t :=
  match lexer, expect with
  | [], _ => (.unexpectedend, .string [], [])
  | .string r :: rest, .isc_tokentype_string => (.success, .string r, rest)
  | .number n :: rest, .isc_tokentype_number => (.success, .number n, rest)
  | token :: rest, _ => (.other 1, token, token :: rest)

/-- The four bytes of a 32-bit value, most significant first. -/
def uint32_bytes (value : Nat) : List Nat :=
  [value / 2 ^ 24 % 256, value / 2 ^ 16 % 256, value / 2 ^ 8 % 256, value % 256]

/-- Modelled from the spec: `uint32_tobuffer(value, target)` (lib/dns/rdata.c
is not among the sources); spec 6: "all integers big-endian", spec 4.2:
"insufficient space in the destination buffer ... → NoSpace". -/
def uint32_tobuffer (value : Nat) (target : isc_buffer_t) : Result × isc_buffer_t :=
  if (isc_buffer_available target).length < 4 then (.nospace, target)
  else (.success, target.put (uint32_bytes value))

/-- Modelled from the spec: `str_totext(source, target)` (lib/dns/rdata.c is
not among the sources): the string is appended to the target when it fits,
`nospace` otherwise. -/
def str_totext (source : List Nat) (target : isc_buffer_t) : Result × isc_buffer_t :=
  if (isc_buffer_available target).length < source.length then (.nospace, target)
  else (.success, target.put source)

/-- Modelled from the spec: `dns_rootname`, the name that is the zero-length
terminator alone. -/
def dns_rootname : List Nat := [0]

/-- The type of `dns_name_fromtext(name, source, origin, downcase, target)`
(lib/dns/name.c is not among the sources): from the text of the name, the
origin and the `downcase` flag, the result code and the target buffer as the
call leaves it. -/
abbrev NameFromtext :=
  List Nat → List Nat → Bool → isc_buffer_t → Result × isc_buffer_t

/-- The C macro `RETERR(x)` followed by the rest of the function `k`: a
result other than success is returned at once. -/
def RETERR {α : Type} (x : Result × α) (k : α → Outcome (Result × α)) :
    Outcome (Result × α) :=
  if x.1 ≠ .success then .returned x else k x.2

/-! ## `soa_6.c`: text form -/

/-- The first loop of `fromtext_soa`, with `n` iterations left:
`gettoken` for a string, `dns_name_init`, `buffer_fromregion`,
`origin = (origin != NULL) ? origin : dns_rootname`, `dns_name_fromtext`.
Returns the result, the lexer and the target. -/
def fromtext_soa_names (dns_name_fromtext : NameFromtext) (downcase : Bool) :
    Nat → isc_lex_t → Option (List Nat) → isc_buffer_t →
      Result × isc_lex_t × isc_buffer_t
  | 0, lexer, _, target => (.success, lexer, target)
  | n + 1, lexer, origin, target =>
    let (result, token, lexer) := gettoken lexer .isc_tokentype_string
    if result ≠ .success then (result, lexer, target)
    else
      let buffer := token.as_region
      let origin := if origin ≠ none then origin else some dns_rootname
      let (result, target) :=
        dns_name_fromtext buffer (origin.getD dns_rootname) downcase target
      if result ≠ .success then (result, lexer, target)
      else fromtext_soa_names dns_name_fromtext downcase n lexer origin target

/-- The second loop of `fromtext_soa`, with `n` iterations left: `gettoken`
for a number, then `uint32_tobuffer(token.value.as_ulong, target)`. -/
def fromtext_soa_numbers : Nat → isc_lex_t → isc_buffer_t →
    Result × isc_lex_t × isc_buffer_t
  | 0, lexer, target => (.success, lexer, target)
  | n + 1, lexer, target =>
    let (result, token, lexer) := gettoken lexer .isc_tokentype_number
    if result ≠ .success then (result, lexer, target)
    else
      let (result, target) := uint32_tobuffer token.as_ulong target
      if result ≠ .success then (result, lexer, target)
      else fromtext_soa_numbers n lexer target

/-- The C `fromtext_soa(rdclass, type, lexer, origin, downcase, target)`.
`origin` is `none` for `NULL`.  Returns the result code with the lexer and the
target buffer as the call leaves them. -/
def fromtext_soa (dns_name_fromtext : NameFromtext) (rdclass type : Nat)
    (lexer : isc_lex_t) (origin : Option (List Nat)) (downcase : Bool)
    (target : isc_buffer_t) : Outcome (Result × isc_lex_t × isc_buffer_t) :=
  if type ≠ 6 then .aborted
  else
    let _ := rdclass
    let (result, lexer, target) :=
      fromtext_soa_names dns_name_fromtext downcase 2 lexer origin target
    if result ≠ .success then .returned (result, lexer, target)
    else
      let (result, lexer, target) := fromtext_soa_numbers 5 lexer target
      if result ≠ .success then .returned (result, lexer, target)
      else .returned (.success, lexer, target)

/-- Modelled from the spec: `dns_name_fromtext` for the witness: the text is
split at the dots into labels, each written as a length byte and its bytes;
a text that ends in a dot is absolute and gets the terminator, any other gets
the origin appended.  `other 2` for an empty or over-long label. -/
def plain_name_fromtext : NameFromtext :=
  fun source origin _ target =>
    let labels := source.splitOn 46
    let absolute := labels.getLast? = some []
    let labels := if absolute then labels.dropLast else labels
    if labels.any (fun l => l.length = 0 ∨ 63 < l.length) then (.other 2, target)
    else
      let wire := (labels.map (fun l => l.length :: l)).flatten ++
        (if absolute then [0] else origin)
      if (isc_buffer_available target).length < wire.length then (.nospace, target)
      else (.success, target.put wire)

/-- A struct form with every field zero or empty. -/
def blank_soa : dns_rdata_soa_t :=
  ⟨⟨0, 0, none⟩, [], [], 0, 0, 0, 0, 0⟩

/-- The tokens of the spec's example
`ns1.example. hostmaster.example. ( 2020010100 3600 600 1209600 3600 )`. -/
def soa_example_tokens : isc_lex_t :=
  [.string (cstr "ns1.example."), .string (cstr "hostmaster.example."),
   .number 2020010100, .number 3600, .number 600, .number 1209600, .number 3600]

/-- Modelled from the spec: `dns_rdata_textctx_t` (lib/dns/rdata.c is not among
the sources): the origin names are printed relative to, the style flags, and
the string that separates lines. -/
structure dns_rdata_textctx_t where
  origin : Option (List Nat)
  flags : Nat
  linebreak : List Nat
  deriving DecidableEq

/-- The type of the function in `sub = name_prefix(name, origin, &prefix)`
(lib/dns/rdata.c is not among the sources): the flag returned and the name
stored. -/
abbrev NamePrefixFn :=
  List Nat → Option (List Nat) → Bool × List Nat

/-- The type of `dns_name_totext(name, omit_final_dot, target)` (lib/dns/name.c
is not among the sources). -/
abbrev NameTotext :=
  List Nat → Bool → isc_buffer_t → Result × isc_buffer_t

/-- The type of `dns_ttl_totext(ttl, verbose, target)` (lib/dns/ttl.c is not
among the sources). -/
abbrev TtlTotext :=
  Nat → Bool → isc_buffer_t → Result × isc_buffer_t

/-- The decimal digits of `n`, most significant first, as characters; `fuel`
bounds their number. -/
def decimal_digits : Nat → Nat → List Nat
  | 0, _ => []
  | fuel + 1, n =>
    if n < 10 then [48 + n] else decimal_digits fuel (n / 10) ++ [48 + n % 10]

/-- The characters `sprintf(buf, "%lu", num)` stores before the terminator; an
`unsigned long` has at most 20 digits. -/
def sprintf_lu (num : Nat) : List Nat :=
  decimal_digits 20 num

/-- The C `soa_fieldnames`. -/
def soa_fieldnames : List (List Nat) :=
  [cstr "serial", cstr "refresh", cstr "retry", cstr "expire", cstr "minimum"]

/-- Lines 104-123 of `totext_soa`, the text for field `i` with value `num`:
`sprintf`, the `INSIST` on `numlen` (`sizeof "2147483647"` is 11), the number,
then the annotation or the single space.  `MULTILINE` and `COMMENT` are
`DNS_STYLEFLAG_MULTILINE` and `DNS_STYLEFLAG_COMMENT` (dns/rdata.h is not among
the sources). -/
def totext_soa_number (dns_ttl_totext : TtlTotext) (MULTILINE COMMENT : Nat)
    (tctx : dns_rdata_textctx_t) (i num : Nat) (target : isc_buffer_t) :
    Outcome (Result × isc_buffer_t) :=
  let buf := sprintf_lu num
  let numlen := buf.length
  if ¬ (numlen > 0 ∧ numlen < 11) then .aborted
  else
    RETERR (str_totext buf target) fun target =>
    if tctx.flags &&& (MULTILINE ||| COMMENT) = (MULTILINE ||| COMMENT) then
      RETERR (str_totext ((cstr "           ; ").drop numlen) target) fun target =>
      RETERR (str_totext (soa_fieldnames.getD i []) target) fun target =>
      (if i ≥ 1 then
        RETERR (str_totext (cstr " (") target) fun target =>
        RETERR (dns_ttl_totext num true target) fun target =>
        RETERR (str_totext (cstr ")") target) fun target =>
        .returned (.success, target)
      else .returned (.success, target)).bind fun annotated =>
      RETERR annotated fun target =>
      RETERR (str_totext tctx.linebreak target) fun target =>
      .returned (.success, target)
    else
      RETERR (str_totext (cstr " ") target) fun target =>
      .returned (.success, target)

/-- The loop `for (i = 0; i < 5; i++)` of `totext_soa`, with `n` iterations
left: `uint32_fromregion`, `isc_region_consume(&dregion, 4)`, then the text
of the field. -/
def totext_soa_numbers (dns_ttl_totext : TtlTotext) (MULTILINE COMMENT : Nat)
    (tctx : dns_rdata_textctx_t) :
    Nat → Nat → List Nat → isc_buffer_t → Outcome (Result × isc_buffer_t)
  | 0, _, _, target => .returned (.success, target)
  | n + 1, i, dregion, target =>
    (uint32_fromregion dregion).bind fun num =>
    (isc_region_consume dregion 4).bind fun dregion =>
    (totext_soa_number dns_ttl_totext MULTILINE COMMENT tctx i num target).bind fun field =>
    RETERR field fun target =>
    totext_soa_numbers dns_ttl_totext MULTILINE COMMENT tctx n (i + 1) dregion target

/-- The C `totext_soa(rdata, tctx, target)`.  Returns the result code and the
target buffer as the call leaves it. -/
def totext_soa (name_prefix_fn : NamePrefixFn) (dns_name_totext : NameTotext)
    (dns_ttl_totext : TtlTotext) (MULTILINE COMMENT : Nat)
    (dns_name_fromregion : NameFromregion) (rdata : dns_rdata_t)
    (tctx : dns_rdata_textctx_t) (target : isc_buffer_t) :
    Outcome (Result × isc_buffer_t) :=
  if rdata.type ≠ 6 then .aborted
  else
    let dregion := rdata.data
    let mname := dns_name_fromregion dregion
    (isc_region_consume dregion (name_length mname)).bind fun dregion =>
    let rname := dns_name_fromregion dregion
    (isc_region_consume dregion (name_length rname)).bind fun dregion =>
    let (sub, pfx) := name_prefix_fn mname tctx.origin
    RETERR (dns_name_totext pfx sub target) fun target =>
    RETERR (str_totext (cstr " ") target) fun target =>
    let (sub, pfx) := name_prefix_fn rname tctx.origin
    RETERR (dns_name_totext pfx sub target) fun target =>
    RETERR (str_totext (cstr " (") target) fun target =>
    RETERR (str_totext tctx.linebreak target) fun target =>
    (totext_soa_numbers dns_ttl_totext MULTILINE COMMENT tctx 5 0 dregion target).bind
      fun fields =>
    RETERR fields fun target =>
    RETERR (str_totext (cstr ")") target) fun target =>
    .returned (.success, target)

/-- Modelled from the spec: `name_prefix` for the witness: the name is printed
whole, whatever the origin. -/
def plain_prefix_fn : NamePrefixFn :=
  fun name _ => (false, name)

/-- The dotted text of an uncompressed wire name. -/
def plain_name_text : Nat → List Nat → List Nat
  | 0, _ => []
  | _ + 1, [] => []
  | fuel + 1, n :: rest =>
    if n = 0 then [] else rest.take n ++ [46] ++ plain_name_text fuel (rest.drop n)

/-- Modelled from the spec: `dns_name_totext` for the witness: the labels of
the name, each followed by a dot. -/
def plain_name_totext : NameTotext :=
  fun name _ target => str_totext (plain_name_text name.length name) target

/-- Modelled from the spec: `dns_ttl_totext` for the witness; spec 4.3: a
"human duration annotation (weeks/days/hours/minutes/seconds)", here in the
form `2w1d3h4m5s`, with `0s` for zero. -/
def plain_ttl_totext : TtlTotext :=
  fun ttl _ target =>
    let part (n : Nat) (c : Nat) : List Nat := if n = 0 then [] else sprintf_lu n ++ [c]
    let text := part (ttl / 604800) 119 ++ part (ttl % 604800 / 86400) 100 ++
      part (ttl % 86400 / 3600) 104 ++ part (ttl % 3600 / 60) 109 ++ part (ttl % 60) 115
    str_totext (if ttl = 0 then cstr "0s" else text) target

/-- An empty text target of 48 bytes. -/
def example_text_target : isc_buffer_t :=
  ⟨List.replicate 48 0, 0, 0⟩

/-! ## `random.c`: the rejection threshold and the reference sampler -/

/-- Line 204 of `isc_random_uniform`, `uint32_t residue = (uint32_t)(-limit) % limit;`,
as the function computes it: `-limit` on `uint32_t` is `(2 ^ 32 - limit) % 2 ^ 32`. -/
def isc_random_uniform_residue (limit : Nat) : Nat :=
  ((2 ^ 32 - limit) % 2 ^ 32) % limit

/-- Reference sampler, from the words of the specification and not from the
code: with the threshold given, it draws, and redraws while the low 32 bits of
`draw * limit` are below the threshold; it returns the high 32 bits.  `fuel`
is the number of redraws it may make. -/
def reference_uniform_loop {σ : Type} (nxt : σ → Nat × σ) (limit threshold : Nat) :
    Nat → σ → Outcome (Nat × σ)
  | 0, s =>
    if ((nxt s).1 * limit) % 2 ^ 32 < threshold then .unfinished
    else .returned (((nxt s).1 * limit) / 2 ^ 32, (nxt s).2)
  | fuel + 1, s =>
    if ((nxt s).1 * limit) % 2 ^ 32 < threshold then
      reference_uniform_loop nxt limit threshold fuel (nxt s).2
    else .returned (((nxt s).1 * limit) / 2 ^ 32, (nxt s).2)

/-- Reference sampler, from the words of the specification: it always computes
the threshold `2 ^ 32 mod limit` and then samples by rejection. -/
def reference_uniform {σ : Type} (nxt : σ → Nat × σ) (fuel limit : Nat) (s : σ) :
    Outcome (Nat × σ) :=
  reference_uniform_loop nxt limit (2 ^ 32 % limit) fuel s

/-- The generator `nxt` with a counter of the draws made. -/
def counted {σ : Type} (nxt : σ → Nat × σ) : σ × Nat → Nat × (σ × Nat) :=
  fun s => ((nxt s.1).1, ((nxt s.1).2, s.2 + 1))

/-! ## Collaborators that report the methods they are given -/

/-- A name encoder that writes nothing and reports in its result code whether
all compression methods were permitted when it was called: `other 1` if so,
`other 0` if not. -/
def methods_probe_towire : NameTowire :=
  fun _ cctx target =>
    (.other (if cctx.allowed = .DNS_COMPRESS_ALL then 1 else 0), cctx, target)

/-- The number a string of decimal digit characters denotes. -/
def decimal_value (digits : List Nat) : Nat :=
  digits.foldl (fun acc c => 10 * acc + (c - 48)) 0

/-! # Theorems -/


/-! ## Lemmas on `random.c` -/

theorem lor_eq_zero {a b : Nat} (h : a ||| b = 0) : a = 0 ∧ b = 0 := by
  constructor <;> apply Nat.eq_of_testBit_eq <;> intro i <;>
    have := congrArg (fun n => n.testBit i) h <;>
    simp [Nat.testBit_or] at this ⊢ <;> simp [this]

theorem rotl_eq_zero {x k : Nat} (hk : k < 32) (h : rotl x k = 0) : x = 0 := by
  unfold rotl at h
  obtain ⟨h1, h2⟩ := lor_eq_zero h
  rw [Nat.shiftLeft_eq] at h1
  rw [Nat.shiftRight_eq_div_pow] at h2
  have h3 : x < 2 ^ (32 - k) := by
    rcases Nat.lt_or_ge x (2 ^ (32 - k)) with h | h
    · exact h
    · have := Nat.div_pos h (Nat.pos_pow_of_pos _ (by norm_num)); omega
  have h4 : x * 2 ^ k < 2 ^ 32 := by
    calc x * 2 ^ k < 2 ^ (32 - k) * 2 ^ k :=
          Nat.mul_lt_mul_of_pos_right h3 (Nat.pos_pow_of_pos _ (by norm_num))
      _ = 2 ^ 32 := by rw [← pow_add]; congr 1; omega
  rw [Nat.mod_eq_of_lt h4] at h1
  rcases Nat.mul_eq_zero.mp h1 with h | h
  · exact h
  · exact absurd h (by positivity)

/-- The state transition of `next()` maps no state but the all-zero one to the
all-zero state. -/
theorem next_state_ne_zero (s : Seed) (h : ¬ s.allZero) : ¬ (next s).2.allZero := by
  intro hz
  apply h
  simp only [next, Seed.allZero] at hz
  obtain ⟨z0, z1, z2, z3⟩ := hz
  have e3 : s.s3 ^^^ s.s1 = 0 := rotl_eq_zero (by norm_num) z3
  rw [e3, Nat.xor_zero] at z0
  rw [z0, Nat.xor_zero] at z1 z2
  have e12 := Nat.xor_eq_zero.mp z1
  have e31 := Nat.xor_eq_zero.mp e3
  have e2 := Nat.xor_eq_zero.mp z2
  rw [Nat.shiftLeft_eq] at e2
  refine ⟨z0, ?_, ?_, ?_⟩ <;> norm_num at e2 <;> omega

/-- Every output of `next()` is a `uint32_t`. -/
theorem next_output_lt (s : Seed) : (next s).1 < 2 ^ 32 :=
  Nat.mod_lt _ (by norm_num)

theorem rotl_lt (x k : Nat) (hx : x < 2 ^ 32) : rotl x k < 2 ^ 32 := by
  unfold rotl
  apply Nat.or_lt_two_pow
  · exact Nat.mod_lt _ (by norm_num)
  · rw [Nat.shiftRight_eq_div_pow]
    exact lt_of_le_of_lt (Nat.div_le_self _ _) hx

/-- The four words stay `uint32_t` values under `next()`. -/
theorem next_state_WF (s : Seed) (h : s.WF) : (next s).2.WF := by
  obtain ⟨h0, h1, h2, h3⟩ := h
  have ht : (s.s1 <<< 9) % 2 ^ 32 < 2 ^ 32 := Nat.mod_lt _ (by norm_num)
  refine ⟨?_, ?_, ?_, ?_⟩
  · exact Nat.xor_lt_two_pow h0 (Nat.xor_lt_two_pow h3 h1)
  · exact Nat.xor_lt_two_pow h1 (Nat.xor_lt_two_pow h2 h0)
  · exact Nat.xor_lt_two_pow (Nat.xor_lt_two_pow h2 h0) ht
  · exact rotl_lt _ _ (Nat.xor_lt_two_pow h3 h1)

section invariants

variable {σ : Type} (nxt : σ → Nat × σ)

theorem drawn_succ (n : Nat) (s : σ) :
    drawn nxt (n + 1) s = (nxt (drawn nxt n s)).2 := by
  induction n generalizing s with
  | zero => rfl
  | succ n ih => exact ih (nxt s).2

/-- A property of the generator state that `nxt` keeps is kept by any number
of draws. -/
theorem drawn_keeps (P : σ → Prop) (hP : ∀ s, P s → P (nxt s).2) (n : Nat) (s : σ)
    (h : P s) : P (drawn nxt n s) := by
  induction n generalizing s with
  | zero => exact h
  | succ n ih => exact ih _ (hP s h)

theorem isc_random_uniform_loop_keeps (P : σ → Prop) (hP : ∀ s, P s → P (nxt s).2)
    (limit residue fuel num : Nat) (s : σ) (num' : Nat) (s' : σ) (h : P s)
    (hr : isc_random_uniform_loop nxt limit residue fuel num s = .returned (num', s')) :
    P s' := by
  induction fuel generalizing num s with
  | zero =>
    unfold isc_random_uniform_loop at hr
    split at hr
    · cases hr
    · cases hr; exact h
  | succ f ih =>
    unfold isc_random_uniform_loop at hr
    split at hr
    · exact ih _ _ (hP s h) hr
    · cases hr; exact h

theorem isc_random_uniform_keeps (P : σ → Prop) (hP : ∀ s, P s → P (nxt s).2)
    (fuel limit : Nat) (s : σ) (v : Nat) (s' : σ) (h : P s)
    (hr : isc_random_uniform nxt fuel limit s = .returned (v, s')) : P s' := by
  unfold isc_random_uniform at hr
  simp only at hr
  split at hr
  · split at hr
    · next num1 s1 hl =>
      cases hr
      exact isc_random_uniform_loop_keeps nxt P hP _ _ _ _ _ _ _ (hP s h) hl
    all_goals cases hr
  · cases hr; exact hP s h

theorem isc_random_buf_loop_keeps (P : σ → Prop) (hP : ∀ s, P s → P (nxt s).2)
    (be : Bool) (buf buflen fuel i : Nat) (mem : Mem) (s : σ) (i' : Nat) (mem' : Mem)
    (s' : σ) (h : P s)
    (hr : isc_random_buf_loop nxt be buf buflen fuel i mem s = .returned (i', mem', s')) :
    P s' := by
  induction fuel generalizing i mem s with
  | zero =>
    unfold isc_random_buf_loop at hr
    split at hr
    · cases hr
    · cases hr; exact h
  | succ f ih =>
    unfold isc_random_buf_loop at hr
    simp only at hr
    split at hr
    · split at hr
      · exact ih _ _ _ (hP s h) hr
      · cases hr
    · cases hr; exact h

theorem isc_random_buf_keeps (P : σ → Prop) (hP : ∀ s, P s → P (nxt s).2)
    (be : Bool) (mem : Mem) (buf buflen : Nat) (s : σ) (mem' : Mem) (s' : σ) (h : P s)
    (hr : isc_random_buf nxt be mem buf buflen s = .returned (mem', s')) : P s' := by
  unfold isc_random_buf at hr
  split at hr
  · cases hr
  · split at hr
    · cases hr
    · split at hr
      · next i1 mem1 s1 hl =>
        cases hr
        exact hP _ (isc_random_buf_loop_keeps nxt P hP _ _ _ _ _ _ _ _ _ _ h hl)
      all_goals cases hr

end invariants



section uniform

variable {σ : Type} (nxt : σ → Nat × σ)

/-- The 64-bit product of a raw draw and a 32-bit limit stays below
`limit * 2 ^ 32` through the resample loop. -/
theorem isc_random_uniform_loop_bound (hraw : ∀ s, (nxt s).1 < 2 ^ 32)
    (limit residue fuel num : Nat) (s : σ) (num' : Nat) (s' : σ)
    (hlim : 0 < limit) (hnum : num < limit * 2 ^ 32)
    (hr : isc_random_uniform_loop nxt limit residue fuel num s = .returned (num', s')) :
    num' < limit * 2 ^ 32 := by
  induction fuel generalizing num s with
  | zero =>
    unfold isc_random_uniform_loop at hr
    split at hr
    · cases hr
    · cases hr; exact hnum
  | succ f ih =>
    unfold isc_random_uniform_loop at hr
    split at hr
    · refine ih _ _ ?_ hr
      refine lt_of_le_of_lt (Nat.mod_le _ _) ?_
      rw [Nat.mul_comm]
      exact Nat.mul_lt_mul_of_pos_left (hraw s) hlim
    · cases hr; exact hnum

theorem high_word_lt {num limit : Nat} (h : num < limit * 2 ^ 32) :
    (num >>> 32) % 2 ^ 32 < limit := by
  rw [Nat.shiftRight_eq_div_pow]
  refine lt_of_le_of_lt (Nat.mod_le _ _) ?_
  exact Nat.div_lt_of_lt_mul (by rw [Nat.mul_comm]; exact h)

end uniform

section returns

variable {σ : Type} (nxt : σ → Nat × σ)

/-- The resample loop returns as soon as the current product or one of the
next `fuel` draws is not below the threshold. -/
theorem isc_random_uniform_loop_returns (limit residue : Nat) :
    ∀ (fuel num : Nat) (s : σ),
      (¬ num % 2 ^ 32 < residue ∨
        ∃ k, k < fuel ∧ ¬ ((output nxt k s * limit) % 2 ^ 64) % 2 ^ 32 < residue) →
      ∃ num' s', isc_random_uniform_loop nxt limit residue fuel num s =
        .returned (num', s') := by
  intro fuel
  induction fuel with
  | zero =>
    intro num s h
    rcases h with h | ⟨k, hk, _⟩
    · exact ⟨num, s, by unfold isc_random_uniform_loop; rw [if_neg h]⟩
    · omega
  | succ f ih =>
    intro num s h
    by_cases hnum : num % 2 ^ 32 < residue
    · unfold isc_random_uniform_loop
      rw [if_pos hnum]
      apply ih
      rcases h with h | ⟨k, hk, hacc⟩
      · exact absurd hnum h
      · cases k with
        | zero => exact Or.inl hacc
        | succ k => exact Or.inr ⟨k, by omega, hacc⟩
    · exact ⟨num, s, by unfold isc_random_uniform_loop; rw [if_neg hnum]⟩

/-- Termination of `isc_random_uniform`: with `fuel` units for the loop it
returns whenever one of the first `fuel + 1` draws is not below the
threshold `(uint32_t)(-limit) % limit`. -/
theorem isc_random_uniform_returns (fuel limit : Nat) (s : σ)
    (h : ∃ k, k ≤ fuel ∧ ¬ ((output nxt k s * limit) % 2 ^ 64) % 2 ^ 32 <
      ((2 ^ 32 - limit) % 2 ^ 32) % limit) :
    ∃ v s', isc_random_uniform nxt fuel limit s = .returned (v, s') := by
  unfold isc_random_uniform
  simp only
  split
  · obtain ⟨k, hk, hacc⟩ := h
    have hloop := isc_random_uniform_loop_returns nxt limit
      (((2 ^ 32 - limit) % 2 ^ 32) % limit) fuel (((nxt s).1 * limit) % 2 ^ 64) (nxt s).2
      (by
        cases k with
        | zero => exact Or.inl hacc
        | succ k => exact Or.inr ⟨k, by omega, hacc⟩)
    obtain ⟨num', s', hrun⟩ := hloop
    rw [hrun]
    exact ⟨_, _, rfl⟩
  · exact ⟨_, _, rfl⟩

end returns

/-- C1: for every limit with `1 ≤ limit < 2 ^ 32`, every generator of raw
32-bit draws and every amount of fuel on which `isc_random_uniform(limit)`
returns, the value returned is strictly below `limit`. -/
theorem isc_random_uniform_lt_limit {σ : Type} (nxt : σ → Nat × σ)
    (hraw : ∀ s, (nxt s).1 < 2 ^ 32) (fuel limit : Nat) (s : σ) (v : Nat) (s' : σ)
    (h1 : 1 ≤ limit) (h2 : limit < 2 ^ 32)
    (hr : isc_random_uniform nxt fuel limit s = .returned (v, s')) : v < limit := by
  have h0 : ((nxt s).1 * limit) % 2 ^ 64 < limit * 2 ^ 32 := by
    refine lt_of_le_of_lt (Nat.mod_le _ _) ?_
    rw [Nat.mul_comm]
    exact Nat.mul_lt_mul_of_pos_left (hraw s) h1
  unfold isc_random_uniform at hr
  simp only at hr
  split at hr
  · split at hr
    · next num1 s1 hl =>
      cases hr
      exact high_word_lt
        (isc_random_uniform_loop_bound nxt hraw _ _ _ _ _ _ _ h1 h0 hl)
    all_goals cases hr
  · cases hr
    exact high_word_lt h0

/-- Witness for C1: from the seed `{0, 0, 0, 1}` the first draw is `0`, which
`limit = 3` rejects; the second draw is accepted and gives `0 < 3`. -/
theorem isc_random_uniform_lt_limit_witness :
    isc_random_uniform next 1 3 ⟨0, 0, 0, 1⟩ = .returned (0, ⟨2049, 1, 1, 4194304⟩) ∧
      (0 : Nat) < 3 :=
  ⟨by decide,
   isc_random_uniform_lt_limit next next_output_lt 1 3 ⟨0, 0, 0, 1⟩ 0 ⟨2049, 1, 1, 4194304⟩
     (by decide) (by decide) (by decide)⟩

/-- C3 (as amended): `isc_random_uniform(0)` is not rejected.  For every
generator, state and fuel it makes one draw and returns `0`. -/
theorem isc_random_uniform_zero_limit {σ : Type} (nxt : σ → Nat × σ) (fuel : Nat)
    (s : σ) : isc_random_uniform nxt fuel 0 s = .returned (0, (nxt s).2) := by
  simp [isc_random_uniform]

/-- C3 (counterexample): on the seed `{0, 0, 0, 1}` the call
`isc_random_uniform(0)` returns `0`; it does not abort. -/
theorem uniform_zero_limit_not_rejected :
    isc_random_uniform next 0 0 ⟨0, 0, 0, 1⟩ = .returned (0, ⟨1, 0, 0, 2048⟩) ∧
      isc_random_uniform next 0 0 ⟨0, 0, 0, 1⟩ ≠ .aborted := by
  constructor <;> decide

/-- C4 (the code at the failing input): when `isc_entropy_get` stores sixteen
zero bytes, `isc_random_initialize` leaves all four seed words zero, on either
byte order, and `next()` then stays in that state with output `0`. -/
theorem isc_random_initialize_zero_entropy :
    (∀ be : Bool, ( isc_random_initialize false be (fun _ => 0)).allZero) ∧
      next ( isc_random_initialize false false (fun _ => 0)) = (0, ⟨0, 0, 0, 0⟩) := by
  refine ⟨?_, by decide⟩
  intro be
  cases be <;> decide

/-- C5: `next()` keeps the state away from all-zero, and so does every draw
function: `isc_random8`, `isc_random16`, `isc_random32`, and `isc_random_buf`
and `isc_random_uniform` whenever they return. -/
theorem next_preserves_nonzero (s : Seed) (h : ¬ s.allZero) :
    ¬ (next s).2.allZero ∧
      ¬ (isc_random8 next s).2.allZero ∧
      ¬ (isc_random16 next s).2.allZero ∧
      ¬ (isc_random32 next s).2.allZero ∧
      (∀ be mem buf buflen mem' s',
        isc_random_buf next be mem buf buflen s = .returned (mem', s') → ¬ s'.allZero) ∧
      (∀ fuel limit v s',
        isc_random_uniform next fuel limit s = .returned (v, s') → ¬ s'.allZero) :=
  ⟨next_state_ne_zero s h, next_state_ne_zero s h, next_state_ne_zero s h,
   next_state_ne_zero s h,
   fun be mem buf buflen mem' s' hr =>
     isc_random_buf_keeps next (fun t => ¬ t.allZero) next_state_ne_zero
       be mem buf buflen s mem' s' h hr,
   fun fuel limit v s' hr =>
     isc_random_uniform_keeps next (fun t => ¬ t.allZero) next_state_ne_zero
       fuel limit s v s' h hr⟩

/-- Witness for C5 at the fuzzing seed `{0, 0, 0, 1}`. -/
theorem next_preserves_nonzero_witness :
    ¬ (next ⟨0, 0, 0, 1⟩).2.allZero ∧ (next ⟨0, 0, 0, 1⟩).2 = ⟨1, 0, 0, 2048⟩ :=
  ⟨(next_preserves_nonzero ⟨0, 0, 0, 1⟩ (by decide)).1, by decide⟩



/-- The threshold `(uint32_t)(-limit) % limit` is `2 ^ 32 mod limit`. -/
theorem residue_eq (limit : Nat) (h1 : 1 ≤ limit) (h2 : limit < 2 ^ 32) :
    ((2 ^ 32 - limit) % 2 ^ 32) % limit = 2 ^ 32 % limit := by
  rw [Nat.mod_eq_of_lt (by omega : 2 ^ 32 - limit < 2 ^ 32)]
  conv_rhs => rw [show 2 ^ 32 = (2 ^ 32 - limit) + limit by omega]
  rw [Nat.add_mod_right]

/-- One raw draw `r` makes `isc_random_uniform(limit)` return `v` without a
redraw exactly when the low word of `r * limit` is at least `2 ^ 32 mod limit`
and the high word is `v`. -/
theorem isc_random_uniform_single (limit r v : Nat) (h1 : 1 ≤ limit)
    (h2 : limit < 2 ^ 32) (hr : r < 2 ^ 32) :
    isc_random_uniform (constant_draw r) 0 limit () = .returned (v, ()) ↔
      (2 ^ 32 % limit ≤ (r * limit) % 2 ^ 32 ∧ (r * limit) / 2 ^ 32 = v) := by
  have hprod : r * limit < 2 ^ 64 := by
    calc r * limit ≤ r * 2 ^ 32 := Nat.mul_le_mul_left _ (le_of_lt h2)
      _ < 2 ^ 32 * 2 ^ 32 := Nat.mul_lt_mul_of_pos_right hr (by norm_num)
      _ = 2 ^ 64 := by norm_num
  have hhigh : ((r * limit) >>> 32) % 2 ^ 32 = (r * limit) / 2 ^ 32 := by
    rw [Nat.shiftRight_eq_div_pow]
    exact Nat.mod_eq_of_lt (Nat.div_lt_of_lt_mul (by
      calc r * limit < 2 ^ 64 := hprod
        _ = 2 ^ 32 * 2 ^ 32 := by norm_num))
  have hres : 2 ^ 32 % limit < limit := Nat.mod_lt _ h1
  unfold isc_random_uniform
  simp only [constant_draw, Nat.mod_eq_of_lt hprod, residue_eq limit h1 h2]
  by_cases hlow : (r * limit) % 2 ^ 32 < limit
  · rw [if_pos hlow]
    unfold isc_random_uniform_loop
    by_cases hrej : (r * limit) % 2 ^ 32 < 2 ^ 32 % limit
    · rw [if_pos hrej]
      constructor
      · intro h; cases h
      · intro h; omega
    · rw [if_neg hrej]
      simp only [hhigh, Outcome.returned.injEq, Prod.mk.injEq, and_true]
      constructor
      · intro h; exact ⟨by omega, h⟩
      · intro h; exact h.2
  · rw [if_neg hlow]
    simp only [hhigh, Outcome.returned.injEq, Prod.mk.injEq, and_true]
    constructor
    · intro h; exact ⟨by omega, h⟩
    · intro h; exact h.2

/-- The arithmetic behind the count, with the word size `W` kept abstract:
if `W = L * q + t` and `a` is the ceiling of `(v * W + t) / L`, then the draws
`r < W` whose product `r * L` has low word at least `t` and high word `v` are
those with `a ≤ r < a + q`. -/
theorem accepted_iff_mem_Ico (W L q t v a : Nat) (hL : 0 < L) (hWpos : 0 < W)
    (hdecomp : L * q + t = W) (hv : v < L)
    (hceil : ∀ r, a ≤ r ↔ v * W + t ≤ r * L) (r : Nat) :
    (r < W ∧ t ≤ (r * L) % W ∧ (r * L) / W = v) ↔ (a ≤ r ∧ r < a + q) := by
  have hsplit : v * W + W = v * W + t + q * L := by
    rw [Nat.mul_comm q L]; omega
  constructor
  · rintro ⟨_, hlow, hhigh⟩
    have hdm := Nat.div_add_mod (r * L) W
    rw [hhigh, Nat.mul_comm W v] at hdm
    have hmlt := Nat.mod_lt (r * L) hWpos
    have hXle : v * W + t ≤ r * L := by omega
    refine ⟨(hceil r).2 hXle, ?_⟩
    by_contra hge
    push_neg at hge
    have h3 : a ≤ r - q := by omega
    have h4 := (hceil (r - q)).1 h3
    have h5 : (r - q) * L = r * L - q * L := Nat.sub_mul r q L
    have h6 : q * L ≤ r * L := Nat.mul_le_mul_right _ (by omega)
    omega
  · rintro ⟨hge, hlt⟩
    have hXle := (hceil r).1 hge
    have hprod : r * L < v * W + W := by
      by_contra hcon
      push_neg at hcon
      have h6 : q * L ≤ r * L := by omega
      have hqr : q ≤ r := Nat.le_of_mul_le_mul_right h6 hL
      have h5 : (r - q) * L = r * L - q * L := Nat.sub_mul r q L
      have h7 : v * W + t ≤ (r - q) * L := by omega
      have := (hceil (r - q)).2 h7
      omega
    have hvW : v * W ≤ r * L := by omega
    have hdiv : r * L / W = v :=
      Nat.div_eq_of_lt_le hvW (by rw [Nat.succ_mul]; exact hprod)
    have hdm := Nat.div_add_mod (r * L) W
    rw [hdiv, Nat.mul_comm W v] at hdm
    refine ⟨?_, by omega, hdiv⟩
    have h9 : (v + 1) * W ≤ L * W := Nat.mul_le_mul_right _ hv
    rw [Nat.succ_mul] at h9
    have h8 : r * L < W * L := by rw [Nat.mul_comm W L]; omega
    exact Nat.lt_of_mul_lt_mul_right h8

/-- The accepted raw draws with result `v` are the `2 ^ 32 / limit`
consecutive values starting at `⌈(v * 2 ^ 32 + 2 ^ 32 mod limit) / limit⌉`. -/
theorem accepted_draws_eq_Ico (limit v : Nat) (h1 : 1 ≤ limit) (hv : v < limit) :
    (Finset.range (2 ^ 32)).filter
        (fun r => 2 ^ 32 % limit ≤ (r * limit) % 2 ^ 32 ∧ (r * limit) / 2 ^ 32 = v) =
      Finset.Ico ((v * 2 ^ 32 + 2 ^ 32 % limit + limit - 1) / limit)
        ((v * 2 ^ 32 + 2 ^ 32 % limit + limit - 1) / limit + 2 ^ 32 / limit) := by
  have hceil : ∀ r, (v * 2 ^ 32 + 2 ^ 32 % limit + limit - 1) / limit ≤ r ↔
      v * 2 ^ 32 + 2 ^ 32 % limit ≤ r * limit := by
    intro r
    rw [← Nat.lt_succ_iff, Nat.div_lt_iff_lt_mul h1, Nat.succ_mul]
    omega
  ext r
  simp only [Finset.mem_filter, Finset.mem_range, Finset.mem_Ico]
  exact accepted_iff_mem_Ico (2 ^ 32) limit (2 ^ 32 / limit) (2 ^ 32 % limit) v _ h1
    (by positivity) (Nat.div_add_mod _ _) hv hceil r

/-- C2: exact uniformity of `isc_random_uniform`.  For `1 ≤ limit < 2 ^ 32`
and `v < limit`: a raw draw `r` is accepted with result `v` by the code exactly
when the low word of `r * limit` is at least `2 ^ 32 mod limit` and the high
word is `v`, and the number of such `r` below `2 ^ 32` is `2 ^ 32 / limit`,
whatever `v` is. -/
theorem isc_random_uniform_exactly_uniform (limit v : Nat) (h1 : 1 ≤ limit)
    (h2 : limit < 2 ^ 32) (hv : v < limit) :
    (∀ r, r < 2 ^ 32 →
      (isc_random_uniform (constant_draw r) 0 limit () = .returned (v, ()) ↔
        (2 ^ 32 % limit ≤ (r * limit) % 2 ^ 32 ∧ (r * limit) / 2 ^ 32 = v))) ∧
      ((Finset.range (2 ^ 32)).filter
        (fun r => isc_random_uniform (constant_draw r) 0 limit () = .returned (v, ()))).card =
        2 ^ 32 / limit := by
  refine ⟨fun r hr => isc_random_uniform_single limit r v h1 h2 hr, ?_⟩
  have hfilter :
      (Finset.range (2 ^ 32)).filter
        (fun r => isc_random_uniform (constant_draw r) 0 limit () = .returned (v, ())) =
      (Finset.range (2 ^ 32)).filter
        (fun r => 2 ^ 32 % limit ≤ (r * limit) % 2 ^ 32 ∧ (r * limit) / 2 ^ 32 = v) := by
    apply Finset.filter_congr
    intro r hr
    exact isc_random_uniform_single limit r v h1 h2 (Finset.mem_range.mp hr)
  rw [hfilter, accepted_draws_eq_Ico limit v h1 hv, Nat.card_Ico]
  exact Nat.add_sub_cancel_left _ _

/-- Witness for C2 at `limit = 3`, `v = 2`: `1431655765` raw draws give `2`. -/
theorem isc_random_uniform_exactly_uniform_witness :
    ((Finset.range (2 ^ 32)).filter
        (fun r => isc_random_uniform (constant_draw r) 0 3 () = .returned (2, ()))).card =
      1431655765 :=
  (isc_random_uniform_exactly_uniform 3 2 (by decide) (by decide) (by decide)).2



section buf

variable {σ : Type} (nxt : σ → Nat × σ)

theorem memmove_frame (mem : Mem) (dst : Nat) (src : List Nat) (n a : Nat)
    (h : a < dst ∨ dst + n ≤ a) : memmove mem dst src n a = mem a := by
  unfold memmove
  rw [if_neg]
  omega

theorem memmove_hit (mem : Mem) (dst : Nat) (src : List Nat) (n b : Nat) (h : b < n) :
    memmove mem dst src n (dst + b) = src.getD b 0 := by
  unfold memmove
  rw [if_pos (by omega)]
  congr 1
  omega

/-- The loop of `isc_random_buf` started at index `i` with `n` whole words
left, none of which takes `i` past `INT_MAX`: it returns after `n` draws, has
stored the `k`-th output at `buf + i + 4 * k`, and has written nowhere else. -/
theorem isc_random_buf_loop_spec (be : Bool) (buf buflen : Nat) (n : Nat) :
    ∀ (fuel i : Nat) (mem : Mem) (s : σ), n ≤ fuel → i + 4 * n ≤ buflen →
      buflen < i + 4 * n + 4 → i + 4 * n ≤ INT_MAX →
      ∃ mem', isc_random_buf_loop nxt be buf buflen fuel i mem s =
          .returned (i + 4 * n, mem', drawn nxt n s) ∧
        (∀ k b, k < n → b < 4 →
          mem' (buf + i + 4 * k + b) = (u32_bytes be (output nxt k s)).getD b 0) ∧
        (∀ a, a < buf + i ∨ buf + i + 4 * n ≤ a → mem' a = mem a) := by
  induction n with
  | zero =>
    intro fuel i mem s _ hle hlt _
    refine ⟨mem, ?_, ?_, ?_⟩
    · cases fuel <;> (unfold isc_random_buf_loop; rw [if_neg (by omega)]; rfl)
    · intro k b hk; omega
    · intro a _; rfl
  | succ n ih =>
    intro fuel i mem s hfuel hle hlt hmax
    obtain ⟨f, rfl⟩ : ∃ f, fuel = f + 1 := ⟨fuel - 1, by omega⟩
    obtain ⟨mem', hrun, hbytes, hframe⟩ :=
      ih f (i + 4) (memmove mem (buf + i) (u32_bytes be (nxt s).1) 4) (nxt s).2
        (by omega) (by omega) (by omega) (by omega)
    refine ⟨mem', ?_, ?_, ?_⟩
    · unfold isc_random_buf_loop
      simp only
      rw [if_pos (by omega), if_pos (by omega), hrun]
      have : i + 4 + 4 * n = i + 4 * (n + 1) := by omega
      rw [this]
      rfl
    · intro k b hk hb
      cases k with
      | zero =>
        have h1 : mem' (buf + i + 4 * 0 + b) =
            memmove mem (buf + i) (u32_bytes be (nxt s).1) 4 (buf + i + b) := by
          rw [show buf + i + 4 * 0 + b = buf + i + b by omega]
          exact hframe _ (Or.inl (by omega))
        rw [h1, memmove_hit _ _ _ _ _ hb]
        rfl
      | succ k =>
        have h1 := hbytes k b (by omega) hb
        rw [show buf + i + 4 * (k + 1) + b = buf + (i + 4) + 4 * k + b by omega, h1]
        rfl
    · intro a ha
      rw [hframe a (by omega)]
      exact memmove_frame _ _ _ _ _ (by omega)

/-- The loop of `isc_random_buf` when the index would pass `INT_MAX` after
`n` further iterations that all stay within `buflen`. -/
theorem isc_random_buf_loop_overflow (be : Bool) (buf buflen : Nat) (n : Nat) :
    ∀ (fuel i : Nat) (mem : Mem) (s : σ), n < fuel → i + 4 * n + 4 ≤ buflen →
      i + 4 * n ≤ INT_MAX → INT_MAX < i + 4 * n + 4 →
      isc_random_buf_loop nxt be buf buflen fuel i mem s = .undefined := by
  induction n with
  | zero =>
    intro fuel i mem s hfuel hle hmax hover
    obtain ⟨f, rfl⟩ : ∃ f, fuel = f + 1 := ⟨fuel - 1, by omega⟩
    unfold isc_random_buf_loop
    simp only
    rw [if_pos (by omega), if_neg (by omega)]
  | succ n ih =>
    intro fuel i mem s hfuel hle hmax hover
    obtain ⟨f, rfl⟩ : ∃ f, fuel = f + 1 := ⟨fuel - 1, by omega⟩
    unfold isc_random_buf_loop
    simp only
    rw [if_pos (by omega), if_pos (by omega)]
    exact ih f (i + 4) _ _ (by omega) (by omega) (by omega) (by omega)

/-- What `isc_random_buf` does for `0 < buflen ≤ INT_MAX`: it returns after
`buflen / 4 + 1` draws; byte `j < buflen` of the buffer is byte `j % 4`, in
host memory order, of output number `j / 4`; no other byte of memory
changes. -/
theorem isc_random_buf_spec (be : Bool) (mem : Mem) (buf buflen : Nat) (s : σ)
    (hbuf : buf ≠ 0) (hpos : 0 < buflen) (hmax : buflen ≤ INT_MAX) :
    ∃ mem', isc_random_buf nxt be mem buf buflen s =
        .returned (mem', drawn nxt (buflen / 4 + 1) s) ∧
      (∀ j, j < buflen →
        mem' (buf + j) = (u32_bytes be (output nxt (j / 4) s)).getD (j % 4) 0) ∧
      (∀ a, a < buf ∨ buf + buflen ≤ a → mem' a = mem a) := by
  obtain ⟨mem1, hrun, hbytes, hframe⟩ :=
    isc_random_buf_loop_spec nxt be buf buflen (buflen / 4) buflen 0 mem s
      (Nat.div_le_self _ _) (by omega) (by omega) (by omega)
  refine ⟨memmove mem1 (buf + (0 + 4 * (buflen / 4)))
    (u32_bytes be (nxt (drawn nxt (buflen / 4) s)).1) (buflen % 4), ?_, ?_, ?_⟩
  · unfold isc_random_buf
    rw [if_neg hbuf, if_neg (by omega), hrun]
    simp only
    rw [drawn_succ]
  · intro j hj
    by_cases hlast : j / 4 < buflen / 4
    · rw [memmove_frame _ _ _ _ _ (Or.inl (by omega))]
      have := hbytes (j / 4) (j % 4) hlast (Nat.mod_lt _ (by norm_num))
      rw [show buf + 0 + 4 * (j / 4) + j % 4 = buf + j by omega] at this
      exact this
    · have hq : j / 4 = buflen / 4 := by omega
      have hb : j % 4 < buflen % 4 := by omega
      rw [show buf + j = buf + (0 + 4 * (buflen / 4)) + j % 4 by omega,
        memmove_hit _ _ _ _ _ hb, hq]
      rfl
  · intro a ha
    rw [memmove_frame _ _ _ _ _ (by omega)]
    exact hframe a (by omega)

/-- For every `buflen` above `INT_MAX` the `int` index of `isc_random_buf`
leaves its range before the loop ends. -/
theorem isc_random_buf_overflow (be : Bool) (mem : Mem) (buf buflen : Nat) (s : σ)
    (hbuf : buf ≠ 0) (hbig : INT_MAX < buflen) :
    isc_random_buf nxt be mem buf buflen s = .undefined := by
  have hloop := isc_random_buf_loop_overflow nxt be buf buflen (2 ^ 29 - 1) buflen 0 mem s
    (by unfold INT_MAX at hbig; omega) (by unfold INT_MAX at hbig; omega)
    (by unfold INT_MAX; omega) (by unfold INT_MAX; omega)
  unfold isc_random_buf
  rw [if_neg hbuf, if_neg (by omega), hloop]

end buf

/-- C6 (the code at the failing input): `isc_random_buf(buf, 2147483649)`
does not fill the buffer; after `2 ^ 29` iterations `i += sizeof(r)` takes the
`int` index past `INT_MAX`. -/
theorem isc_random_buf_int_index_overflow :
    isc_random_buf next false (fun _ => 0) 1 2147483649 ⟨0, 0, 0, 1⟩ = .undefined :=
  isc_random_buf_overflow next false (fun _ => 0) 1 2147483649 ⟨0, 0, 0, 1⟩
    (by decide) (by decide)



/-! ## Lemmas on buffers -/

theorem memcpy_length (dst : List Nat) (doff : Nat) (src : List Nat) (soff n : Nat)
    (h1 : doff + n ≤ dst.length) (h2 : soff + n ≤ src.length) :
    (memcpy dst doff src soff n).length = dst.length := by
  simp only [memcpy, List.length_append, List.length_take, List.length_drop]
  omega

theorem memcpy_take (dst : List Nat) (doff : Nat) (src : List Nat) (soff n : Nat)
    (h1 : doff ≤ dst.length) :
    (memcpy dst doff src soff n).take doff = dst.take doff := by
  unfold memcpy
  rw [List.append_assoc]
  exact List.take_left' (by simp; omega)

theorem memcpy_slice (dst : List Nat) (doff : Nat) (src : List Nat) (soff n : Nat)
    (h1 : doff ≤ dst.length) (h2 : soff + n ≤ src.length) :
    ((memcpy dst doff src soff n).drop doff).take n = (src.drop soff).take n := by
  unfold memcpy
  rw [List.append_assoc, List.drop_left' (by simp; omega)]
  exact List.take_left' (by simp; omega)

theorem slice_length (src : List Nat) (soff n : Nat) (h : soff + n ≤ src.length) :
    ((src.drop soff).take n).length = n := by
  simp only [List.length_take, List.length_drop]
  omega

/-- The committed bytes of a buffer after `put`: the old ones, then the new
ones. -/
theorem put_committed (b : isc_buffer_t) (bytes : List Nat)
    (h : b.used + bytes.length ≤ b.base.length) :
    (b.put bytes).base.take (b.put bytes).used = b.base.take b.used ++ bytes := by
  simp only [isc_buffer_t.put, memcpy, List.drop_zero, List.take_length, List.append_assoc]
  rw [← List.append_assoc]
  exact List.take_left' (by simp; omega)

theorem put_length (b : isc_buffer_t) (bytes : List Nat)
    (h : b.used + bytes.length ≤ b.base.length) :
    (b.put bytes).base.length = b.base.length := by
  simp only [isc_buffer_t.put]
  exact memcpy_length _ _ _ _ _ h (by simp)

/-- Copying the `n` active bytes at the read cursor of `source` and committing
them is `put` of those bytes. -/
theorem copy_eq_put (target source : isc_buffer_t) (n : Nat)
    (h : source.consumed + n ≤ source.base.length) :
    ({ target with base := memcpy target.base target.used source.base source.consumed n,
                   used := target.used + n } : isc_buffer_t) =
      target.put ((source.base.drop source.consumed).take n) := by
  have hl := slice_length source.base source.consumed n h
  simp only [isc_buffer_t.put, memcpy, hl, List.drop_zero]
  rw [List.take_of_length_le (le_of_eq hl)]



/-- C7: when both names decode and fewer than 20 active source bytes remain,
`fromwire_soa` returns `DNS_R_UNEXPECTEDEND`, whatever the target (there is no
hypothesis on the target's space: the source check comes first). -/
theorem fromwire_soa_truncated (dns_name_fromwire : NameFromwire) (rdclass : Nat)
    (source : isc_buffer_t) (dctx : dns_decompress_t) (downcase : Bool)
    (target s1 t1 s2 t2 : isc_buffer_t)
    (h1 : dns_name_fromwire source (fromwire_soa_setmethods dctx) downcase target =
      (.success, s1, t1))
    (h2 : dns_name_fromwire s1 (fromwire_soa_setmethods dctx) downcase t1 =
      (.success, s2, t2))
    (hshort : (isc_buffer_active s2).length < 20) :
    fromwire_soa dns_name_fromwire rdclass 6 source dctx downcase target =
      .returned (.unexpectedend, s2, fromwire_soa_setmethods dctx, t2) := by
  simp [fromwire_soa, h1, h2, hshort]

/-- Witness for C7: the example with its last byte missing, read into a target
with no space left at all after the two names. -/
theorem fromwire_soa_truncated_witness :
    fromwire_soa plain_name_fromwire 1 6
        { ((example_message.put soa_example_mname).put soa_example_rname).put
            (soa_example_tail.take 19) with consumed := 2 }
        ⟨0, true, .DNS_COMPRESS_NONE⟩ false ⟨List.replicate 36 7, 3, 0⟩ =
      .returned (.unexpectedend,
        { ((example_message.put soa_example_mname).put soa_example_rname).put
            (soa_example_tail.take 19) with consumed := 35 },
        fromwire_soa_setmethods ⟨0, true, .DNS_COMPRESS_NONE⟩,
        ((⟨List.replicate 36 7, 3, 0⟩ : isc_buffer_t).put soa_example_mname).put
          soa_example_rname) :=
  fromwire_soa_truncated plain_name_fromwire 1 _ _ false _
    { ((example_message.put soa_example_mname).put soa_example_rname).put
        (soa_example_tail.take 19) with consumed := 15 }
    ((⟨List.replicate 36 7, 3, 0⟩ : isc_buffer_t).put soa_example_mname)
    _ _ (by decide) (by decide) (by decide)

/-- C8: when both names decode and at least 20 source bytes and 20 target
bytes remain, `fromwire_soa` succeeds; the source cursor ends 20 past the
names, the target cursor 20 past the decompressed names, the 20 bytes added
to the target are the 20 source bytes, the bytes committed before stay, and
the rdata written has the length of the two names plus 20. -/
theorem fromwire_soa_success (dns_name_fromwire : NameFromwire) (rdclass : Nat)
    (source : isc_buffer_t) (dctx : dns_decompress_t) (downcase : Bool)
    (target s1 t1 s2 t2 : isc_buffer_t)
    (h1 : dns_name_fromwire source (fromwire_soa_setmethods dctx) downcase target =
      (.success, s1, t1))
    (h2 : dns_name_fromwire s1 (fromwire_soa_setmethods dctx) downcase t1 =
      (.success, s2, t2))
    (hwf : s2.WF) (hgrow1 : target.used ≤ t1.used) (hgrow2 : t1.used ≤ t2.used)
    (hsrc : 20 ≤ (isc_buffer_active s2).length)
    (htgt : 20 ≤ (isc_buffer_available t2).length) :
    ∃ source' target',
      fromwire_soa dns_name_fromwire rdclass 6 source dctx downcase target =
        .returned (.success, source', fromwire_soa_setmethods dctx, target') ∧
      source'.consumed = s2.consumed + 20 ∧ source'.used = s2.used ∧
      source'.base = s2.base ∧
      target'.used = t2.used + 20 ∧
      (target'.base.drop t2.used).take 20 = (s2.base.drop s2.consumed).take 20 ∧
      ((s2.base.drop s2.consumed).take 20).length = 20 ∧
      target'.base.take t2.used = t2.base.take t2.used ∧
      target'.base.length = t2.base.length ∧
      target'.used - target.used = (t1.used - target.used) + (t2.used - t1.used) + 20 := by
  obtain ⟨hcu, hul⟩ := hwf
  simp only [isc_buffer_active, isc_buffer_available] at hsrc htgt
  have hs20 : s2.consumed + 20 ≤ s2.base.length := by omega
  have ht20 : t2.used + 20 ≤ t2.base.length := by omega
  refine ⟨{ s2 with consumed := s2.consumed + 20 },
    { t2 with base := memcpy t2.base t2.used s2.base s2.consumed 20, used := t2.used + 20 },
    ?_, rfl, rfl, rfl, rfl, ?_, ?_, ?_, ?_, ?_⟩
  · have e1 : ¬ (s2.used - s2.consumed < 20) := by omega
    have e2 : ¬ (t2.base.length - t2.used < 20) := by omega
    have e3 : 20 ≤ s2.used - s2.consumed := by omega
    have e4 : 20 ≤ (memcpy t2.base t2.used s2.base s2.consumed 20).length - t2.used := by
      rw [memcpy_length _ _ _ _ _ ht20 hs20]; omega
    simp [fromwire_soa, h1, h2, isc_buffer_active, isc_buffer_available, isc_buffer_forward,
      isc_buffer_add, Outcome.bind, e1, e2, e3, e4]
  · exact memcpy_slice _ _ _ _ _ (by omega) hs20
  · exact slice_length _ _ _ hs20
  · exact memcpy_take _ _ _ _ _ (by omega)
  · exact memcpy_length _ _ _ _ _ ht20 hs20
  · simp only; omega

/-- Witness for C8: the example message decodes; 13 + 20 + 20 = 53 bytes are
added to the target. -/
theorem fromwire_soa_success_witness :
    ∃ source' target',
      fromwire_soa plain_name_fromwire 1 6
          { ((example_message.put soa_example_mname).put soa_example_rname).put
              soa_example_tail with consumed := 2 }
          ⟨0, true, .DNS_COMPRESS_NONE⟩ false example_target =
        .returned (.success, source',
          fromwire_soa_setmethods ⟨0, true, .DNS_COMPRESS_NONE⟩, target') ∧
      source'.consumed = 35 + 20 ∧ target'.used = 36 + 20 ∧
      target'.used - example_target.used = 13 + 20 + 20 := by
  obtain ⟨source', target', hrun, hc, _, _, hu, _, _, _, _, hlen⟩ :=
    fromwire_soa_success plain_name_fromwire 1
      { ((example_message.put soa_example_mname).put soa_example_rname).put
          soa_example_tail with consumed := 2 }
      ⟨0, true, .DNS_COMPRESS_NONE⟩ false example_target
      { ((example_message.put soa_example_mname).put soa_example_rname).put
          soa_example_tail with consumed := 15 }
      (example_target.put soa_example_mname)
      { ((example_message.put soa_example_mname).put soa_example_rname).put
          soa_example_tail with consumed := 35 }
      ((example_target.put soa_example_mname).put soa_example_rname)
      (by decide) (by decide) (by decide) (by decide) (by decide) (by decide) (by decide)
  exact ⟨source', target', hrun, hc, hu, hlen⟩

/-- C10: wire round trip of the Hesiod address record.  For rdata `x` of class
4, type 1 and 4 data bytes and a target with 4 bytes available, `towire_hs_a`
appends exactly the 4 bytes of `x`; `fromwire_hs_a` on the message so written,
read from where the rdata starts, succeeds, moves the read cursor by 4 and
appends the same 4 bytes to its target. -/
theorem hs_a_wire_round_trip (x : dns_rdata_t) (cctx : dns_compress_t)
    (msg : isc_buffer_t) (dctx : dns_decompress_t) (downcase : Bool)
    (target : isc_buffer_t)
    (hclass : x.rdclass = 4) (htype : x.type = 1) (hlen : x.length = 4)
    (hmsg : 4 ≤ (isc_buffer_availableregion msg).length)
    (htgt : 4 ≤ (isc_buffer_availableregion target).length) :
    towire_hs_a x cctx msg = .returned (.success, msg.put x.data) ∧
      (msg.put x.data).used = msg.used + 4 ∧
      (msg.put x.data).base.take (msg.put x.data).used = msg.base.take msg.used ++ x.data ∧
      fromwire_hs_a x.rdclass x.type { msg.put x.data with consumed := msg.used } dctx
          downcase target =
        .returned (.success, { msg.put x.data with consumed := msg.used + 4 },
          target.put x.data) ∧
      (target.put x.data).used = target.used + 4 ∧
      (target.put x.data).base.take (target.put x.data).used =
        target.base.take target.used ++ x.data := by
  simp only [isc_buffer_availableregion, isc_buffer_available] at hmsg htgt
  simp only [dns_rdata_t.length] at hlen
  have hput : (msg.put x.data).base.length = msg.base.length :=
    put_length msg x.data (by omega)
  have hslice : ((msg.put x.data).base.drop msg.used).take 4 = x.data := by
    have := memcpy_slice msg.base msg.used x.data 0 4 (by omega) (by omega)
    simp only [isc_buffer_t.put, hlen]
    rw [this, List.drop_zero, List.take_of_length_le (by omega)]
  refine ⟨?_, ?_, put_committed msg x.data (by omega), ?_, ?_,
    put_committed target x.data (by omega)⟩
  · have e1 : ¬ (msg.base.length - msg.used < 4) := by omega
    have e2 : 4 ≤ (memcpy msg.base msg.used x.data 0 4).length - msg.used := by
      rw [memcpy_length _ _ _ _ _ (by omega) (by omega)]; omega
    simp [towire_hs_a, hclass, htype, dns_rdata_t.length, hlen, isc_buffer_availableregion,
      isc_buffer_available, isc_buffer_add, Outcome.bind, isc_buffer_t.put, e1, e2]
  · simp [isc_buffer_t.put, hlen]
  · have hcopy := copy_eq_put target { msg.put x.data with consumed := msg.used } 4
      (by simp only; omega)
    simp only at hcopy
    rw [hslice] at hcopy
    have e0 : (msg.put x.data).used = msg.used + 4 := by simp [isc_buffer_t.put, hlen]
    have e1 : ¬ (target.base.length - target.used < 4) := by omega
    have e2 : 4 ≤ (target.put x.data).base.length - target.used := by
      rw [put_length target x.data (by omega)]; omega
    have e3 : (target.put x.data).used = target.used + 4 := by simp [isc_buffer_t.put, hlen]
    simp only [fromwire_hs_a, hclass, htype, isc_buffer_activeregion, isc_buffer_active,
      isc_buffer_availableregion, isc_buffer_available, isc_buffer_forward, isc_buffer_add,
      Outcome.bind, e0, ne_eq, not_true_eq_false, if_false, Nat.add_sub_cancel_left,
      Nat.lt_irrefl, e1, le_refl, if_true]
    have hbase : memcpy target.base target.used (msg.put x.data).base msg.used 4 =
        (target.put x.data).base := by
      have := congrArg isc_buffer_t.base hcopy
      simpa using this
    rw [hbase, if_pos e2]
    cases target
    simp [isc_buffer_t.put, hlen]
  · simp [isc_buffer_t.put, hlen]

/-- Witness for C10 with the address 18.52.86.120. -/
theorem hs_a_wire_round_trip_witness :
    towire_hs_a ⟨4, 1, [18, 52, 86, 120]⟩ ⟨0, .DNS_COMPRESS_NONE, []⟩ example_message =
        .returned (.success, example_message.put [18, 52, 86, 120]) ∧
      fromwire_hs_a 4 1 { example_message.put [18, 52, 86, 120] with consumed := 2 }
          ⟨0, true, .DNS_COMPRESS_NONE⟩ false example_target =
        .returned (.success, { example_message.put [18, 52, 86, 120] with consumed := 2 + 4 },
          example_target.put [18, 52, 86, 120]) :=
  have h := hs_a_wire_round_trip ⟨4, 1, [18, 52, 86, 120]⟩ ⟨0, .DNS_COMPRESS_NONE, []⟩
    example_message ⟨0, true, .DNS_COMPRESS_NONE⟩ false example_target
    (by decide) (by decide) (by decide) (by decide) (by decide)
  ⟨h.1, h.2.2.2.1⟩



/-- What `towire_soa` does on valid SOA rdata `a ++ b ++ tail` when both names
are written: the 20 trailing bytes are appended after them. -/
theorem towire_soa_valid (dns_name_fromregion : NameFromregion) (dns_name_towire : NameTowire)
    (x : dns_rdata_t) (a b tail : List Nat) (cctx c1 c2 : dns_compress_t)
    (t0 t1 t2 : isc_buffer_t)
    (hx : x.type = 6) (hdata : x.data = a ++ (b ++ tail)) (htail : tail.length = 20)
    (ha : dns_name_fromregion (a ++ (b ++ tail)) = a)
    (hb : dns_name_fromregion (b ++ tail) = b)
    (he1 : dns_name_towire a (towire_soa_setmethods cctx) t0 = (.success, c1, t1))
    (he2 : dns_name_towire b c1 t1 = (.success, c2, t2))
    (hspace : 20 ≤ (isc_buffer_available t2).length) :
    towire_soa dns_name_fromregion dns_name_towire x cctx t0 =
      .returned (.success, c2, t2.put tail) := by
  simp only [isc_buffer_available] at hspace
  have e1 : ¬ (t2.base.length - t2.used < 20) := by omega
  have e2 : 20 ≤ (memcpy t2.base t2.used tail 0 20).length - t2.used := by
    rw [memcpy_length _ _ _ _ _ (by omega) (by omega)]; omega
  simp [towire_soa, hx, hdata, ha, hb, he1, he2, name_length, isc_region_consume,
    Outcome.bind, isc_buffer_available, isc_buffer_add, isc_buffer_t.put, htail, e1, e2]

/-- C9: wire round trip of SOA rdata.  `x` is valid SOA rdata: the name `a`,
the name `b`, then the 20 bytes `tail`.  The two names are written to the
message `t0` with success, leaving `t1` and `t2`, and `t2` has room for 20
bytes; the target `target` has room for all of `x`.  Name decoding inverts
name encoding within the message: read from where `a` (then `b`) was written,
the decoder stops where that name ends and appends it to the target.  Then
`towire_soa` succeeds, and `fromwire_soa` on the message it wrote, read from
where the rdata starts, succeeds, consumes the whole rdata, and appends
exactly the bytes of `x` to the target. -/
theorem soa_wire_round_trip (dns_name_fromregion : NameFromregion)
    (dns_name_towire : NameTowire) (dns_name_fromwire : NameFromwire)
    (x : dns_rdata_t) (a b tail : List Nat) (cctx c1 c2 : dns_compress_t)
    (t0 t1 t2 : isc_buffer_t) (dctx : dns_decompress_t) (downcase : Bool)
    (target : isc_buffer_t)
    (hx : x.type = 6) (hdata : x.data = a ++ (b ++ tail)) (htail : tail.length = 20)
    (ha : dns_name_fromregion (a ++ (b ++ tail)) = a)
    (hb : dns_name_fromregion (b ++ tail) = b)
    (he1 : dns_name_towire a (towire_soa_setmethods cctx) t0 = (.success, c1, t1))
    (he2 : dns_name_towire b c1 t1 = (.success, c2, t2))
    (hspace : 20 ≤ (isc_buffer_available t2).length)
    (hroom : a.length + b.length + 20 ≤ (isc_buffer_available target).length)
    (hd1 : dns_name_fromwire { t2.put tail with consumed := t0.used }
        (fromwire_soa_setmethods dctx) downcase target =
      (.success, { t2.put tail with consumed := t1.used }, target.put a))
    (hd2 : dns_name_fromwire { t2.put tail with consumed := t1.used }
        (fromwire_soa_setmethods dctx) downcase (target.put a) =
      (.success, { t2.put tail with consumed := t2.used }, (target.put a).put b)) :
    towire_soa dns_name_fromregion dns_name_towire x cctx t0 =
        .returned (.success, c2, t2.put tail) ∧
      fromwire_soa dns_name_fromwire x.rdclass x.type
          { t2.put tail with consumed := t0.used } dctx downcase target =
        .returned (.success, { t2.put tail with consumed := (t2.put tail).used },
          fromwire_soa_setmethods dctx, ((target.put a).put b).put tail) ∧
      (((target.put a).put b).put tail).used = target.used + x.length ∧
      (((target.put a).put b).put tail).base.take (((target.put a).put b).put tail).used =
        target.base.take target.used ++ x.data := by
  have htw := towire_soa_valid dns_name_fromregion dns_name_towire x a b tail cctx c1 c2
    t0 t1 t2 hx hdata htail ha hb he1 he2 hspace
  simp only [isc_buffer_available] at hspace hroom
  have hla : target.used + a.length ≤ target.base.length := by omega
  have hpa : (target.put a).base.length = target.base.length := put_length _ _ hla
  have hua : (target.put a).used = target.used + a.length := rfl
  have hlb : (target.put a).used + b.length ≤ (target.put a).base.length := by
    rw [hpa, hua]; omega
  have hpb : ((target.put a).put b).base.length = target.base.length := by
    rw [put_length _ _ hlb, hpa]
  have hub : ((target.put a).put b).used = target.used + a.length + b.length := rfl
  have hlt : ((target.put a).put b).used + tail.length ≤ ((target.put a).put b).base.length := by
    rw [hpb, hub]; omega
  -- the 20 bytes after the names in the message are `tail`
  have hmsg_len : (t2.put tail).base.length = t2.base.length :=
    put_length _ _ (by omega)
  have hmsg_tail : ((t2.put tail).base.drop t2.used).take 20 = tail := by
    have := memcpy_slice t2.base t2.used tail 0 20 (by omega) (by omega)
    simp only [isc_buffer_t.put, htail]
    rw [this, List.drop_zero, List.take_of_length_le (by omega)]
  refine ⟨htw, ?_, ?_, ?_⟩
  · have hcopy := copy_eq_put ((target.put a).put b)
      { t2.put tail with consumed := t2.used } 20 (by simp only; omega)
    simp only at hcopy
    rw [hmsg_tail] at hcopy
    have hbase : memcpy ((target.put a).put b).base ((target.put a).put b).used
        (t2.put tail).base t2.used 20 = (((target.put a).put b).put tail).base := by
      have := congrArg isc_buffer_t.base hcopy
      simpa using this
    have hused : (t2.put tail).used = t2.used + 20 := by simp [isc_buffer_t.put, htail]
    have e1 : ¬ ((t2.put tail).used - t2.used < 20) := by omega
    have e2 : ¬ (((target.put a).put b).base.length - ((target.put a).put b).used < 20) := by
      rw [hpb, hub]; omega
    have e3 : 20 ≤ (t2.put tail).used - t2.used := by omega
    have e4 : 20 ≤ (((target.put a).put b).put tail).base.length -
        ((target.put a).put b).used := by
      rw [put_length _ _ hlt, hpb, hub]; omega
    simp only [fromwire_soa, hx, hd1, hd2, isc_buffer_active, isc_buffer_available,
      isc_buffer_forward, isc_buffer_add, Outcome.bind, ne_eq, not_true_eq_false, if_false,
      e1, e2, hbase, if_pos e3, if_pos e4]
    have hfin : ((target.put a).put b).used + 20 = (((target.put a).put b).put tail).used := by
      simp [isc_buffer_t.put, htail]
    rw [hfin, hused]
    rfl
  · simp only [isc_buffer_t.put, dns_rdata_t.length, hdata, List.length_append]
    omega
  · rw [put_committed _ _ hlt, put_committed _ _ hlb, put_committed _ _ hla, hdata]
    simp

/-- Witness for C9: the example rdata, written to and read back from a
message with the codec that uses no compression pointers. -/
theorem soa_wire_round_trip_witness :
    towire_soa plain_name_fromregion plain_name_towire soa_example
        ⟨0, .DNS_COMPRESS_NONE, []⟩ example_message =
        .returned (.success, towire_soa_setmethods ⟨0, .DNS_COMPRESS_NONE, []⟩,
          ((example_message.put soa_example_mname).put soa_example_rname).put
            soa_example_tail) ∧
      (((example_target.put soa_example_mname).put soa_example_rname).put
          soa_example_tail).base.take
        (((example_target.put soa_example_mname).put soa_example_rname).put
          soa_example_tail).used =
        example_target.base.take example_target.used ++ soa_example.data :=
  have h := soa_wire_round_trip plain_name_fromregion plain_name_towire plain_name_fromwire
    soa_example soa_example_mname soa_example_rname soa_example_tail
    ⟨0, .DNS_COMPRESS_NONE, []⟩ (towire_soa_setmethods ⟨0, .DNS_COMPRESS_NONE, []⟩)
    (towire_soa_setmethods ⟨0, .DNS_COMPRESS_NONE, []⟩)
    example_message (example_message.put soa_example_mname)
    ((example_message.put soa_example_mname).put soa_example_rname)
    ⟨0, true, .DNS_COMPRESS_NONE⟩ false example_target
    (by decide) (by decide) (by decide) (by decide) (by decide) (by decide) (by decide)
    (by decide) (by decide) (by decide) (by decide)
  ⟨h.1, h.2.2.2⟩

/-! ## Comparison, struct forms and digests -/

/-- Every call of `compare_hs_a` stops in a `REQUIRE`: the second one asks
for `rdata1->rdclass == rdata2->type`, the third and fourth for type 1 and
class 4. -/
theorem compare_hs_a_always_aborts (rdata1 rdata2 : dns_rdata_t) :
    compare_hs_a rdata1 rdata2 = .aborted := by
  unfold compare_hs_a
  by_cases h1 : rdata1.type = rdata2.type
  · by_cases h2 : rdata1.rdclass = rdata2.type
    · by_cases h3 : rdata1.type = 1
      · have h4 : rdata1.rdclass ≠ 4 := by omega
        simp [h1, h2, h3, h4]
        omega
      · simp [h1, h2, h3]
        omega
    · simp [h1, h2]
  · simp [h1]

/-- C11 (the code at the failing input): `compare_hs_a` on two equal valid
address records (class 4, type 1, four bytes) does not return `0`; it aborts,
as it does on every pair of records. -/
theorem compare_hs_a_valid_pair_aborts :
    compare_hs_a ⟨4, 1, [18, 52, 86, 120]⟩ ⟨4, 1, [18, 52, 86, 120]⟩ = .aborted ∧
      ∀ rdata1 rdata2 : dns_rdata_t, compare_hs_a rdata1 rdata2 = .aborted :=
  ⟨by decide, compare_hs_a_always_aborts⟩

/-- The value of `compare_soa` on two valid SOA rdata of one class. -/
theorem compare_soa_value (dns_name_fromregion : NameFromregion)
    (dns_name_rdatacompare : NameCompare) (compare_region : RegionCompare)
    (a b : dns_rdata_t) (a1 a2 atail b1 b2 btail : List Nat)
    (hta : a.type = 6) (htb : b.type = 6) (hclass : a.rdclass = b.rdclass)
    (hda : a.data = a1 ++ (a2 ++ atail)) (hdb : b.data = b1 ++ (b2 ++ btail))
    (ha1 : dns_name_fromregion (a1 ++ (a2 ++ atail)) = a1)
    (ha2 : dns_name_fromregion (a2 ++ atail) = a2)
    (hb1 : dns_name_fromregion (b1 ++ (b2 ++ btail)) = b1)
    (hb2 : dns_name_fromregion (b2 ++ btail) = b2) :
    compare_soa dns_name_fromregion dns_name_rdatacompare compare_region a b =
      .returned
        (if dns_name_rdatacompare a1 b1 ≠ 0 then dns_name_rdatacompare a1 b1
         else if dns_name_rdatacompare a2 b2 ≠ 0 then dns_name_rdatacompare a2 b2
         else compare_region atail btail) := by
  by_cases c1 : dns_name_rdatacompare a1 b1 = 0
  · by_cases c2 : dns_name_rdatacompare a2 b2 = 0
    · simp [compare_soa, hta, htb, hclass, hda, hdb, ha1, ha2, hb1, hb2, name_length,
        isc_region_consume, Outcome.bind, c1, c2]
    · simp [compare_soa, hta, htb, hclass, hda, hdb, ha1, ha2, hb1, hb2, name_length,
        isc_region_consume, Outcome.bind, c1, c2]
  · simp [compare_soa, hta, htb, hclass, hda, hdb, ha1, hb1, c1]

/-- C12: `compare_soa` on valid SOA rdata of one class returns the first
non-zero value among the comparison of the first names, the comparison of the
second names and the comparison of the trailing bytes; and when those three
comparisons are antisymmetric on these operands, `compare_soa(b, a)` is the
negation of `compare_soa(a, b)`. -/
theorem compare_soa_names_first (dns_name_fromregion : NameFromregion)
    (dns_name_rdatacompare : NameCompare) (compare_region : RegionCompare)
    (a b : dns_rdata_t) (a1 a2 atail b1 b2 btail : List Nat)
    (hta : a.type = 6) (htb : b.type = 6) (hclass : a.rdclass = b.rdclass)
    (hda : a.data = a1 ++ (a2 ++ atail)) (hdb : b.data = b1 ++ (b2 ++ btail))
    (ha1 : dns_name_fromregion (a1 ++ (a2 ++ atail)) = a1)
    (ha2 : dns_name_fromregion (a2 ++ atail) = a2)
    (hb1 : dns_name_fromregion (b1 ++ (b2 ++ btail)) = b1)
    (hb2 : dns_name_fromregion (b2 ++ btail) = b2)
    (hanti1 : dns_name_rdatacompare b1 a1 = - dns_name_rdatacompare a1 b1)
    (hanti2 : dns_name_rdatacompare b2 a2 = - dns_name_rdatacompare a2 b2)
    (hanti3 : compare_region btail atail = - compare_region atail btail) :
    compare_soa dns_name_fromregion dns_name_rdatacompare compare_region a b =
        .returned
          (if dns_name_rdatacompare a1 b1 ≠ 0 then dns_name_rdatacompare a1 b1
           else if dns_name_rdatacompare a2 b2 ≠ 0 then dns_name_rdatacompare a2 b2
           else compare_region atail btail) ∧
      compare_soa dns_name_fromregion dns_name_rdatacompare compare_region b a =
        .returned
          (- (if dns_name_rdatacompare a1 b1 ≠ 0 then dns_name_rdatacompare a1 b1
           else if dns_name_rdatacompare a2 b2 ≠ 0 then dns_name_rdatacompare a2 b2
           else compare_region atail btail)) := by
  refine ⟨compare_soa_value _ _ _ a b a1 a2 atail b1 b2 btail hta htb hclass hda hdb
    ha1 ha2 hb1 hb2, ?_⟩
  rw [compare_soa_value _ _ _ b a b1 b2 btail a1 a2 atail htb hta hclass.symm hdb hda
    hb1 hb2 ha1 ha2, hanti1, hanti2, hanti3]
  by_cases c1 : dns_name_rdatacompare a1 b1 = 0
  · by_cases c2 : dns_name_rdatacompare a2 b2 = 0
    · simp [c1, c2]
    · simp [c1, c2]
  · simp [c1]

/-- Witness for C12: the example and the example with the next serial have
equal names, so the trailing bytes decide: `-1` one way, `1` the other. -/
theorem compare_soa_names_first_witness :
    compare_soa plain_name_fromregion plain_compare_region plain_compare_region
        soa_example soa_example_next = .returned (-1) ∧
      compare_soa plain_name_fromregion plain_compare_region plain_compare_region
        soa_example_next soa_example = .returned 1 := by
  have h := compare_soa_names_first plain_name_fromregion plain_compare_region
    plain_compare_region soa_example soa_example_next
    soa_example_mname soa_example_rname soa_example_tail
    soa_example_mname soa_example_rname ([120, 102, 232, 117] ++ soa_example_tail.drop 4)
    (by decide) (by decide) (by decide) (by decide) (by decide) (by decide) (by decide)
    (by decide) (by decide) (by decide) (by decide) (by decide)
  exact ⟨h.1.trans (by decide), h.2.trans (by decide)⟩

/-- C18: with class 4 and type 1, `fromstruct_hs_a` returns
`ISC_R_NOTIMPLEMENTED` for every source struct and every target, and the
target buffer is as it was. -/
theorem fromstruct_hs_a_notimplemented {α : Type} (source : α) (target : isc_buffer_t) :
    fromstruct_hs_a 4 1 source target = .returned (.notimplemented, target) := by
  simp [fromstruct_hs_a]

/-- C19 (as amended): `freestruct_hs_a` never returns: on `NULL` the first
`REQUIRE` stops it, on every struct `REQUIRE(ISC_FALSE)` does. -/
theorem freestruct_hs_a_aborts (source : Option dns_rdata_hs_a_t) :
    freestruct_hs_a source = .aborted := by
  unfold freestruct_hs_a
  split
  · rfl
  · simp [ISC_FALSE]

/-- C19 (counterexample): the struct that `tostruct_hs_a` builds from the
address 18.52.86.120 is not released by `freestruct_hs_a`; the call aborts. -/
theorem freestruct_hs_a_after_tostruct :
    tostruct_hs_a true ⟨4, 1, [18, 52, 86, 120]⟩ blank_hs_a =
        .returned (.success, ⟨⟨4, 1, none⟩, 305419896⟩) ∧
      freestruct_hs_a (some ⟨⟨4, 1, none⟩, 305419896⟩) = .aborted ∧
      freestruct_hs_a (some ⟨⟨4, 1, none⟩, 305419896⟩) ≠ .returned () := by
  refine ⟨by decide, by decide, by decide⟩

/-- A sequence of two steps returns only if the first one does. -/
theorem Outcome.bind_eq_returned {α β : Type} (x : Outcome α) (f : α → Outcome β) (b : β)
    (h : x.bind f = .returned b) : ∃ a, x = .returned a ∧ f a = .returned b := by
  cases x with
  | returned a => exact ⟨a, rfl, h⟩
  | aborted => cases h
  | undefined => cases h
  | unfinished => cases h

/-- C16: `fromwire_hs_a` (class 4, type 1) returns `ISC_R_UNEXPECTEDEND` when
fewer than 4 active source bytes remain, otherwise `ISC_R_NOSPACE` when fewer
than 4 target bytes are available, in both cases with source and target as
they were; otherwise it succeeds, moves the read cursor by 4 and appends the
4 source bytes to the target. -/
theorem fromwire_hs_a_cases (source : isc_buffer_t) (dctx : dns_decompress_t)
    (downcase : Bool) (target : isc_buffer_t) :
    ((isc_buffer_activeregion source).length < 4 →
        fromwire_hs_a 4 1 source dctx downcase target =
          .returned (.unexpectedend, source, target)) ∧
      (4 ≤ (isc_buffer_activeregion source).length →
        (isc_buffer_availableregion target).length < 4 →
        fromwire_hs_a 4 1 source dctx downcase target =
          .returned (.nospace, source, target)) ∧
      (source.WF → 4 ≤ (isc_buffer_activeregion source).length →
        4 ≤ (isc_buffer_availableregion target).length →
        fromwire_hs_a 4 1 source dctx downcase target =
            .returned (.success, { source with consumed := source.consumed + 4 },
              target.put ((source.base.drop source.consumed).take 4)) ∧
          ((source.base.drop source.consumed).take 4).length = 4 ∧
          (target.put ((source.base.drop source.consumed).take 4)).used = target.used + 4 ∧
          (target.put ((source.base.drop source.consumed).take 4)).base.take
              (target.used + 4) =
            target.base.take target.used ++ (source.base.drop source.consumed).take 4) := by
  simp only [isc_buffer_activeregion, isc_buffer_active, isc_buffer_availableregion,
    isc_buffer_available]
  refine ⟨?_, ?_, ?_⟩
  · intro h
    simp [fromwire_hs_a, isc_buffer_activeregion, isc_buffer_active, h]
  · intro h1 h2
    have h1' : ¬ (source.used - source.consumed < 4) := by omega
    simp [fromwire_hs_a, isc_buffer_activeregion, isc_buffer_active,
      isc_buffer_availableregion, isc_buffer_available, h1', h2]
  · intro hwf h1 h2
    obtain ⟨_, hul⟩ := hwf
    have hs4 : source.consumed + 4 ≤ source.base.length := by omega
    have hlen := slice_length source.base source.consumed 4 hs4
    have hcopy := copy_eq_put target source 4 hs4
    have hbase : memcpy target.base target.used source.base source.consumed 4 =
        (target.put ((source.base.drop source.consumed).take 4)).base := by
      have := congrArg isc_buffer_t.base hcopy
      simpa using this
    have hused : (target.put ((source.base.drop source.consumed).take 4)).used =
        target.used + 4 := by
      simp only [isc_buffer_t.put, hlen]
    have hroom : target.used + ((source.base.drop source.consumed).take 4).length ≤
        target.base.length := by rw [hlen]; omega
    refine ⟨?_, hlen, hused, ?_⟩
    · have e1 : ¬ (source.used - source.consumed < 4) := by omega
      have e2 : ¬ (target.base.length - target.used < 4) := by omega
      have e3 : 4 ≤ (target.put ((source.base.drop source.consumed).take 4)).base.length -
          target.used := by rw [put_length _ _ hroom]; omega
      simp only [fromwire_hs_a, isc_buffer_activeregion, isc_buffer_active,
        isc_buffer_availableregion, isc_buffer_available, isc_buffer_forward, isc_buffer_add,
        Outcome.bind, ne_eq, not_true_eq_false, if_false, e1, e2, hbase, if_pos h1, if_pos e3]
      rw [← hused]
      rfl
    · have := put_committed target _ hroom
      rw [hused] at this
      exact this

/-- Witness for C16: a 3-byte source, a full target, and a good pair. -/
theorem fromwire_hs_a_cases_witness :
    fromwire_hs_a 4 1 ⟨[18, 52, 86, 120], 3, 0⟩ ⟨0, true, .DNS_COMPRESS_NONE⟩ false
        example_target =
        .returned (.unexpectedend, ⟨[18, 52, 86, 120], 3, 0⟩, example_target) ∧
      fromwire_hs_a 4 1 ⟨[18, 52, 86, 120], 4, 0⟩ ⟨0, true, .DNS_COMPRESS_NONE⟩ false
        ⟨[7, 7, 7, 7, 7], 2, 0⟩ =
        .returned (.nospace, ⟨[18, 52, 86, 120], 4, 0⟩, ⟨[7, 7, 7, 7, 7], 2, 0⟩) ∧
      fromwire_hs_a 4 1 ⟨[18, 52, 86, 120], 4, 0⟩ ⟨0, true, .DNS_COMPRESS_NONE⟩ false
        ⟨[7, 7, 7, 7, 7], 1, 0⟩ =
        .returned (.success, ⟨[18, 52, 86, 120], 4, 4⟩, ⟨[7, 18, 52, 86, 120], 5, 0⟩) :=
  ⟨(fromwire_hs_a_cases ⟨[18, 52, 86, 120], 3, 0⟩ ⟨0, true, .DNS_COMPRESS_NONE⟩ false
      example_target).1 (by decide),
   (fromwire_hs_a_cases ⟨[18, 52, 86, 120], 4, 0⟩ ⟨0, true, .DNS_COMPRESS_NONE⟩ false
      ⟨[7, 7, 7, 7, 7], 2, 0⟩).2.1 (by decide) (by decide),
   ((fromwire_hs_a_cases ⟨[18, 52, 86, 120], 4, 0⟩ ⟨0, true, .DNS_COMPRESS_NONE⟩ false
      ⟨[7, 7, 7, 7, 7], 1, 0⟩).2.2 (by decide) (by decide) (by decide)).1⟩

/-- C17 (counterexample): the example message with its last byte missing.
`fromwire_soa` returns `DNS_R_UNEXPECTEDEND`, and the two names it decoded
stay committed in the target: `used` is 36, not the 3 it was at entry. -/
theorem fromwire_soa_error_leaves_names :
    fromwire_soa plain_name_fromwire 1 6
        { ((example_message.put soa_example_mname).put soa_example_rname).put
            (soa_example_tail.take 19) with consumed := 2 }
        ⟨0, true, .DNS_COMPRESS_NONE⟩ false example_target =
        .returned (.unexpectedend,
          { ((example_message.put soa_example_mname).put soa_example_rname).put
              (soa_example_tail.take 19) with consumed := 35 },
          fromwire_soa_setmethods ⟨0, true, .DNS_COMPRESS_NONE⟩,
          (example_target.put soa_example_mname).put soa_example_rname) ∧
      ((example_target.put soa_example_mname).put soa_example_rname).used = 36 ∧
      example_target.used = 3 := by
  refine ⟨by decide, by decide, by decide⟩

/-- C17 (as amended): when `fromwire_soa` returns an error, the target is
exactly as the last call of `dns_name_fromwire` left it.  Either the first
name failed and the result and target are those of that call; or the second
name failed and the result and target are those of that call; or both names
were decoded, the result is `DNS_R_UNEXPECTEDEND` or `DNS_R_NOSPACE`, and
source and target are as the second name left them.  `fromwire_soa` itself
commits nothing on an error. -/
theorem fromwire_soa_error_target (dns_name_fromwire : NameFromwire) (rdclass : Nat)
    (source : isc_buffer_t) (dctx : dns_decompress_t) (downcase : Bool)
    (target : isc_buffer_t) (r : Result) (source' : isc_buffer_t)
    (dctx' : dns_decompress_t) (target' : isc_buffer_t)
    (hrun : fromwire_soa dns_name_fromwire rdclass 6 source dctx downcase target =
      .returned (r, source', dctx', target'))
    (herr : r ≠ .success) :
    (r = (dns_name_fromwire source (fromwire_soa_setmethods dctx) downcase target).1 ∧
        target' =
          (dns_name_fromwire source (fromwire_soa_setmethods dctx) downcase target).2.2) ∨
      ((dns_name_fromwire source (fromwire_soa_setmethods dctx) downcase target).1 =
          .success ∧
        ((r = (dns_name_fromwire
              (dns_name_fromwire source (fromwire_soa_setmethods dctx) downcase target).2.1
              (fromwire_soa_setmethods dctx) downcase
              (dns_name_fromwire source (fromwire_soa_setmethods dctx) downcase
                target).2.2).1) ∨
          ((dns_name_fromwire
              (dns_name_fromwire source (fromwire_soa_setmethods dctx) downcase target).2.1
              (fromwire_soa_setmethods dctx) downcase
              (dns_name_fromwire source (fromwire_soa_setmethods dctx) downcase
                target).2.2).1 = .success ∧
            (r = .unexpectedend ∨ r = .nospace) ∧
            source' = (dns_name_fromwire
              (dns_name_fromwire source (fromwire_soa_setmethods dctx) downcase target).2.1
              (fromwire_soa_setmethods dctx) downcase
              (dns_name_fromwire source (fromwire_soa_setmethods dctx) downcase
                target).2.2).2.1)) ∧
        target' = (dns_name_fromwire
          (dns_name_fromwire source (fromwire_soa_setmethods dctx) downcase target).2.1
          (fromwire_soa_setmethods dctx) downcase
          (dns_name_fromwire source (fromwire_soa_setmethods dctx) downcase
            target).2.2).2.2) := by
  generalize ho1 : dns_name_fromwire source (fromwire_soa_setmethods dctx) downcase target = o1
  obtain ⟨r1, s1, t1⟩ := o1
  generalize ho2 : dns_name_fromwire s1 (fromwire_soa_setmethods dctx) downcase t1 = o2
  obtain ⟨r2, s2, t2⟩ := o2
  simp only [fromwire_soa, ho1, ho2, ne_eq, not_true_eq_false, if_false] at hrun
  by_cases h1 : r1 = .success
  · right
    simp only [h1, not_true_eq_false, if_false] at hrun
    refine ⟨h1, ?_⟩
    by_cases h2 : r2 = .success
    · simp only [h2, not_true_eq_false, if_false] at hrun
      split at hrun
      · cases hrun
        exact ⟨Or.inr ⟨h2, Or.inl rfl, rfl⟩, rfl⟩
      · split at hrun
        · cases hrun
          exact ⟨Or.inr ⟨h2, Or.inr rfl, rfl⟩, rfl⟩
        · exfalso
          obtain ⟨s3, _, hrun⟩ := Outcome.bind_eq_returned _ _ _ hrun
          obtain ⟨t3, _, hrun⟩ := Outcome.bind_eq_returned _ _ _ hrun
          cases hrun
          exact herr rfl
    · simp only [h2, not_false_eq_true, if_true] at hrun
      cases hrun
      exact ⟨Or.inl rfl, rfl⟩
  · left
    simp only [h1, not_false_eq_true, if_true] at hrun
    cases hrun
    exact ⟨rfl, rfl⟩

/-- Witness for C17 (as amended), on the counterexample's message. -/
theorem fromwire_soa_error_target_witness :
    (example_target.put soa_example_mname).put soa_example_rname =
      (plain_name_fromwire
        (plain_name_fromwire
          { ((example_message.put soa_example_mname).put soa_example_rname).put
              (soa_example_tail.take 19) with consumed := 2 }
          (fromwire_soa_setmethods ⟨0, true, .DNS_COMPRESS_NONE⟩) false example_target).2.1
        (fromwire_soa_setmethods ⟨0, true, .DNS_COMPRESS_NONE⟩) false
        (plain_name_fromwire
          { ((example_message.put soa_example_mname).put soa_example_rname).put
              (soa_example_tail.take 19) with consumed := 2 }
          (fromwire_soa_setmethods ⟨0, true, .DNS_COMPRESS_NONE⟩) false
          example_target).2.2).2.2 := by
  have h := fromwire_soa_error_target plain_name_fromwire 1
    { ((example_message.put soa_example_mname).put soa_example_rname).put
        (soa_example_tail.take 19) with consumed := 2 }
    ⟨0, true, .DNS_COMPRESS_NONE⟩ false example_target .unexpectedend
    { ((example_message.put soa_example_mname).put soa_example_rname).put
        (soa_example_tail.take 19) with consumed := 35 }
    (fromwire_soa_setmethods ⟨0, true, .DNS_COMPRESS_NONE⟩)
    ((example_target.put soa_example_mname).put soa_example_rname)
    (by decide) (by decide)
  rcases h with ⟨h1, _⟩ | ⟨_, _, h2⟩
  · exact absurd h1 (by decide)
  · exact h2

/-- C20: `digest_soa` on valid SOA rdata digests the first name, then the
second name, then hands the trailing bytes to the callback as one span.  A
result other than success from the first or the second name is returned as it
is, with the callback state that call left, and nothing later runs;
otherwise the value returned is the callback's result on the trailing
span. -/
theorem digest_soa_order {α : Type} (dns_name_fromregion : NameFromregion)
    (dns_name_digest : NameDigest α) (x : dns_rdata_t) (a b tail : List Nat)
    (digest : DigestFunc α) (arg : α)
    (hx : x.type = 6) (hdata : x.data = a ++ (b ++ tail))
    (ha : dns_name_fromregion (a ++ (b ++ tail)) = a)
    (hb : dns_name_fromregion (b ++ tail) = b) :
    ((dns_name_digest a digest arg).1 ≠ .success →
        digest_soa dns_name_fromregion dns_name_digest x digest arg =
          .returned (dns_name_digest a digest arg)) ∧
      ((dns_name_digest a digest arg).1 = .success →
        (dns_name_digest b digest (dns_name_digest a digest arg).2).1 ≠ .success →
        digest_soa dns_name_fromregion dns_name_digest x digest arg =
          .returned (dns_name_digest b digest (dns_name_digest a digest arg).2)) ∧
      ((dns_name_digest a digest arg).1 = .success →
        (dns_name_digest b digest (dns_name_digest a digest arg).2).1 = .success →
        digest_soa dns_name_fromregion dns_name_digest x digest arg =
          .returned (digest (dns_name_digest b digest (dns_name_digest a digest arg).2).2
            tail)) := by
  generalize ho1 : dns_name_digest a digest arg = o1
  obtain ⟨r1, arg1⟩ := o1
  generalize ho2 : dns_name_digest b digest arg1 = o2
  obtain ⟨r2, arg2⟩ := o2
  refine ⟨?_, ?_, ?_⟩
  · intro h1
    simp only at h1
    simp [digest_soa, hx, hdata, ha, ho1, h1]
  · intro h1 h2
    simp only at h1 h2
    simp [digest_soa, hx, hdata, ha, hb, ho1, ho2, h1, h2, name_length, isc_region_consume,
      Outcome.bind]
  · intro h1 h2
    simp only at h1 h2
    simp [digest_soa, hx, hdata, ha, hb, ho1, ho2, h1, h2, name_length, isc_region_consume,
      Outcome.bind]

/-- Witness for C20: on the example a recording callback sees the first name,
the second name and the 20 trailing bytes, in that order; a callback that
fails on the second name is not run on the trailing bytes. -/
theorem digest_soa_order_witness :
    digest_soa plain_name_fromregion plain_name_digest soa_example recording_digest [] =
        .returned (.success, [soa_example_mname, soa_example_rname, soa_example_tail]) ∧
      digest_soa plain_name_fromregion plain_name_digest soa_example failing_digest [] =
        .returned (.other 7, [soa_example_mname, soa_example_rname]) :=
  ⟨((digest_soa_order plain_name_fromregion plain_name_digest soa_example
      soa_example_mname soa_example_rname soa_example_tail recording_digest []
      (by decide) (by decide) (by decide) (by decide)).2.2 (by decide) (by decide)).trans
      (by decide),
   ((digest_soa_order plain_name_fromregion plain_name_digest soa_example
      soa_example_mname soa_example_rname soa_example_tail failing_digest []
      (by decide) (by decide) (by decide) (by decide)).2.1 (by decide) (by decide)).trans
      (by decide)⟩

/-! ## Struct and text forms of SOA -/

theorem uint32_fromregion_eq (t : List Nat) (off : Nat) (h : off + 4 ≤ t.length) :
    uint32_fromregion (t.drop off) = .returned (u32_at true t off) := by
  have hlen : ¬ ((t.drop off).length < 4) := by simp only [List.length_drop]; omega
  simp only [uint32_fromregion, hlen, if_false, u32_at, if_true, List.getD_eq_getElem?_getD,
    List.getElem?_drop, Nat.add_zero]

/-- The struct `tostruct_soa` builds from valid SOA rdata. -/
theorem tostruct_soa_value (dns_name_fromregion : NameFromregion) (x : dns_rdata_t)
    (a b t : List Nat) (s0 : dns_rdata_soa_t)
    (hx : x.type = 6) (hdata : x.data = a ++ (b ++ t)) (ht : t.length = 20)
    (ha : dns_name_fromregion (a ++ (b ++ t)) = a)
    (hb : dns_name_fromregion (b ++ t) = b) :
    tostruct_soa dns_name_fromregion x (some s0) =
      .returned (.success,
        ⟨⟨x.rdclass, x.type, none⟩, a, b, u32_at true t 0, u32_at true t 4,
          u32_at true t 8, u32_at true t 12, u32_at true t 16⟩) := by
  have h0 := uint32_fromregion_eq t 0 (by omega)
  have h4 := uint32_fromregion_eq t 4 (by omega)
  have h8 := uint32_fromregion_eq t 8 (by omega)
  have h12 := uint32_fromregion_eq t 12 (by omega)
  have h16 := uint32_fromregion_eq t 16 (by omega)
  rw [List.drop_zero] at h0
  have c4 : isc_region_consume t 4 = .returned (t.drop 4) := by
    simp [isc_region_consume, ht]
  have c8 : isc_region_consume (t.drop 4) 4 = .returned (t.drop 8) := by
    simp [isc_region_consume, ht]
  have c12 : isc_region_consume (t.drop 8) 4 = .returned (t.drop 12) := by
    simp [isc_region_consume, ht]
  have c16 : isc_region_consume (t.drop 12) 4 = .returned (t.drop 16) := by
    simp [isc_region_consume, ht]
  have ca : isc_region_consume (a ++ (b ++ t)) a.length = .returned (b ++ t) := by
    simp [isc_region_consume]
  have cb : isc_region_consume (b ++ t) b.length = .returned t := by
    simp [isc_region_consume]
  simp only [tostruct_soa, hx, hdata, ha, hb, name_length, ca, cb, h0, h4, h8, h12, h16,
    c4, c8, c12, c16, Outcome.bind, ne_eq, not_true_eq_false, if_false]

/-- C14: `tostruct_soa` decodes the layout `NAME(a) || NAME(b) || t[0..20)`:
the struct's two names are `a` and `b` in that order, `serial`, `refresh`,
`retry`, `expire`, `minimum` are the big-endian 32-bit values of `t[0..4)`,
`t[4..8)`, `t[8..12)`, `t[12..16)`, `t[16..20)`, and class and type are those
of the rdata. -/
theorem tostruct_soa_layout (dns_name_fromregion : NameFromregion) (x : dns_rdata_t)
    (a b t : List Nat) (s0 : dns_rdata_soa_t)
    (hx : x.type = 6) (hdata : x.data = a ++ (b ++ t)) (ht : t.length = 20)
    (ha : dns_name_fromregion (a ++ (b ++ t)) = a)
    (hb : dns_name_fromregion (b ++ t) = b) :
    ∃ soa, tostruct_soa dns_name_fromregion x (some s0) = .returned (.success, soa) ∧
      soa.origin = a ∧ soa.mname = b ∧
      soa.serial = t.getD 0 0 % 256 * 2 ^ 24 + t.getD 1 0 % 256 * 2 ^ 16 +
        t.getD 2 0 % 256 * 2 ^ 8 + t.getD 3 0 % 256 ∧
      soa.refresh = t.getD 4 0 % 256 * 2 ^ 24 + t.getD 5 0 % 256 * 2 ^ 16 +
        t.getD 6 0 % 256 * 2 ^ 8 + t.getD 7 0 % 256 ∧
      soa.retry = t.getD 8 0 % 256 * 2 ^ 24 + t.getD 9 0 % 256 * 2 ^ 16 +
        t.getD 10 0 % 256 * 2 ^ 8 + t.getD 11 0 % 256 ∧
      soa.expire = t.getD 12 0 % 256 * 2 ^ 24 + t.getD 13 0 % 256 * 2 ^ 16 +
        t.getD 14 0 % 256 * 2 ^ 8 + t.getD 15 0 % 256 ∧
      soa.minimum = t.getD 16 0 % 256 * 2 ^ 24 + t.getD 17 0 % 256 * 2 ^ 16 +
        t.getD 18 0 % 256 * 2 ^ 8 + t.getD 19 0 % 256 ∧
      soa.common.rdclass = x.rdclass ∧ soa.common.rdtype = x.type :=
  ⟨_, tostruct_soa_value dns_name_fromregion x a b t s0 hx hdata ht ha hb,
    rfl, rfl, rfl, rfl, rfl, rfl, rfl, rfl, rfl⟩

/-- Witness for C14: the spec's example. -/
theorem tostruct_soa_layout_witness :
    ∃ soa, tostruct_soa plain_name_fromregion soa_example (some blank_soa) =
        .returned (.success, soa) ∧
      soa.origin = soa_example_mname ∧ soa.mname = soa_example_rname ∧
      soa.serial = 2020010100 ∧ soa.refresh = 3600 ∧ soa.retry = 600 ∧
      soa.expire = 1209600 ∧ soa.minimum = 3600 := by
  obtain ⟨soa, hrun, ho, hm, h1, h2, h3, h4, h5, _, _⟩ :=
    tostruct_soa_layout plain_name_fromregion soa_example soa_example_mname
      soa_example_rname soa_example_tail blank_soa
      (by decide) (by decide) (by decide) (by decide) (by decide)
  exact ⟨soa, hrun, ho, hm, h1.trans (by decide), h2.trans (by decide),
    h3.trans (by decide), h4.trans (by decide), h5.trans (by decide)⟩

theorem uint32_bytes_length (value : Nat) : (uint32_bytes value).length = 4 := rfl

theorem uint32_tobuffer_success (value : Nat) (target : isc_buffer_t)
    (h : target.used + 4 ≤ target.base.length) :
    uint32_tobuffer value target = (.success, target.put (uint32_bytes value)) := by
  have e : ¬ (target.base.length - target.used < 4) := by omega
  simp [uint32_tobuffer, isc_buffer_available, e]

theorem put_used (b : isc_buffer_t) (bytes : List Nat) :
    (b.put bytes).used = b.used + bytes.length := rfl

/-- The big-endian bytes of a 32-bit value decode to the value. -/
theorem u32_at_uint32_bytes (n : Nat) (h : n < 2 ^ 32) (pre post : List Nat) :
    u32_at true (pre ++ (uint32_bytes n ++ post)) pre.length = n := by
  simp only [u32_at, if_true, List.getD_eq_getElem?_getD, uint32_bytes]
  have e0 : (pre ++ ([n / 2 ^ 24 % 256, n / 2 ^ 16 % 256, n / 2 ^ 8 % 256, n % 256] ++ post))[
      pre.length + 0]? = some (n / 2 ^ 24 % 256) := by
    rw [List.getElem?_append_right (by omega)]; simp
  have e1 : (pre ++ ([n / 2 ^ 24 % 256, n / 2 ^ 16 % 256, n / 2 ^ 8 % 256, n % 256] ++ post))[
      pre.length + 1]? = some (n / 2 ^ 16 % 256) := by
    rw [List.getElem?_append_right (by omega)]; simp
  have e2 : (pre ++ ([n / 2 ^ 24 % 256, n / 2 ^ 16 % 256, n / 2 ^ 8 % 256, n % 256] ++ post))[
      pre.length + 2]? = some (n / 2 ^ 8 % 256) := by
    rw [List.getElem?_append_right (by omega)]; simp
  have e3 : (pre ++ ([n / 2 ^ 24 % 256, n / 2 ^ 16 % 256, n / 2 ^ 8 % 256, n % 256] ++ post))[
      pre.length + 3]? = some (n % 256) := by
    rw [List.getElem?_append_right (by omega)]; simp
  rw [e0, e1, e2, e3]
  simp only [Option.getD_some]
  norm_num
  omega

theorem fromtext_soa_numbers_step (n value : Nat) (lexer : isc_lex_t)
    (target : isc_buffer_t)
    (h : uint32_tobuffer value target = (.success, target.put (uint32_bytes value))) :
    fromtext_soa_numbers (n + 1) (.number value :: lexer) target =
      fromtext_soa_numbers n lexer (target.put (uint32_bytes value)) := by
  simp only [fromtext_soa_numbers, gettoken, isc_token_t.as_ulong, h, ne_eq,
    not_true_eq_false, if_false]

theorem fromtext_soa_names_step (dns_name_fromtext : NameFromtext) (downcase : Bool)
    (n : Nat) (s : List Nat) (lexer : isc_lex_t) (origin : Option (List Nat))
    (target target' : isc_buffer_t)
    (h : dns_name_fromtext s (origin.getD dns_rootname) downcase target =
      (.success, target')) :
    fromtext_soa_names dns_name_fromtext downcase (n + 1) (.string s :: lexer) origin target =
      fromtext_soa_names dns_name_fromtext downcase n lexer
        (if origin ≠ none then origin else some dns_rootname) target' := by
  have horigin : ((if origin ≠ none then origin else some dns_rootname).getD dns_rootname) =
      origin.getD dns_rootname := by
    cases origin <;> rfl
  simp only [fromtext_soa_names, gettoken, isc_token_t.as_region, horigin, h, ne_eq,
    not_true_eq_false, if_false]

/-- What `fromtext_soa` writes for two name tokens and five number tokens. -/
theorem fromtext_soa_value (dns_name_fromtext : NameFromtext) (rdclass : Nat)
    (s1 s2 : List Nat) (n1 n2 n3 n4 n5 : Nat) (rest : isc_lex_t)
    (origin : Option (List Nat)) (downcase : Bool) (target : isc_buffer_t)
    (na nb : List Nat)
    (hfx1 : dns_name_fromtext s1 (origin.getD dns_rootname) downcase target =
      (.success, target.put na))
    (hfx2 : dns_name_fromtext s2 (origin.getD dns_rootname) downcase (target.put na) =
      (.success, (target.put na).put nb))
    (hroom : na.length + nb.length + 20 ≤ (isc_buffer_available target).length) :
    fromtext_soa dns_name_fromtext rdclass 6
        (.string s1 :: .string s2 :: .number n1 :: .number n2 :: .number n3 ::
          .number n4 :: .number n5 :: rest) origin downcase target =
      .returned (.success, rest,
        ((((((target.put na).put nb).put (uint32_bytes n1)).put (uint32_bytes n2)).put
          (uint32_bytes n3)).put (uint32_bytes n4)).put (uint32_bytes n5)) := by
  simp only [isc_buffer_available] at hroom
  have horigin : ((if origin ≠ none then origin else some dns_rootname).getD dns_rootname) =
      origin.getD dns_rootname := by
    cases origin <;> rfl
  have la : (target.put na).base.length = target.base.length := put_length _ _ (by omega)
  have lb : ((target.put na).put nb).base.length = target.base.length := by
    rw [put_length _ _ (by rw [la, put_used]; omega), la]
  have l1 : (((target.put na).put nb).put (uint32_bytes n1)).base.length =
      target.base.length := by
    rw [put_length _ _ (by rw [lb]; simp only [put_used, uint32_bytes_length]; omega), lb]
  have l2 : ((((target.put na).put nb).put (uint32_bytes n1)).put
      (uint32_bytes n2)).base.length = target.base.length := by
    rw [put_length _ _ (by rw [l1]; simp only [put_used, uint32_bytes_length]; omega), l1]
  have l3 : (((((target.put na).put nb).put (uint32_bytes n1)).put
      (uint32_bytes n2)).put (uint32_bytes n3)).base.length = target.base.length := by
    rw [put_length _ _ (by rw [l2]; simp only [put_used, uint32_bytes_length]; omega), l2]
  have l4 : ((((((target.put na).put nb).put (uint32_bytes n1)).put
      (uint32_bytes n2)).put (uint32_bytes n3)).put (uint32_bytes n4)).base.length =
      target.base.length := by
    rw [put_length _ _ (by rw [l3]; simp only [put_used, uint32_bytes_length]; omega), l3]
  have w1 := uint32_tobuffer_success n1 ((target.put na).put nb)
    (by rw [lb]; simp only [put_used]; omega)
  have w2 := uint32_tobuffer_success n2 (((target.put na).put nb).put (uint32_bytes n1))
    (by rw [l1]; simp only [put_used, uint32_bytes_length]; omega)
  have w3 := uint32_tobuffer_success n3 ((((target.put na).put nb).put
    (uint32_bytes n1)).put (uint32_bytes n2))
    (by rw [l2]; simp only [put_used, uint32_bytes_length]; omega)
  have w4 := uint32_tobuffer_success n4 (((((target.put na).put nb).put
    (uint32_bytes n1)).put (uint32_bytes n2)).put (uint32_bytes n3))
    (by rw [l3]; simp only [put_used, uint32_bytes_length]; omega)
  have w5 := uint32_tobuffer_success n5 ((((((target.put na).put nb).put
    (uint32_bytes n1)).put (uint32_bytes n2)).put (uint32_bytes n3)).put (uint32_bytes n4))
    (by rw [l4]; simp only [put_used, uint32_bytes_length]; omega)
  have hnames : fromtext_soa_names dns_name_fromtext downcase 2
      (.string s1 :: .string s2 :: .number n1 :: .number n2 :: .number n3 ::
        .number n4 :: .number n5 :: rest) origin target =
      (.success, .number n1 :: .number n2 :: .number n3 :: .number n4 :: .number n5 :: rest,
        (target.put na).put nb) := by
    rw [fromtext_soa_names_step dns_name_fromtext downcase 1 s1 _ origin target _ hfx1,
      fromtext_soa_names_step dns_name_fromtext downcase 0 s2 _ _ (target.put na) _
        (by rw [horigin]; exact hfx2)]
    rfl
  have hnumbers : fromtext_soa_numbers 5
      (.number n1 :: .number n2 :: .number n3 :: .number n4 :: .number n5 :: rest)
      ((target.put na).put nb) =
      (.success, rest,
        ((((((target.put na).put nb).put (uint32_bytes n1)).put (uint32_bytes n2)).put
          (uint32_bytes n3)).put (uint32_bytes n4)).put (uint32_bytes n5)) := by
    rw [fromtext_soa_numbers_step 4 n1 _ _ w1, fromtext_soa_numbers_step 3 n2 _ _ w2,
      fromtext_soa_numbers_step 2 n3 _ _ w3, fromtext_soa_numbers_step 1 n4 _ _ w4,
      fromtext_soa_numbers_step 0 n5 _ _ w5]
    rfl
  unfold fromtext_soa
  simp only [hnames, hnumbers, ne_eq, not_true_eq_false, if_false]

/-- The bytes committed by the seven `put`s of `fromtext_soa`. -/
theorem fromtext_soa_committed (target : isc_buffer_t) (na nb : List Nat)
    (n1 n2 n3 n4 n5 : Nat)
    (hroom : na.length + nb.length + 20 ≤ (isc_buffer_available target).length) :
    (((((((target.put na).put nb).put (uint32_bytes n1)).put (uint32_bytes n2)).put
        (uint32_bytes n3)).put (uint32_bytes n4)).put (uint32_bytes n5)).base.take
      (target.used + (na.length + nb.length + 20)) =
      target.base.take target.used ++ (na ++ (nb ++ (uint32_bytes n1 ++ (uint32_bytes n2 ++
        (uint32_bytes n3 ++ (uint32_bytes n4 ++ uint32_bytes n5)))))) := by
  simp only [isc_buffer_available] at hroom
  have la : (target.put na).base.length = target.base.length := put_length _ _ (by omega)
  have lb : ((target.put na).put nb).base.length = target.base.length := by
    rw [put_length _ _ (by rw [la, put_used]; omega), la]
  have l1 : (((target.put na).put nb).put (uint32_bytes n1)).base.length =
      target.base.length := by
    rw [put_length _ _ (by rw [lb]; simp only [put_used, uint32_bytes_length]; omega), lb]
  have l2 : ((((target.put na).put nb).put (uint32_bytes n1)).put
      (uint32_bytes n2)).base.length = target.base.length := by
    rw [put_length _ _ (by rw [l1]; simp only [put_used, uint32_bytes_length]; omega), l1]
  have l3 : (((((target.put na).put nb).put (uint32_bytes n1)).put
      (uint32_bytes n2)).put (uint32_bytes n3)).base.length = target.base.length := by
    rw [put_length _ _ (by rw [l2]; simp only [put_used, uint32_bytes_length]; omega), l2]
  have l4 : ((((((target.put na).put nb).put (uint32_bytes n1)).put
      (uint32_bytes n2)).put (uint32_bytes n3)).put (uint32_bytes n4)).base.length =
      target.base.length := by
    rw [put_length _ _ (by rw [l3]; simp only [put_used, uint32_bytes_length]; omega), l3]
  have hu : (((((((target.put na).put nb).put (uint32_bytes n1)).put (uint32_bytes n2)).put
        (uint32_bytes n3)).put (uint32_bytes n4)).put (uint32_bytes n5)).used =
      target.used + (na.length + nb.length + 20) := by
    simp only [put_used, uint32_bytes_length]; omega
  rw [← hu,
    put_committed _ _ (by rw [l4]; simp only [put_used, uint32_bytes_length]; omega),
    put_committed _ _ (by rw [l3]; simp only [put_used, uint32_bytes_length]; omega),
    put_committed _ _ (by rw [l2]; simp only [put_used, uint32_bytes_length]; omega),
    put_committed _ _ (by rw [l1]; simp only [put_used, uint32_bytes_length]; omega),
    put_committed _ _ (by rw [lb]; simp only [put_used, uint32_bytes_length]; omega),
    put_committed _ _ (by rw [la]; simp only [put_used]; omega),
    put_committed _ _ (by omega)]
  simp only [List.append_assoc]

/-- C13: text-to-struct round trip of SOA.  The lexer supplies two string
tokens and five number tokens `n1 .. n5` below `2 ^ 32`; the two name tokens
are valid: `dns_name_fromtext` appends the wire names `na` and `nb` for them,
and `dns_name_fromregion` finds those names again.  With room for the rdata in
the target, `fromtext_soa` succeeds and uses up the seven tokens, the rdata it
has written is `na`, `nb` and the five values big-endian, and `tostruct_soa`
on that rdata yields the names `na` and `nb` and `serial = n1`,
`refresh = n2`, `retry = n3`, `expire = n4`, `minimum = n5`. -/
theorem fromtext_tostruct_soa (dns_name_fromtext : NameFromtext)
    (dns_name_fromregion : NameFromregion) (rdclass : Nat)
    (s1 s2 : List Nat) (n1 n2 n3 n4 n5 : Nat) (rest : isc_lex_t)
    (origin : Option (List Nat)) (downcase : Bool) (target : isc_buffer_t)
    (na nb : List Nat) (s0 : dns_rdata_soa_t)
    (h1 : n1 < 2 ^ 32) (h2 : n2 < 2 ^ 32) (h3 : n3 < 2 ^ 32) (h4 : n4 < 2 ^ 32)
    (h5 : n5 < 2 ^ 32)
    (hfx1 : dns_name_fromtext s1 (origin.getD dns_rootname) downcase target =
      (.success, target.put na))
    (hfx2 : dns_name_fromtext s2 (origin.getD dns_rootname) downcase (target.put na) =
      (.success, (target.put na).put nb))
    (hroom : na.length + nb.length + 20 ≤ (isc_buffer_available target).length)
    (hna : dns_name_fromregion (na ++ (nb ++ (uint32_bytes n1 ++ (uint32_bytes n2 ++
      (uint32_bytes n3 ++ (uint32_bytes n4 ++ uint32_bytes n5)))))) = na)
    (hnb : dns_name_fromregion (nb ++ (uint32_bytes n1 ++ (uint32_bytes n2 ++
      (uint32_bytes n3 ++ (uint32_bytes n4 ++ uint32_bytes n5))))) = nb) :
    ∃ target' : isc_buffer_t,
      fromtext_soa dns_name_fromtext rdclass 6
          (.string s1 :: .string s2 :: .number n1 :: .number n2 :: .number n3 ::
            .number n4 :: .number n5 :: rest) origin downcase target =
        .returned (.success, rest, target') ∧
      target'.used = target.used + (na.length + nb.length + 20) ∧
      (target'.base.drop target.used).take (target'.used - target.used) =
        na ++ (nb ++ (uint32_bytes n1 ++ (uint32_bytes n2 ++
          (uint32_bytes n3 ++ (uint32_bytes n4 ++ uint32_bytes n5))))) ∧
      tostruct_soa dns_name_fromregion
          ⟨rdclass, 6, (target'.base.drop target.used).take (target'.used - target.used)⟩
          (some s0) =
        .returned (.success, ⟨⟨rdclass, 6, none⟩, na, nb, n1, n2, n3, n4, n5⟩) := by
  have hrun := fromtext_soa_value dns_name_fromtext rdclass s1 s2 n1 n2 n3 n4 n5 rest
    origin downcase target na nb hfx1 hfx2 hroom
  have hcom := fromtext_soa_committed target na nb n1 n2 n3 n4 n5 hroom
  have hused : (((((((target.put na).put nb).put (uint32_bytes n1)).put
      (uint32_bytes n2)).put (uint32_bytes n3)).put (uint32_bytes n4)).put
      (uint32_bytes n5)).used = target.used + (na.length + nb.length + 20) := by
    simp only [put_used, uint32_bytes_length]; omega
  have hwritten : ((((((((target.put na).put nb).put (uint32_bytes n1)).put
      (uint32_bytes n2)).put (uint32_bytes n3)).put (uint32_bytes n4)).put
      (uint32_bytes n5)).base.drop target.used).take
        ((((((((target.put na).put nb).put (uint32_bytes n1)).put
      (uint32_bytes n2)).put (uint32_bytes n3)).put (uint32_bytes n4)).put
      (uint32_bytes n5)).used - target.used) =
      na ++ (nb ++ (uint32_bytes n1 ++ (uint32_bytes n2 ++
        (uint32_bytes n3 ++ (uint32_bytes n4 ++ uint32_bytes n5))))) := by
    simp only [isc_buffer_available] at hroom
    rw [hused, ← List.drop_take, hcom]
    exact List.drop_left' (by simp only [List.length_take]; omega)
  refine ⟨_, hrun, hused, hwritten, ?_⟩
  rw [hwritten]
  have hval := tostruct_soa_value dns_name_fromregion
    ⟨rdclass, 6, na ++ (nb ++ (uint32_bytes n1 ++ (uint32_bytes n2 ++
      (uint32_bytes n3 ++ (uint32_bytes n4 ++ uint32_bytes n5)))))⟩ na nb
    (uint32_bytes n1 ++ (uint32_bytes n2 ++
      (uint32_bytes n3 ++ (uint32_bytes n4 ++ uint32_bytes n5)))) s0 rfl rfl rfl hna hnb
  have e1 : u32_at true (uint32_bytes n1 ++ (uint32_bytes n2 ++
      (uint32_bytes n3 ++ (uint32_bytes n4 ++ uint32_bytes n5)))) 0 = n1 :=
    u32_at_uint32_bytes n1 h1 [] _
  have e2 : u32_at true (uint32_bytes n1 ++ (uint32_bytes n2 ++
      (uint32_bytes n3 ++ (uint32_bytes n4 ++ uint32_bytes n5)))) 4 = n2 :=
    u32_at_uint32_bytes n2 h2 (uint32_bytes n1) _
  have e3 : u32_at true (uint32_bytes n1 ++ (uint32_bytes n2 ++
      (uint32_bytes n3 ++ (uint32_bytes n4 ++ uint32_bytes n5)))) 8 = n3 :=
    u32_at_uint32_bytes n3 h3 (uint32_bytes n1 ++ uint32_bytes n2) _
  have e4 : u32_at true (uint32_bytes n1 ++ (uint32_bytes n2 ++
      (uint32_bytes n3 ++ (uint32_bytes n4 ++ uint32_bytes n5)))) 12 = n4 :=
    u32_at_uint32_bytes n4 h4 (uint32_bytes n1 ++ uint32_bytes n2 ++ uint32_bytes n3) _
  have e5 : u32_at true (uint32_bytes n1 ++ (uint32_bytes n2 ++
      (uint32_bytes n3 ++ (uint32_bytes n4 ++ uint32_bytes n5)))) 16 = n5 :=
    u32_at_uint32_bytes n5 h5
      (uint32_bytes n1 ++ uint32_bytes n2 ++ uint32_bytes n3 ++ uint32_bytes n4) []
  rw [e1, e2, e3, e4, e5] at hval
  exact hval

/-- Witness for C13: the spec's example
`ns1.example. hostmaster.example. ( 2020010100 3600 600 1209600 3600 )`. -/
theorem fromtext_tostruct_soa_witness :
    ∃ target' : isc_buffer_t,
      fromtext_soa plain_name_fromtext 1 6 soa_example_tokens none false example_target =
        .returned (.success, [], target') ∧
      tostruct_soa plain_name_fromregion
          ⟨1, 6, (target'.base.drop example_target.used).take
            (target'.used - example_target.used)⟩ (some blank_soa) =
        .returned (.success, ⟨⟨1, 6, none⟩, soa_example_mname, soa_example_rname,
          2020010100, 3600, 600, 1209600, 3600⟩) := by
  obtain ⟨target', hrun, _, _, hstruct⟩ :=
    fromtext_tostruct_soa plain_name_fromtext plain_name_fromregion 1
      (cstr "ns1.example.") (cstr "hostmaster.example.") 2020010100 3600 600 1209600 3600
      [] none false example_target soa_example_mname soa_example_rname blank_soa
      (by decide) (by decide) (by decide) (by decide) (by decide)
      (by decide) (by decide) (by decide) (by decide) (by decide)
  exact ⟨target', hrun, hstruct⟩

/-! ## Text rendering of SOA -/

/-- The test `flags & (M | C) == (M | C)` holds exactly when both flags are
set in `flags`. -/
theorem both_flags_iff (flags M C : Nat) :
    flags &&& (M ||| C) = M ||| C ↔ flags &&& M = M ∧ flags &&& C = C := by
  constructor
  · intro h
    constructor
    · apply Nat.eq_of_testBit_eq
      intro j
      have hj := congrArg (fun n => n.testBit j) h
      simp only [Nat.testBit_and, Nat.testBit_or] at hj ⊢
      cases hf : flags.testBit j <;> cases hm : M.testBit j <;> simp_all
    · apply Nat.eq_of_testBit_eq
      intro j
      have hj := congrArg (fun n => n.testBit j) h
      simp only [Nat.testBit_and, Nat.testBit_or] at hj ⊢
      cases hf : flags.testBit j <;> cases hc : C.testBit j <;> simp_all
  · rintro ⟨hm, hc⟩
    apply Nat.eq_of_testBit_eq
    intro j
    have hmj := congrArg (fun n => n.testBit j) hm
    have hcj := congrArg (fun n => n.testBit j) hc
    simp only [Nat.testBit_and, Nat.testBit_or] at hmj hcj ⊢
    cases hf : flags.testBit j <;> cases hm' : M.testBit j <;>
      cases hc' : C.testBit j <;> simp_all

/-- The decimal rendering of a number below `10 ^ (k + 1)` has between 1 and
`k + 1` digits. -/
theorem decimal_digits_length (k : Nat) :
    ∀ fuel n, k + 1 ≤ fuel → n < 10 ^ (k + 1) →
      1 ≤ (decimal_digits fuel n).length ∧ (decimal_digits fuel n).length ≤ k + 1 := by
  induction k with
  | zero =>
    intro fuel n hf hn
    obtain ⟨f, rfl⟩ : ∃ f, fuel = f + 1 := ⟨fuel - 1, by omega⟩
    have h10 : n < 10 := by simpa using hn
    simp [decimal_digits, h10]
  | succ k ih =>
    intro fuel n hf hn
    obtain ⟨f, rfl⟩ : ∃ f, fuel = f + 1 := ⟨fuel - 1, by omega⟩
    unfold decimal_digits
    by_cases h10 : n < 10
    · simp [h10]
    · rw [if_neg h10]
      have hdiv : n / 10 < 10 ^ (k + 1) :=
        Nat.div_lt_of_lt_mul (by rw [pow_succ] at hn; omega)
      obtain ⟨hlo, hhi⟩ := ih f (n / 10) (by omega) hdiv
      simp only [List.length_append, List.length_singleton]
      omega

/-- The rendering of a 32-bit value has between 1 and 10 characters. -/
theorem sprintf_lu_length (num : Nat) (h : num < 2 ^ 32) :
    1 ≤ (sprintf_lu num).length ∧ (sprintf_lu num).length ≤ 10 :=
  decimal_digits_length 9 20 num (by norm_num) (by omega)

theorem str_totext_success (s : List Nat) (t : isc_buffer_t)
    (h : t.used + s.length ≤ t.base.length) :
    str_totext s t = (.success, t.put s) := by
  have e : ¬ (t.base.length - t.used < s.length) := by omega
  simp [str_totext, isc_buffer_available, e]

theorem RETERR_success {α : Type} (a : α) (k : α → Outcome (Result × α)) :
    RETERR (Result.success, a) k = k a := by
  simp [RETERR]

/-- The text `totext_soa` emits for numeric field `i < 5` holding the
32-bit value `num`.  The test on the style flags holds exactly when both the
multi-line and the comment flag are set.  When either is clear, the number is
followed by a single space and nothing else.  When both are set, the number is
followed by the padding with `; `, the field name and the line break, and the
parenthesised duration comes between field name and line break exactly for
the fields other than the first (`serial`): for `i = 0` the text contains no
call of `dns_ttl_totext`, for `i ≥ 1` it is ` (`, the text of
`dns_ttl_totext(num, ISC_TRUE, ...)` and `)`. -/
theorem totext_soa_number_text (dns_ttl_totext : TtlTotext) (MULTILINE COMMENT : Nat)
    (tctx : dns_rdata_textctx_t) (i num : Nat) (target : isc_buffer_t)
    (hi : i < 5) (hnum : num < 2 ^ 32) :
    (tctx.flags &&& (MULTILINE ||| COMMENT) = MULTILINE ||| COMMENT ↔
        tctx.flags &&& MULTILINE = MULTILINE ∧ tctx.flags &&& COMMENT = COMMENT) ∧
      (¬ (tctx.flags &&& MULTILINE = MULTILINE ∧ tctx.flags &&& COMMENT = COMMENT) →
        target.used + (sprintf_lu num).length + 1 ≤ target.base.length →
        totext_soa_number dns_ttl_totext MULTILINE COMMENT tctx i num target =
          .returned (.success, (target.put (sprintf_lu num)).put (cstr " "))) ∧
      (tctx.flags &&& MULTILINE = MULTILINE ∧ tctx.flags &&& COMMENT = COMMENT →
        i = 0 →
        target.used + 13 + 6 + tctx.linebreak.length ≤ target.base.length →
        totext_soa_number dns_ttl_totext MULTILINE COMMENT tctx i num target =
          .returned (.success,
            (((target.put (sprintf_lu num)).put
              ((cstr "           ; ").drop (sprintf_lu num).length)).put
              (cstr "serial")).put tctx.linebreak)) ∧
      (tctx.flags &&& MULTILINE = MULTILINE ∧ tctx.flags &&& COMMENT = COMMENT →
        1 ≤ i →
        target.used + 13 + (soa_fieldnames.getD i []).length + 2 ≤ target.base.length →
        ∀ t4 : isc_buffer_t,
          dns_ttl_totext num true
              ((((target.put (sprintf_lu num)).put
                ((cstr "           ; ").drop (sprintf_lu num).length)).put
                (soa_fieldnames.getD i [])).put (cstr " (")) = (.success, t4) →
          t4.used + 1 + tctx.linebreak.length ≤ t4.base.length →
          totext_soa_number dns_ttl_totext MULTILINE COMMENT tctx i num target =
            .returned (.success, (t4.put (cstr ")")).put tctx.linebreak)) := by
  have hboth := both_flags_iff tctx.flags MULTILINE COMMENT
  obtain ⟨hlo, hhi⟩ := sprintf_lu_length num hnum
  have hinsist : ¬ ¬ ((sprintf_lu num).length > 0 ∧ (sprintf_lu num).length < 11) := by
    rw [not_not]; exact ⟨by omega, by omega⟩
  have hpad : ((cstr "           ; ").drop (sprintf_lu num).length).length =
      13 - (sprintf_lu num).length := by
    rw [List.length_drop]; rfl
  refine ⟨hboth, ?_, ?_, ?_⟩
  · intro hclear hroom
    have hmask : ¬ (tctx.flags &&& (MULTILINE ||| COMMENT) = MULTILINE ||| COMMENT) :=
      fun h => hclear (hboth.mp h)
    have w1 := str_totext_success (sprintf_lu num) target (by omega)
    have l1 : (target.put (sprintf_lu num)).base.length = target.base.length :=
      put_length _ _ (by omega)
    have w2 := str_totext_success (cstr " ") (target.put (sprintf_lu num))
      (by rw [l1, put_used]; exact hroom)
    simp only [totext_soa_number, if_neg hinsist, w1, RETERR_success, if_neg hmask, w2]
  · intro hset h0 hroom
    subst h0
    have hmask := hboth.mpr hset
    have w1 := str_totext_success (sprintf_lu num) target (by omega)
    have l1 : (target.put (sprintf_lu num)).base.length = target.base.length :=
      put_length _ _ (by omega)
    have w2 := str_totext_success ((cstr "           ; ").drop (sprintf_lu num).length)
      (target.put (sprintf_lu num)) (by rw [l1, put_used, hpad]; omega)
    have l2 : ((target.put (sprintf_lu num)).put
        ((cstr "           ; ").drop (sprintf_lu num).length)).base.length =
        target.base.length := by
      rw [put_length _ _ (by rw [l1, put_used, hpad]; omega), l1]
    have hname : soa_fieldnames.getD 0 [] = cstr "serial" := rfl
    have hnamelen : (cstr "serial").length = 6 := rfl
    have w3 := str_totext_success (cstr "serial")
      ((target.put (sprintf_lu num)).put ((cstr "           ; ").drop (sprintf_lu num).length))
      (by rw [l2]; simp only [put_used, hpad, hnamelen]; omega)
    have l3 : (((target.put (sprintf_lu num)).put
        ((cstr "           ; ").drop (sprintf_lu num).length)).put (cstr "serial")).base.length =
        target.base.length := by
      rw [put_length _ _ (by rw [l2]; simp only [put_used, hpad, hnamelen]; omega), l2]
    have w4 := str_totext_success tctx.linebreak
      (((target.put (sprintf_lu num)).put
        ((cstr "           ; ").drop (sprintf_lu num).length)).put (cstr "serial"))
      (by rw [l3]; simp only [put_used, hpad, hnamelen]; omega)
    simp only [totext_soa_number, if_neg hinsist, w1, RETERR_success, if_pos hmask, w2, hname,
      w3, ge_iff_le, Nat.le_zero_eq, one_ne_zero, if_false, Outcome.bind, w4]
  · intro hset h1 hroom t4 httl hroom4
    have hmask := hboth.mpr hset
    have hge : i ≥ 1 := h1
    have w1 := str_totext_success (sprintf_lu num) target (by omega)
    have l1 : (target.put (sprintf_lu num)).base.length = target.base.length :=
      put_length _ _ (by omega)
    have w2 := str_totext_success ((cstr "           ; ").drop (sprintf_lu num).length)
      (target.put (sprintf_lu num)) (by rw [l1, put_used, hpad]; omega)
    have l2 : ((target.put (sprintf_lu num)).put
        ((cstr "           ; ").drop (sprintf_lu num).length)).base.length =
        target.base.length := by
      rw [put_length _ _ (by rw [l1, put_used, hpad]; omega), l1]
    have w3 := str_totext_success (soa_fieldnames.getD i [])
      ((target.put (sprintf_lu num)).put ((cstr "           ; ").drop (sprintf_lu num).length))
      (by rw [l2]; simp only [put_used, hpad]; omega)
    have l3 : (((target.put (sprintf_lu num)).put
        ((cstr "           ; ").drop (sprintf_lu num).length)).put
        (soa_fieldnames.getD i [])).base.length = target.base.length := by
      rw [put_length _ _ (by rw [l2]; simp only [put_used, hpad]; omega), l2]
    have hparen : (cstr " (").length = 2 := rfl
    have w4 := str_totext_success (cstr " (")
      (((target.put (sprintf_lu num)).put
        ((cstr "           ; ").drop (sprintf_lu num).length)).put (soa_fieldnames.getD i []))
      (by rw [l3]; simp only [put_used, hpad, hparen]; omega)
    have hclose : (cstr ")").length = 1 := rfl
    have w5 := str_totext_success (cstr ")") t4 (by rw [hclose]; omega)
    have l5 : (t4.put (cstr ")")).base.length = t4.base.length :=
      put_length _ _ (by rw [hclose]; omega)
    have w6 := str_totext_success tctx.linebreak (t4.put (cstr ")"))
      (by rw [l5]; simp only [put_used, hclose]; omega)
    simp only [totext_soa_number, if_neg hinsist, w1, RETERR_success, if_pos hmask, w2, w3,
      if_pos hge, w4, httl, w5, Outcome.bind, w6]

/-- The field text at concrete values: field 1 (`refresh`, 3600) with both flags
set, with one flag set, and field 0 (`serial`) with both flags set. -/
theorem totext_soa_number_text_example :
    totext_soa_number plain_ttl_totext 1 2 ⟨none, 3, cstr "\n"⟩ 1 3600 example_text_target =
        .returned (.success,
          example_text_target.put (cstr "3600       ; refresh (1h)\n")) ∧
      totext_soa_number plain_ttl_totext 1 2 ⟨none, 1, cstr "\n"⟩ 1 3600
          example_text_target =
        .returned (.success, example_text_target.put (cstr "3600 ")) ∧
      totext_soa_number plain_ttl_totext 1 2 ⟨none, 3, cstr "\n"⟩ 0 2020010100
          example_text_target =
        .returned (.success, example_text_target.put (cstr "2020010100 ; serial\n")) :=
  ⟨((totext_soa_number_text plain_ttl_totext 1 2 ⟨none, 3, cstr "\n"⟩ 1 3600
      example_text_target (by decide) (by decide)).2.2.2 (by decide) (by decide) (by decide)
      (example_text_target.put (cstr "3600       ; refresh (1h")) (by decide)
      (by decide)).trans (by decide),
   ((totext_soa_number_text plain_ttl_totext 1 2 ⟨none, 1, cstr "\n"⟩ 1 3600
      example_text_target (by decide) (by decide)).2.1 (by decide) (by decide)).trans
      (by decide),
   ((totext_soa_number_text plain_ttl_totext 1 2 ⟨none, 3, cstr "\n"⟩ 0 2020010100
      example_text_target (by decide) (by decide)).2.2.1 (by decide) (by decide)
      (by decide)).trans (by decide)⟩

set_option maxRecDepth 20000 in
/-- The whole of `totext_soa` on the spec's example, with the witness
collaborators: on one line when the flags are clear, annotated when
`MULTILINE` (1) and `COMMENT` (2) are both set. -/
theorem totext_soa_example :
    totext_soa plain_prefix_fn plain_name_totext plain_ttl_totext 1 2 plain_name_fromregion
        soa_example ⟨none, 0, cstr " "⟩ ⟨List.replicate 200 0, 0, 0⟩ =
        .returned (.success, (⟨List.replicate 200 0, 0, 0⟩ : isc_buffer_t).put (cstr
          "ns1.example. hostmaster.example. ( 2020010100 3600 600 1209600 3600 )")) ∧
      totext_soa plain_prefix_fn plain_name_totext plain_ttl_totext 1 2 plain_name_fromregion
        soa_example ⟨none, 3, cstr "\n\t"⟩ ⟨List.replicate 200 0, 0, 0⟩ =
        .returned (.success, (⟨List.replicate 200 0, 0, 0⟩ : isc_buffer_t).put (cstr
          ("ns1.example. hostmaster.example. (\n\t2020010100 ; serial\n\t" ++
           "3600       ; refresh (1h)\n\t600        ; retry (10m)\n\t" ++
           "1209600    ; expire (2w)\n\t3600       ; minimum (1h)\n\t)"))) := by
  constructor <;> decide

/-! ## The whole text of `totext_soa` -/

/-- Two texts appended one after the other are their concatenation appended. -/
theorem put_put (u : isc_buffer_t) (a b : List Nat) (h : u.used ≤ u.base.length) :
    (u.put a).put b = u.put (a ++ b) := by
  have hlen : (List.take u.used u.base ++ a).length = u.used + a.length := by
    simp only [List.length_append, List.length_take]
    omega
  have h1 : List.take (u.used + a.length)
      (List.take u.used u.base ++ a ++ List.drop (u.used + a.length) u.base) =
      List.take u.used u.base ++ a := List.take_left' hlen
  have h2 : List.drop (u.used + a.length + b.length)
      (List.take u.used u.base ++ a ++ List.drop (u.used + a.length) u.base) =
      List.drop (u.used + (a.length + b.length)) u.base := by
    rw [← hlen, List.drop_append, List.drop_drop, hlen]
    congr 1
    omega
  have h3 : List.take (a.length + b.length) (a ++ b) = a ++ b :=
    List.take_of_length_le (by simp)
  simp only [List.append_assoc, Nat.add_assoc] at h1 h2
  simp only [isc_buffer_t.put, memcpy, List.drop_zero, List.take_length, List.length_append,
    List.append_assoc, Nat.add_assoc, h1, h2, h3]

/-- The text `s` written after a text `pre` that was appended to `t`. -/
theorem str_totext_put (s pre : List Nat) (t : isc_buffer_t) (hwf : t.used ≤ t.base.length)
    (h : t.used + (pre ++ s).length ≤ t.base.length) :
    str_totext s (t.put pre) = (.success, t.put (pre ++ s)) := by
  rw [List.length_append] at h
  rw [str_totext_success s (t.put pre)
    (by rw [put_length _ _ (by omega), put_used]; omega), put_put _ _ _ hwf]

/-- A collaborator that appends the text `s` wherever it fits, called after a
text `pre` that was appended to `t`. -/
theorem appender_put (f : isc_buffer_t → Result × isc_buffer_t) (s pre : List Nat)
    (t : isc_buffer_t)
    (hf : ∀ u : isc_buffer_t, u.used + s.length ≤ u.base.length → f u = (.success, u.put s))
    (hwf : t.used ≤ t.base.length) (h : t.used + (pre ++ s).length ≤ t.base.length) :
    f (t.put pre) = (.success, t.put (pre ++ s)) := by
  rw [List.length_append] at h
  rw [hf (t.put pre) (by rw [put_length _ _ (by omega), put_used]; omega), put_put _ _ _ hwf]

/-- The text of one field when the flags are not both set: the number and a
single space, for every field index. -/
theorem totext_soa_number_plain (dns_ttl_totext : TtlTotext) (MULTILINE COMMENT : Nat)
    (tctx : dns_rdata_textctx_t) (i num : Nat) (target : isc_buffer_t) (pre : List Nat)
    (hwf : target.used ≤ target.base.length) (hnum : num < 2 ^ 32)
    (hmask : ¬ (tctx.flags &&& (MULTILINE ||| COMMENT) = MULTILINE ||| COMMENT))
    (hroom : target.used + (pre ++ sprintf_lu num ++ cstr " ").length ≤ target.base.length) :
    totext_soa_number dns_ttl_totext MULTILINE COMMENT tctx i num (target.put pre) =
      .returned (.success, target.put (pre ++ sprintf_lu num ++ cstr " ")) := by
  obtain ⟨hlo, hhi⟩ := sprintf_lu_length num hnum
  have hinsist : ¬ ¬ ((sprintf_lu num).length > 0 ∧ (sprintf_lu num).length < 11) := by
    rw [not_not]; exact ⟨by omega, by omega⟩
  have w1 := str_totext_put (sprintf_lu num) pre target hwf
    (by simp only [List.length_append] at hroom ⊢; omega)
  have w2 := str_totext_put (cstr " ") (pre ++ sprintf_lu num) target hwf hroom
  simp only [totext_soa_number, if_neg hinsist, w1, RETERR_success, if_neg hmask, w2]

/-- The text of the first field (`serial`) when both flags are set: the number,
the padding, the field name and the line break. -/
theorem totext_soa_number_serial (dns_ttl_totext : TtlTotext) (MULTILINE COMMENT : Nat)
    (tctx : dns_rdata_textctx_t) (num : Nat) (target : isc_buffer_t) (pre : List Nat)
    (hwf : target.used ≤ target.base.length) (hnum : num < 2 ^ 32)
    (hmask : tctx.flags &&& (MULTILINE ||| COMMENT) = MULTILINE ||| COMMENT)
    (hroom : target.used + (pre ++ sprintf_lu num ++
      (cstr "           ; ").drop (sprintf_lu num).length ++ cstr "serial" ++
      tctx.linebreak).length ≤ target.base.length) :
    totext_soa_number dns_ttl_totext MULTILINE COMMENT tctx 0 num (target.put pre) =
      .returned (.success, target.put (pre ++ sprintf_lu num ++
        (cstr "           ; ").drop (sprintf_lu num).length ++ cstr "serial" ++
        tctx.linebreak)) := by
  obtain ⟨hlo, hhi⟩ := sprintf_lu_length num hnum
  have hinsist : ¬ ¬ ((sprintf_lu num).length > 0 ∧ (sprintf_lu num).length < 11) := by
    rw [not_not]; exact ⟨by omega, by omega⟩
  have hname : soa_fieldnames.getD 0 [] = cstr "serial" := rfl
  have w1 := str_totext_put (sprintf_lu num) pre target hwf
    (by simp only [List.length_append] at hroom ⊢; omega)
  have w2 := str_totext_put ((cstr "           ; ").drop (sprintf_lu num).length)
    (pre ++ sprintf_lu num) target hwf
    (by simp only [List.length_append] at hroom ⊢; omega)
  have w3 := str_totext_put (cstr "serial")
    (pre ++ sprintf_lu num ++ (cstr "           ; ").drop (sprintf_lu num).length) target hwf
    (by simp only [List.length_append] at hroom ⊢; omega)
  have w4 := str_totext_put tctx.linebreak
    (pre ++ sprintf_lu num ++ (cstr "           ; ").drop (sprintf_lu num).length ++
      cstr "serial") target hwf hroom
  simp only [totext_soa_number, if_neg hinsist, w1, RETERR_success, if_pos hmask, w2, hname,
    w3, ge_iff_le, Nat.le_zero_eq, one_ne_zero, if_false, Outcome.bind, w4]

/-- The text of a field other than the first when both flags are set: the
number, the padding, the field name, the duration in parentheses and the line
break. -/
theorem totext_soa_number_duration (dns_ttl_totext : TtlTotext) (MULTILINE COMMENT : Nat)
    (tctx : dns_rdata_textctx_t) (i num : Nat) (target : isc_buffer_t)
    (pre duration : List Nat)
    (hwf : target.used ≤ target.base.length) (hnum : num < 2 ^ 32) (hi : 1 ≤ i)
    (hmask : tctx.flags &&& (MULTILINE ||| COMMENT) = MULTILINE ||| COMMENT)
    (httl : ∀ u : isc_buffer_t, u.used + duration.length ≤ u.base.length →
      dns_ttl_totext num true u = (.success, u.put duration))
    (hroom : target.used + (pre ++ sprintf_lu num ++
      (cstr "           ; ").drop (sprintf_lu num).length ++ soa_fieldnames.getD i [] ++
      cstr " (" ++ duration ++ cstr ")" ++ tctx.linebreak).length ≤ target.base.length) :
    totext_soa_number dns_ttl_totext MULTILINE COMMENT tctx i num (target.put pre) =
      .returned (.success, target.put (pre ++ sprintf_lu num ++
        (cstr "           ; ").drop (sprintf_lu num).length ++ soa_fieldnames.getD i [] ++
        cstr " (" ++ duration ++ cstr ")" ++ tctx.linebreak)) := by
  obtain ⟨hlo, hhi⟩ := sprintf_lu_length num hnum
  have hinsist : ¬ ¬ ((sprintf_lu num).length > 0 ∧ (sprintf_lu num).length < 11) := by
    rw [not_not]; exact ⟨by omega, by omega⟩
  have hge : i ≥ 1 := hi
  have w1 := str_totext_put (sprintf_lu num) pre target hwf
    (by simp only [List.length_append] at hroom ⊢; omega)
  have w2 := str_totext_put ((cstr "           ; ").drop (sprintf_lu num).length)
    (pre ++ sprintf_lu num) target hwf
    (by simp only [List.length_append] at hroom ⊢; omega)
  have w3 := str_totext_put (soa_fieldnames.getD i [])
    (pre ++ sprintf_lu num ++ (cstr "           ; ").drop (sprintf_lu num).length) target hwf
    (by simp only [List.length_append] at hroom ⊢; omega)
  have w4 := str_totext_put (cstr " (")
    (pre ++ sprintf_lu num ++ (cstr "           ; ").drop (sprintf_lu num).length ++
      soa_fieldnames.getD i []) target hwf
    (by simp only [List.length_append] at hroom ⊢; omega)
  have w5 := appender_put (dns_ttl_totext num true) duration
    (pre ++ sprintf_lu num ++ (cstr "           ; ").drop (sprintf_lu num).length ++
      soa_fieldnames.getD i [] ++ cstr " (") target httl hwf
    (by simp only [List.length_append] at hroom ⊢; omega)
  have w6 := str_totext_put (cstr ")")
    (pre ++ sprintf_lu num ++ (cstr "           ; ").drop (sprintf_lu num).length ++
      soa_fieldnames.getD i [] ++ cstr " (" ++ duration) target hwf
    (by simp only [List.length_append] at hroom ⊢; omega)
  have w7 := str_totext_put tctx.linebreak
    (pre ++ sprintf_lu num ++ (cstr "           ; ").drop (sprintf_lu num).length ++
      soa_fieldnames.getD i [] ++ cstr " (" ++ duration ++ cstr ")") target hwf hroom
  simp only [totext_soa_number, if_neg hinsist, w1, RETERR_success, if_pos hmask, w2, w3,
    if_pos hge, w4, w5, w6, Outcome.bind, w7]

/-- One turn of the loop of `totext_soa` whose field text is written. -/
theorem totext_soa_numbers_step (dns_ttl_totext : TtlTotext) (MULTILINE COMMENT : Nat)
    (tctx : dns_rdata_textctx_t) (n i off : Nat) (t : List Nat) (u v : isc_buffer_t)
    (h : off + 4 ≤ t.length)
    (hfield : totext_soa_number dns_ttl_totext MULTILINE COMMENT tctx i (u32_at true t off) u =
      .returned (.success, v)) :
    totext_soa_numbers dns_ttl_totext MULTILINE COMMENT tctx (n + 1) i (t.drop off) u =
      totext_soa_numbers dns_ttl_totext MULTILINE COMMENT tctx n (i + 1) (t.drop (off + 4)) v := by
  have hc : isc_region_consume (t.drop off) 4 = .returned (t.drop (off + 4)) := by
    have hle : 4 ≤ (t.drop off).length := by simp only [List.length_drop]; omega
    simp only [isc_region_consume, if_pos hle, List.drop_drop]
  rw [totext_soa_numbers]
  simp only [uint32_fromregion_eq t off h, Outcome.bind, hc, hfield, RETERR_success]

/-- The part of `totext_soa` before its loop, for rdata `NAME(a) || NAME(b) || t`
whose names are written as the texts `ta` and `tb`. -/
theorem totext_soa_head (name_prefix_fn : NamePrefixFn) (dns_name_totext : NameTotext)
    (dns_ttl_totext : TtlTotext) (MULTILINE COMMENT : Nat)
    (dns_name_fromregion : NameFromregion) (x : dns_rdata_t) (tctx : dns_rdata_textctx_t)
    (target : isc_buffer_t) (a b t ta tb : List Nat)
    (hx : x.type = 6) (hdata : x.data = a ++ (b ++ t))
    (ha : dns_name_fromregion (a ++ (b ++ t)) = a) (hb : dns_name_fromregion (b ++ t) = b)
    (hwf : target.used ≤ target.base.length)
    (hna : dns_name_totext (name_prefix_fn a tctx.origin).2 (name_prefix_fn a tctx.origin).1
      target = (.success, target.put ta))
    (hnb : dns_name_totext (name_prefix_fn b tctx.origin).2 (name_prefix_fn b tctx.origin).1
      (target.put (ta ++ cstr " ")) = (.success, target.put (ta ++ cstr " " ++ tb)))
    (hroom : target.used + (ta ++ cstr " " ++ tb ++ cstr " (" ++ tctx.linebreak).length ≤
      target.base.length) :
    totext_soa name_prefix_fn dns_name_totext dns_ttl_totext MULTILINE COMMENT
        dns_name_fromregion x tctx target =
      (totext_soa_numbers dns_ttl_totext MULTILINE COMMENT tctx 5 0 t
        (target.put (ta ++ cstr " " ++ tb ++ cstr " (" ++ tctx.linebreak))).bind fun fields =>
      RETERR fields fun target =>
      RETERR (str_totext (cstr ")") target) fun target =>
      .returned (.success, target) := by
  have ca : isc_region_consume (a ++ (b ++ t)) a.length = .returned (b ++ t) := by
    simp [isc_region_consume]
  have cb : isc_region_consume (b ++ t) b.length = .returned t := by
    simp [isc_region_consume]
  have w1 := str_totext_put (cstr " ") ta target hwf
    (by simp only [List.length_append] at hroom ⊢; omega)
  have w2 := str_totext_put (cstr " (") (ta ++ cstr " " ++ tb) target hwf
    (by simp only [List.length_append] at hroom ⊢; omega)
  have w3 := str_totext_put tctx.linebreak (ta ++ cstr " " ++ tb ++ cstr " (") target hwf hroom
  simp only [totext_soa, hx, hdata, ha, hb, name_length, ca, cb, Outcome.bind, ne_eq,
    not_true_eq_false, if_false, hna, RETERR_success, w1, hnb, w2, w3]

/-- The five values `uint32_fromregion` reads from the tail of SOA rdata. -/
theorem soa_tail_values (serial refresh retry expire minimum : Nat)
    (h1 : serial < 2 ^ 32) (h2 : refresh < 2 ^ 32) (h3 : retry < 2 ^ 32)
    (h4 : expire < 2 ^ 32) (h5 : minimum < 2 ^ 32) :
    u32_at true (uint32_bytes serial ++
      (uint32_bytes refresh ++ (uint32_bytes retry ++
        (uint32_bytes expire ++ uint32_bytes minimum)))) 0 = serial ∧
    u32_at true (uint32_bytes serial ++
      (uint32_bytes refresh ++ (uint32_bytes retry ++
        (uint32_bytes expire ++ uint32_bytes minimum)))) 4 = refresh ∧
    u32_at true (uint32_bytes serial ++
      (uint32_bytes refresh ++ (uint32_bytes retry ++
        (uint32_bytes expire ++ uint32_bytes minimum)))) 8 = retry ∧
    u32_at true (uint32_bytes serial ++
      (uint32_bytes refresh ++ (uint32_bytes retry ++
        (uint32_bytes expire ++ uint32_bytes minimum)))) 12 = expire ∧
    u32_at true (uint32_bytes serial ++
      (uint32_bytes refresh ++ (uint32_bytes retry ++
        (uint32_bytes expire ++ uint32_bytes minimum)))) 16 = minimum := by
  refine ⟨?_, ?_, ?_, ?_, ?_⟩
  · exact u32_at_uint32_bytes serial h1 [] _
  · exact u32_at_uint32_bytes refresh h2 (uint32_bytes serial) _
  · have h := u32_at_uint32_bytes retry h3 (uint32_bytes serial ++ uint32_bytes refresh)
      (uint32_bytes expire ++ uint32_bytes minimum)
    rw [List.append_assoc] at h
    exact h
  · have h := u32_at_uint32_bytes expire h4
      (uint32_bytes serial ++ (uint32_bytes refresh ++ uint32_bytes retry))
      (uint32_bytes minimum)
    rw [List.append_assoc, List.append_assoc] at h
    exact h
  · have h := u32_at_uint32_bytes minimum h5
      (uint32_bytes serial ++ (uint32_bytes refresh ++ (uint32_bytes retry ++
        uint32_bytes expire))) []
    rw [List.append_nil, List.append_assoc, List.append_assoc, List.append_assoc] at h
    exact h

/-- The loop of `totext_soa` when the flags are not both set: the five numbers, each
followed by a single space. -/
theorem totext_soa_numbers_plain (dns_ttl_totext : TtlTotext) (MULTILINE COMMENT : Nat)
    (tctx : dns_rdata_textctx_t) (target : isc_buffer_t) (ta tb : List Nat)
    (serial refresh retry expire minimum : Nat)
    (h1 : serial < 2 ^ 32) (h2 : refresh < 2 ^ 32) (h3 : retry < 2 ^ 32)
    (h4 : expire < 2 ^ 32) (h5 : minimum < 2 ^ 32)
    (hwf : target.used ≤ target.base.length)
    (hmask : ¬ (tctx.flags &&& (MULTILINE ||| COMMENT) = MULTILINE ||| COMMENT))
    (hroom : target.used + (ta ++ cstr " " ++ tb ++ cstr " (" ++ tctx.linebreak ++
      sprintf_lu serial ++ cstr " " ++ sprintf_lu refresh ++ cstr " " ++ sprintf_lu retry ++
      cstr " " ++ sprintf_lu expire ++ cstr " " ++ sprintf_lu minimum ++ cstr " ").length ≤
      target.base.length) :
    totext_soa_numbers dns_ttl_totext MULTILINE COMMENT tctx 5 0
        (uint32_bytes serial ++ (uint32_bytes refresh ++ (uint32_bytes retry ++
          (uint32_bytes expire ++ uint32_bytes minimum))))
        (target.put (ta ++ cstr " " ++ tb ++ cstr " (" ++ tctx.linebreak)) =
      .returned (.success, target.put (ta ++ cstr " " ++ tb ++ cstr " (" ++ tctx.linebreak ++
        sprintf_lu serial ++ cstr " " ++ sprintf_lu refresh ++ cstr " " ++ sprintf_lu retry ++
        cstr " " ++ sprintf_lu expire ++ cstr " " ++ sprintf_lu minimum ++ cstr " ")) := by
  obtain ⟨e0, e4, e8, e12, e16⟩ :=
    soa_tail_values serial refresh retry expire minimum h1 h2 h3 h4 h5
  have hlen : (uint32_bytes serial ++ (uint32_bytes refresh ++ (uint32_bytes retry ++
    (uint32_bytes expire ++ uint32_bytes minimum)))).length = 20 := rfl
  simp only [List.length_append] at hroom
  have f0 : totext_soa_number dns_ttl_totext MULTILINE COMMENT tctx 0 serial
      (target.put (ta ++ cstr " " ++ tb ++ cstr " (" ++ tctx.linebreak)) =
      .returned (.success, target.put (ta ++ cstr " " ++ tb ++ cstr " (" ++ tctx.linebreak ++
        sprintf_lu serial ++ cstr " ")) :=
    totext_soa_number_plain dns_ttl_totext MULTILINE COMMENT tctx 0 serial target
    (ta ++ cstr " " ++ tb ++ cstr " (" ++ tctx.linebreak) hwf h1 hmask
    (by simp only [List.length_append]; omega)
  have s0 : totext_soa_numbers dns_ttl_totext MULTILINE COMMENT tctx 5 0
      (uint32_bytes serial ++ (uint32_bytes refresh ++ (uint32_bytes retry ++
        (uint32_bytes expire ++ uint32_bytes minimum))))
      (target.put (ta ++ cstr " " ++ tb ++ cstr " (" ++ tctx.linebreak)) =
    totext_soa_numbers dns_ttl_totext MULTILINE COMMENT tctx 4 1
      ((uint32_bytes serial ++ (uint32_bytes refresh ++ (uint32_bytes retry ++
        (uint32_bytes expire ++ uint32_bytes minimum)))).drop 4)
      (target.put (ta ++ cstr " " ++ tb ++ cstr " (" ++ tctx.linebreak ++ sprintf_lu serial ++
        cstr " ")) :=
    totext_soa_numbers_step dns_ttl_totext MULTILINE COMMENT tctx 4 0 0 _ _ _
      (by rw [hlen]; decide) (by rw [e0]; exact f0)
  have f1 : totext_soa_number dns_ttl_totext MULTILINE COMMENT tctx 1 refresh
      (target.put (ta ++ cstr " " ++ tb ++ cstr " (" ++ tctx.linebreak ++ sprintf_lu serial ++
        cstr " ")) =
      .returned (.success, target.put (ta ++ cstr " " ++ tb ++ cstr " (" ++ tctx.linebreak ++
        sprintf_lu serial ++ cstr " " ++ sprintf_lu refresh ++ cstr " ")) :=
    totext_soa_number_plain dns_ttl_totext MULTILINE COMMENT tctx 1 refresh target
    (ta ++ cstr " " ++ tb ++ cstr " (" ++ tctx.linebreak ++ sprintf_lu serial ++
      cstr " ") hwf h2 hmask
    (by simp only [List.length_append]; omega)
  have s1 : totext_soa_numbers dns_ttl_totext MULTILINE COMMENT tctx 4 1
      ((uint32_bytes serial ++ (uint32_bytes refresh ++ (uint32_bytes retry ++
        (uint32_bytes expire ++ uint32_bytes minimum)))).drop 4)
      (target.put (ta ++ cstr " " ++ tb ++ cstr " (" ++ tctx.linebreak ++ sprintf_lu serial ++
        cstr " ")) =
    totext_soa_numbers dns_ttl_totext MULTILINE COMMENT tctx 3 2
      ((uint32_bytes serial ++ (uint32_bytes refresh ++ (uint32_bytes retry ++
        (uint32_bytes expire ++ uint32_bytes minimum)))).drop 8)
      (target.put (ta ++ cstr " " ++ tb ++ cstr " (" ++ tctx.linebreak ++ sprintf_lu serial ++
        cstr " " ++ sprintf_lu refresh ++ cstr " ")) :=
    totext_soa_numbers_step dns_ttl_totext MULTILINE COMMENT tctx 3 1 4 _ _ _
      (by rw [hlen]; decide) (by rw [e4]; exact f1)
  have f2 : totext_soa_number dns_ttl_totext MULTILINE COMMENT tctx 2 retry
      (target.put (ta ++ cstr " " ++ tb ++ cstr " (" ++ tctx.linebreak ++ sprintf_lu serial ++
        cstr " " ++ sprintf_lu refresh ++ cstr " ")) =
      .returned (.success, target.put (ta ++ cstr " " ++ tb ++ cstr " (" ++ tctx.linebreak ++
        sprintf_lu serial ++ cstr " " ++ sprintf_lu refresh ++ cstr " " ++ sprintf_lu retry ++
        cstr " ")) :=
    totext_soa_number_plain dns_ttl_totext MULTILINE COMMENT tctx 2 retry target
    (ta ++ cstr " " ++ tb ++ cstr " (" ++ tctx.linebreak ++ sprintf_lu serial ++ cstr " " ++
      sprintf_lu refresh ++ cstr " ") hwf h3 hmask
    (by simp only [List.length_append]; omega)
  have s2 : totext_soa_numbers dns_ttl_totext MULTILINE COMMENT tctx 3 2
      ((uint32_bytes serial ++ (uint32_bytes refresh ++ (uint32_bytes retry ++
        (uint32_bytes expire ++ uint32_bytes minimum)))).drop 8)
      (target.put (ta ++ cstr " " ++ tb ++ cstr " (" ++ tctx.linebreak ++ sprintf_lu serial ++
        cstr " " ++ sprintf_lu refresh ++ cstr " ")) =
    totext_soa_numbers dns_ttl_totext MULTILINE COMMENT tctx 2 3
      ((uint32_bytes serial ++ (uint32_bytes refresh ++ (uint32_bytes retry ++
        (uint32_bytes expire ++ uint32_bytes minimum)))).drop 12)
      (target.put (ta ++ cstr " " ++ tb ++ cstr " (" ++ tctx.linebreak ++ sprintf_lu serial ++
        cstr " " ++ sprintf_lu refresh ++ cstr " " ++ sprintf_lu retry ++ cstr " ")) :=
    totext_soa_numbers_step dns_ttl_totext MULTILINE COMMENT tctx 2 2 8 _ _ _
      (by rw [hlen]; decide) (by rw [e8]; exact f2)
  have f3 : totext_soa_number dns_ttl_totext MULTILINE COMMENT tctx 3 expire
      (target.put (ta ++ cstr " " ++ tb ++ cstr " (" ++ tctx.linebreak ++ sprintf_lu serial ++
        cstr " " ++ sprintf_lu refresh ++ cstr " " ++ sprintf_lu retry ++ cstr " ")) =
      .returned (.success, target.put (ta ++ cstr " " ++ tb ++ cstr " (" ++ tctx.linebreak ++
        sprintf_lu serial ++ cstr " " ++ sprintf_lu refresh ++ cstr " " ++ sprintf_lu retry ++
        cstr " " ++ sprintf_lu expire ++ cstr " ")) :=
    totext_soa_number_plain dns_ttl_totext MULTILINE COMMENT tctx 3 expire target
    (ta ++ cstr " " ++ tb ++ cstr " (" ++ tctx.linebreak ++ sprintf_lu serial ++ cstr " " ++
      sprintf_lu refresh ++ cstr " " ++ sprintf_lu retry ++ cstr " ") hwf h4 hmask
    (by simp only [List.length_append]; omega)
  have s3 : totext_soa_numbers dns_ttl_totext MULTILINE COMMENT tctx 2 3
      ((uint32_bytes serial ++ (uint32_bytes refresh ++ (uint32_bytes retry ++
        (uint32_bytes expire ++ uint32_bytes minimum)))).drop 12)
      (target.put (ta ++ cstr " " ++ tb ++ cstr " (" ++ tctx.linebreak ++ sprintf_lu serial ++
        cstr " " ++ sprintf_lu refresh ++ cstr " " ++ sprintf_lu retry ++ cstr " ")) =
    totext_soa_numbers dns_ttl_totext MULTILINE COMMENT tctx 1 4
      ((uint32_bytes serial ++ (uint32_bytes refresh ++ (uint32_bytes retry ++
        (uint32_bytes expire ++ uint32_bytes minimum)))).drop 16)
      (target.put (ta ++ cstr " " ++ tb ++ cstr " (" ++ tctx.linebreak ++ sprintf_lu serial ++
        cstr " " ++ sprintf_lu refresh ++ cstr " " ++ sprintf_lu retry ++ cstr " " ++
        sprintf_lu expire ++ cstr " ")) :=
    totext_soa_numbers_step dns_ttl_totext MULTILINE COMMENT tctx 1 3 12 _ _ _
      (by rw [hlen]; decide) (by rw [e12]; exact f3)
  have f4 : totext_soa_number dns_ttl_totext MULTILINE COMMENT tctx 4 minimum
      (target.put (ta ++ cstr " " ++ tb ++ cstr " (" ++ tctx.linebreak ++ sprintf_lu serial ++
        cstr " " ++ sprintf_lu refresh ++ cstr " " ++ sprintf_lu retry ++ cstr " " ++
        sprintf_lu expire ++ cstr " ")) =
      .returned (.success, target.put (ta ++ cstr " " ++ tb ++ cstr " (" ++ tctx.linebreak ++
        sprintf_lu serial ++ cstr " " ++ sprintf_lu refresh ++ cstr " " ++ sprintf_lu retry ++
        cstr " " ++ sprintf_lu expire ++ cstr " " ++ sprintf_lu minimum ++ cstr " ")) :=
    totext_soa_number_plain dns_ttl_totext MULTILINE COMMENT tctx 4 minimum target
    (ta ++ cstr " " ++ tb ++ cstr " (" ++ tctx.linebreak ++ sprintf_lu serial ++ cstr " " ++
      sprintf_lu refresh ++ cstr " " ++ sprintf_lu retry ++ cstr " " ++ sprintf_lu expire ++
      cstr " ") hwf h5 hmask
    (by simp only [List.length_append]; omega)
  have s4 : totext_soa_numbers dns_ttl_totext MULTILINE COMMENT tctx 1 4
      ((uint32_bytes serial ++ (uint32_bytes refresh ++ (uint32_bytes retry ++
        (uint32_bytes expire ++ uint32_bytes minimum)))).drop 16)
      (target.put (ta ++ cstr " " ++ tb ++ cstr " (" ++ tctx.linebreak ++ sprintf_lu serial ++
        cstr " " ++ sprintf_lu refresh ++ cstr " " ++ sprintf_lu retry ++ cstr " " ++
        sprintf_lu expire ++ cstr " ")) =
    totext_soa_numbers dns_ttl_totext MULTILINE COMMENT tctx 0 5
      ((uint32_bytes serial ++ (uint32_bytes refresh ++ (uint32_bytes retry ++
        (uint32_bytes expire ++ uint32_bytes minimum)))).drop 20)
      (target.put (ta ++ cstr " " ++ tb ++ cstr " (" ++ tctx.linebreak ++ sprintf_lu serial ++
        cstr " " ++ sprintf_lu refresh ++ cstr " " ++ sprintf_lu retry ++ cstr " " ++
        sprintf_lu expire ++ cstr " " ++ sprintf_lu minimum ++ cstr " ")) :=
    totext_soa_numbers_step dns_ttl_totext MULTILINE COMMENT tctx 0 4 16 _ _ _
      (by rw [hlen]) (by rw [e16]; exact f4)
  rw [s0, s1, s2, s3, s4, totext_soa_numbers]

/-- The loop of `totext_soa` when both flags are set: five annotated lines, the
duration on all but the first. -/
theorem totext_soa_numbers_annotated (dns_ttl_totext : TtlTotext) (MULTILINE COMMENT : Nat)
    (tctx : dns_rdata_textctx_t) (target : isc_buffer_t) (ta tb : List Nat)
    (ttl_text : Nat → List Nat)
    (serial refresh retry expire minimum : Nat)
    (h1 : serial < 2 ^ 32) (h2 : refresh < 2 ^ 32) (h3 : retry < 2 ^ 32)
    (h4 : expire < 2 ^ 32) (h5 : minimum < 2 ^ 32)
    (hwf : target.used ≤ target.base.length)
    (hmask : tctx.flags &&& (MULTILINE ||| COMMENT) = MULTILINE ||| COMMENT)
    (httl : ∀ num, num = refresh ∨ num = retry ∨ num = expire ∨ num = minimum →
      ∀ u : isc_buffer_t, u.used + (ttl_text num).length ≤ u.base.length →
        dns_ttl_totext num true u = (.success, u.put (ttl_text num)))
    (hroom : target.used + (ta ++ cstr " " ++ tb ++ cstr " (" ++ tctx.linebreak ++
      sprintf_lu serial ++ (cstr "           ; ").drop (sprintf_lu serial).length ++
      cstr "serial" ++ tctx.linebreak ++ sprintf_lu refresh ++
      (cstr "           ; ").drop (sprintf_lu refresh).length ++ cstr "refresh" ++ cstr " (" ++
      ttl_text refresh ++ cstr ")" ++ tctx.linebreak ++ sprintf_lu retry ++
      (cstr "           ; ").drop (sprintf_lu retry).length ++ cstr "retry" ++ cstr " (" ++
      ttl_text retry ++ cstr ")" ++ tctx.linebreak ++ sprintf_lu expire ++
      (cstr "           ; ").drop (sprintf_lu expire).length ++ cstr "expire" ++ cstr " (" ++
      ttl_text expire ++ cstr ")" ++ tctx.linebreak ++ sprintf_lu minimum ++
      (cstr "           ; ").drop (sprintf_lu minimum).length ++ cstr "minimum" ++ cstr " (" ++
      ttl_text minimum ++ cstr ")" ++ tctx.linebreak).length ≤
      target.base.length) :
    totext_soa_numbers dns_ttl_totext MULTILINE COMMENT tctx 5 0
        (uint32_bytes serial ++ (uint32_bytes refresh ++ (uint32_bytes retry ++
          (uint32_bytes expire ++ uint32_bytes minimum))))
        (target.put (ta ++ cstr " " ++ tb ++ cstr " (" ++ tctx.linebreak)) =
      .returned (.success, target.put (ta ++ cstr " " ++ tb ++ cstr " (" ++ tctx.linebreak ++
        sprintf_lu serial ++ (cstr "           ; ").drop (sprintf_lu serial).length ++
        cstr "serial" ++ tctx.linebreak ++ sprintf_lu refresh ++
        (cstr "           ; ").drop (sprintf_lu refresh).length ++ cstr "refresh" ++ cstr " (" ++
        ttl_text refresh ++ cstr ")" ++ tctx.linebreak ++ sprintf_lu retry ++
        (cstr "           ; ").drop (sprintf_lu retry).length ++ cstr "retry" ++ cstr " (" ++
        ttl_text retry ++ cstr ")" ++ tctx.linebreak ++ sprintf_lu expire ++
        (cstr "           ; ").drop (sprintf_lu expire).length ++ cstr "expire" ++ cstr " (" ++
        ttl_text expire ++ cstr ")" ++ tctx.linebreak ++ sprintf_lu minimum ++
        (cstr "           ; ").drop (sprintf_lu minimum).length ++ cstr "minimum" ++ cstr " (" ++
        ttl_text minimum ++ cstr ")" ++ tctx.linebreak)) := by
  obtain ⟨e0, e4, e8, e12, e16⟩ :=
    soa_tail_values serial refresh retry expire minimum h1 h2 h3 h4 h5
  have hlen : (uint32_bytes serial ++ (uint32_bytes refresh ++ (uint32_bytes retry ++
    (uint32_bytes expire ++ uint32_bytes minimum)))).length = 20 := rfl
  simp only [List.length_append] at hroom
  have f0 : totext_soa_number dns_ttl_totext MULTILINE COMMENT tctx 0 serial
      (target.put (ta ++ cstr " " ++ tb ++ cstr " (" ++ tctx.linebreak)) =
      .returned (.success, target.put (ta ++ cstr " " ++ tb ++ cstr " (" ++ tctx.linebreak ++
        sprintf_lu serial ++ (cstr "           ; ").drop (sprintf_lu serial).length ++
        cstr "serial" ++ tctx.linebreak)) :=
    totext_soa_number_serial dns_ttl_totext MULTILINE COMMENT tctx serial target
    (ta ++ cstr " " ++ tb ++ cstr " (" ++ tctx.linebreak) hwf h1 hmask
    (by simp only [List.length_append]; omega)
  have s0 : totext_soa_numbers dns_ttl_totext MULTILINE COMMENT tctx 5 0
      (uint32_bytes serial ++ (uint32_bytes refresh ++ (uint32_bytes retry ++
        (uint32_bytes expire ++ uint32_bytes minimum))))
      (target.put (ta ++ cstr " " ++ tb ++ cstr " (" ++ tctx.linebreak)) =
    totext_soa_numbers dns_ttl_totext MULTILINE COMMENT tctx 4 1
      ((uint32_bytes serial ++ (uint32_bytes refresh ++ (uint32_bytes retry ++
        (uint32_bytes expire ++ uint32_bytes minimum)))).drop 4)
      (target.put (ta ++ cstr " " ++ tb ++ cstr " (" ++ tctx.linebreak ++ sprintf_lu serial ++
        (cstr "           ; ").drop (sprintf_lu serial).length ++ cstr "serial" ++
        tctx.linebreak)) :=
    totext_soa_numbers_step dns_ttl_totext MULTILINE COMMENT tctx 4 0 0 _ _ _
      (by rw [hlen]; decide) (by rw [e0]; exact f0)
  have f1 : totext_soa_number dns_ttl_totext MULTILINE COMMENT tctx 1 refresh
      (target.put (ta ++ cstr " " ++ tb ++ cstr " (" ++ tctx.linebreak ++ sprintf_lu serial ++
        (cstr "           ; ").drop (sprintf_lu serial).length ++ cstr "serial" ++
        tctx.linebreak)) =
      .returned (.success, target.put (ta ++ cstr " " ++ tb ++ cstr " (" ++ tctx.linebreak ++
        sprintf_lu serial ++ (cstr "           ; ").drop (sprintf_lu serial).length ++
        cstr "serial" ++ tctx.linebreak ++ sprintf_lu refresh ++
        (cstr "           ; ").drop (sprintf_lu refresh).length ++ cstr "refresh" ++ cstr " (" ++
        ttl_text refresh ++ cstr ")" ++ tctx.linebreak)) :=
    totext_soa_number_duration dns_ttl_totext MULTILINE COMMENT tctx 1 refresh target
    (ta ++ cstr " " ++ tb ++ cstr " (" ++ tctx.linebreak ++ sprintf_lu serial ++
      (cstr "           ; ").drop (sprintf_lu serial).length ++ cstr "serial" ++
      tctx.linebreak) (ttl_text refresh) hwf h2 (by decide) hmask
    (httl refresh (Or.inl rfl))
    (by
      simp only [List.length_append,
        show soa_fieldnames.getD 1 [] = cstr "refresh" from rfl]
      omega)
  have s1 : totext_soa_numbers dns_ttl_totext MULTILINE COMMENT tctx 4 1
      ((uint32_bytes serial ++ (uint32_bytes refresh ++ (uint32_bytes retry ++
        (uint32_bytes expire ++ uint32_bytes minimum)))).drop 4)
      (target.put (ta ++ cstr " " ++ tb ++ cstr " (" ++ tctx.linebreak ++ sprintf_lu serial ++
        (cstr "           ; ").drop (sprintf_lu serial).length ++ cstr "serial" ++
        tctx.linebreak)) =
    totext_soa_numbers dns_ttl_totext MULTILINE COMMENT tctx 3 2
      ((uint32_bytes serial ++ (uint32_bytes refresh ++ (uint32_bytes retry ++
        (uint32_bytes expire ++ uint32_bytes minimum)))).drop 8)
      (target.put (ta ++ cstr " " ++ tb ++ cstr " (" ++ tctx.linebreak ++ sprintf_lu serial ++
        (cstr "           ; ").drop (sprintf_lu serial).length ++ cstr "serial" ++
        tctx.linebreak ++ sprintf_lu refresh ++
        (cstr "           ; ").drop (sprintf_lu refresh).length ++ cstr "refresh" ++ cstr " (" ++
        ttl_text refresh ++ cstr ")" ++ tctx.linebreak)) :=
    totext_soa_numbers_step dns_ttl_totext MULTILINE COMMENT tctx 3 1 4 _ _ _
      (by rw [hlen]; decide) (by rw [e4]; exact f1)
  have f2 : totext_soa_number dns_ttl_totext MULTILINE COMMENT tctx 2 retry
      (target.put (ta ++ cstr " " ++ tb ++ cstr " (" ++ tctx.linebreak ++ sprintf_lu serial ++
        (cstr "           ; ").drop (sprintf_lu serial).length ++ cstr "serial" ++
        tctx.linebreak ++ sprintf_lu refresh ++
        (cstr "           ; ").drop (sprintf_lu refresh).length ++ cstr "refresh" ++ cstr " (" ++
        ttl_text refresh ++ cstr ")" ++ tctx.linebreak)) =
      .returned (.success, target.put (ta ++ cstr " " ++ tb ++ cstr " (" ++ tctx.linebreak ++
        sprintf_lu serial ++ (cstr "           ; ").drop (sprintf_lu serial).length ++
        cstr "serial" ++ tctx.linebreak ++ sprintf_lu refresh ++
        (cstr "           ; ").drop (sprintf_lu refresh).length ++ cstr "refresh" ++ cstr " (" ++
        ttl_text refresh ++ cstr ")" ++ tctx.linebreak ++ sprintf_lu retry ++
        (cstr "           ; ").drop (sprintf_lu retry).length ++ cstr "retry" ++ cstr " (" ++
        ttl_text retry ++ cstr ")" ++ tctx.linebreak)) :=
    totext_soa_number_duration dns_ttl_totext MULTILINE COMMENT tctx 2 retry target
    (ta ++ cstr " " ++ tb ++ cstr " (" ++ tctx.linebreak ++ sprintf_lu serial ++
      (cstr "           ; ").drop (sprintf_lu serial).length ++ cstr "serial" ++
      tctx.linebreak ++ sprintf_lu refresh ++
      (cstr "           ; ").drop (sprintf_lu refresh).length ++ cstr "refresh" ++ cstr " (" ++
      ttl_text refresh ++ cstr ")" ++ tctx.linebreak) (ttl_text retry) hwf h3 (by decide) hmask
    (httl retry (Or.inr (Or.inl rfl)))
    (by
      simp only [List.length_append,
        show soa_fieldnames.getD 2 [] = cstr "retry" from rfl]
      omega)
  have s2 : totext_soa_numbers dns_ttl_totext MULTILINE COMMENT tctx 3 2
      ((uint32_bytes serial ++ (uint32_bytes refresh ++ (uint32_bytes retry ++
        (uint32_bytes expire ++ uint32_bytes minimum)))).drop 8)
      (target.put (ta ++ cstr " " ++ tb ++ cstr " (" ++ tctx.linebreak ++ sprintf_lu serial ++
        (cstr "           ; ").drop (sprintf_lu serial).length ++ cstr "serial" ++
        tctx.linebreak ++ sprintf_lu refresh ++
        (cstr "           ; ").drop (sprintf_lu refresh).length ++ cstr "refresh" ++ cstr " (" ++
        ttl_text refresh ++ cstr ")" ++ tctx.linebreak)) =
    totext_soa_numbers dns_ttl_totext MULTILINE COMMENT tctx 2 3
      ((uint32_bytes serial ++ (uint32_bytes refresh ++ (uint32_bytes retry ++
        (uint32_bytes expire ++ uint32_bytes minimum)))).drop 12)
      (target.put (ta ++ cstr " " ++ tb ++ cstr " (" ++ tctx.linebreak ++ sprintf_lu serial ++
        (cstr "           ; ").drop (sprintf_lu serial).length ++ cstr "serial" ++
        tctx.linebreak ++ sprintf_lu refresh ++
        (cstr "           ; ").drop (sprintf_lu refresh).length ++ cstr "refresh" ++ cstr " (" ++
        ttl_text refresh ++ cstr ")" ++ tctx.linebreak ++ sprintf_lu retry ++
        (cstr "           ; ").drop (sprintf_lu retry).length ++ cstr "retry" ++ cstr " (" ++
        ttl_text retry ++ cstr ")" ++ tctx.linebreak)) :=
    totext_soa_numbers_step dns_ttl_totext MULTILINE COMMENT tctx 2 2 8 _ _ _
      (by rw [hlen]; decide) (by rw [e8]; exact f2)
  have f3 : totext_soa_number dns_ttl_totext MULTILINE COMMENT tctx 3 expire
      (target.put (ta ++ cstr " " ++ tb ++ cstr " (" ++ tctx.linebreak ++ sprintf_lu serial ++
        (cstr "           ; ").drop (sprintf_lu serial).length ++ cstr "serial" ++
        tctx.linebreak ++ sprintf_lu refresh ++
        (cstr "           ; ").drop (sprintf_lu refresh).length ++ cstr "refresh" ++ cstr " (" ++
        ttl_text refresh ++ cstr ")" ++ tctx.linebreak ++ sprintf_lu retry ++
        (cstr "           ; ").drop (sprintf_lu retry).length ++ cstr "retry" ++ cstr " (" ++
        ttl_text retry ++ cstr ")" ++ tctx.linebreak)) =
      .returned (.success, target.put (ta ++ cstr " " ++ tb ++ cstr " (" ++ tctx.linebreak ++
        sprintf_lu serial ++ (cstr "           ; ").drop (sprintf_lu serial).length ++
        cstr "serial" ++ tctx.linebreak ++ sprintf_lu refresh ++
        (cstr "           ; ").drop (sprintf_lu refresh).length ++ cstr "refresh" ++ cstr " (" ++
        ttl_text refresh ++ cstr ")" ++ tctx.linebreak ++ sprintf_lu retry ++
        (cstr "           ; ").drop (sprintf_lu retry).length ++ cstr "retry" ++ cstr " (" ++
        ttl_text retry ++ cstr ")" ++ tctx.linebreak ++ sprintf_lu expire ++
        (cstr "           ; ").drop (sprintf_lu expire).length ++ cstr "expire" ++ cstr " (" ++
        ttl_text expire ++ cstr ")" ++ tctx.linebreak)) :=
    totext_soa_number_duration dns_ttl_totext MULTILINE COMMENT tctx 3 expire target
    (ta ++ cstr " " ++ tb ++ cstr " (" ++ tctx.linebreak ++ sprintf_lu serial ++
      (cstr "           ; ").drop (sprintf_lu serial).length ++ cstr "serial" ++
      tctx.linebreak ++ sprintf_lu refresh ++
      (cstr "           ; ").drop (sprintf_lu refresh).length ++ cstr "refresh" ++ cstr " (" ++
      ttl_text refresh ++ cstr ")" ++ tctx.linebreak ++ sprintf_lu retry ++
      (cstr "           ; ").drop (sprintf_lu retry).length ++ cstr "retry" ++ cstr " (" ++
      ttl_text retry ++ cstr ")" ++ tctx.linebreak) (ttl_text expire) hwf h4 (by decide) hmask
    (httl expire (Or.inr (Or.inr (Or.inl rfl))))
    (by
      simp only [List.length_append,
        show soa_fieldnames.getD 3 [] = cstr "expire" from rfl]
      omega)
  have s3 : totext_soa_numbers dns_ttl_totext MULTILINE COMMENT tctx 2 3
      ((uint32_bytes serial ++ (uint32_bytes refresh ++ (uint32_bytes retry ++
        (uint32_bytes expire ++ uint32_bytes minimum)))).drop 12)
      (target.put (ta ++ cstr " " ++ tb ++ cstr " (" ++ tctx.linebreak ++ sprintf_lu serial ++
        (cstr "           ; ").drop (sprintf_lu serial).length ++ cstr "serial" ++
        tctx.linebreak ++ sprintf_lu refresh ++
        (cstr "           ; ").drop (sprintf_lu refresh).length ++ cstr "refresh" ++ cstr " (" ++
        ttl_text refresh ++ cstr ")" ++ tctx.linebreak ++ sprintf_lu retry ++
        (cstr "           ; ").drop (sprintf_lu retry).length ++ cstr "retry" ++ cstr " (" ++
        ttl_text retry ++ cstr ")" ++ tctx.linebreak)) =
    totext_soa_numbers dns_ttl_totext MULTILINE COMMENT tctx 1 4
      ((uint32_bytes serial ++ (uint32_bytes refresh ++ (uint32_bytes retry ++
        (uint32_bytes expire ++ uint32_bytes minimum)))).drop 16)
      (target.put (ta ++ cstr " " ++ tb ++ cstr " (" ++ tctx.linebreak ++ sprintf_lu serial ++
        (cstr "           ; ").drop (sprintf_lu serial).length ++ cstr "serial" ++
        tctx.linebreak ++ sprintf_lu refresh ++
        (cstr "           ; ").drop (sprintf_lu refresh).length ++ cstr "refresh" ++ cstr " (" ++
        ttl_text refresh ++ cstr ")" ++ tctx.linebreak ++ sprintf_lu retry ++
        (cstr "           ; ").drop (sprintf_lu retry).length ++ cstr "retry" ++ cstr " (" ++
        ttl_text retry ++ cstr ")" ++ tctx.linebreak ++ sprintf_lu expire ++
        (cstr "           ; ").drop (sprintf_lu expire).length ++ cstr "expire" ++ cstr " (" ++
        ttl_text expire ++ cstr ")" ++ tctx.linebreak)) :=
    totext_soa_numbers_step dns_ttl_totext MULTILINE COMMENT tctx 1 3 12 _ _ _
      (by rw [hlen]; decide) (by rw [e12]; exact f3)
  have f4 : totext_soa_number dns_ttl_totext MULTILINE COMMENT tctx 4 minimum
      (target.put (ta ++ cstr " " ++ tb ++ cstr " (" ++ tctx.linebreak ++ sprintf_lu serial ++
        (cstr "           ; ").drop (sprintf_lu serial).length ++ cstr "serial" ++
        tctx.linebreak ++ sprintf_lu refresh ++
        (cstr "           ; ").drop (sprintf_lu refresh).length ++ cstr "refresh" ++ cstr " (" ++
        ttl_text refresh ++ cstr ")" ++ tctx.linebreak ++ sprintf_lu retry ++
        (cstr "           ; ").drop (sprintf_lu retry).length ++ cstr "retry" ++ cstr " (" ++
        ttl_text retry ++ cstr ")" ++ tctx.linebreak ++ sprintf_lu expire ++
        (cstr "           ; ").drop (sprintf_lu expire).length ++ cstr "expire" ++ cstr " (" ++
        ttl_text expire ++ cstr ")" ++ tctx.linebreak)) =
      .returned (.success, target.put (ta ++ cstr " " ++ tb ++ cstr " (" ++ tctx.linebreak ++
        sprintf_lu serial ++ (cstr "           ; ").drop (sprintf_lu serial).length ++
        cstr "serial" ++ tctx.linebreak ++ sprintf_lu refresh ++
        (cstr "           ; ").drop (sprintf_lu refresh).length ++ cstr "refresh" ++ cstr " (" ++
        ttl_text refresh ++ cstr ")" ++ tctx.linebreak ++ sprintf_lu retry ++
        (cstr "           ; ").drop (sprintf_lu retry).length ++ cstr "retry" ++ cstr " (" ++
        ttl_text retry ++ cstr ")" ++ tctx.linebreak ++ sprintf_lu expire ++
        (cstr "           ; ").drop (sprintf_lu expire).length ++ cstr "expire" ++ cstr " (" ++
        ttl_text expire ++ cstr ")" ++ tctx.linebreak ++ sprintf_lu minimum ++
        (cstr "           ; ").drop (sprintf_lu minimum).length ++ cstr "minimum" ++ cstr " (" ++
        ttl_text minimum ++ cstr ")" ++ tctx.linebreak)) :=
    totext_soa_number_duration dns_ttl_totext MULTILINE COMMENT tctx 4 minimum target
    (ta ++ cstr " " ++ tb ++ cstr " (" ++ tctx.linebreak ++ sprintf_lu serial ++
      (cstr "           ; ").drop (sprintf_lu serial).length ++ cstr "serial" ++
      tctx.linebreak ++ sprintf_lu refresh ++
      (cstr "           ; ").drop (sprintf_lu refresh).length ++ cstr "refresh" ++ cstr " (" ++
      ttl_text refresh ++ cstr ")" ++ tctx.linebreak ++ sprintf_lu retry ++
      (cstr "           ; ").drop (sprintf_lu retry).length ++ cstr "retry" ++ cstr " (" ++
      ttl_text retry ++ cstr ")" ++ tctx.linebreak ++ sprintf_lu expire ++
      (cstr "           ; ").drop (sprintf_lu expire).length ++ cstr "expire" ++ cstr " (" ++
      ttl_text expire ++ cstr ")" ++ tctx.linebreak) (ttl_text minimum) hwf h5 (by decide) hmask
    (httl minimum (Or.inr (Or.inr (Or.inr rfl))))
    (by
      simp only [List.length_append,
        show soa_fieldnames.getD 4 [] = cstr "minimum" from rfl]
      omega)
  have s4 : totext_soa_numbers dns_ttl_totext MULTILINE COMMENT tctx 1 4
      ((uint32_bytes serial ++ (uint32_bytes refresh ++ (uint32_bytes retry ++
        (uint32_bytes expire ++ uint32_bytes minimum)))).drop 16)
      (target.put (ta ++ cstr " " ++ tb ++ cstr " (" ++ tctx.linebreak ++ sprintf_lu serial ++
        (cstr "           ; ").drop (sprintf_lu serial).length ++ cstr "serial" ++
        tctx.linebreak ++ sprintf_lu refresh ++
        (cstr "           ; ").drop (sprintf_lu refresh).length ++ cstr "refresh" ++ cstr " (" ++
        ttl_text refresh ++ cstr ")" ++ tctx.linebreak ++ sprintf_lu retry ++
        (cstr "           ; ").drop (sprintf_lu retry).length ++ cstr "retry" ++ cstr " (" ++
        ttl_text retry ++ cstr ")" ++ tctx.linebreak ++ sprintf_lu expire ++
        (cstr "           ; ").drop (sprintf_lu expire).length ++ cstr "expire" ++ cstr " (" ++
        ttl_text expire ++ cstr ")" ++ tctx.linebreak)) =
    totext_soa_numbers dns_ttl_totext MULTILINE COMMENT tctx 0 5
      ((uint32_bytes serial ++ (uint32_bytes refresh ++ (uint32_bytes retry ++
        (uint32_bytes expire ++ uint32_bytes minimum)))).drop 20)
      (target.put (ta ++ cstr " " ++ tb ++ cstr " (" ++ tctx.linebreak ++ sprintf_lu serial ++
        (cstr "           ; ").drop (sprintf_lu serial).length ++ cstr "serial" ++
        tctx.linebreak ++ sprintf_lu refresh ++
        (cstr "           ; ").drop (sprintf_lu refresh).length ++ cstr "refresh" ++ cstr " (" ++
        ttl_text refresh ++ cstr ")" ++ tctx.linebreak ++ sprintf_lu retry ++
        (cstr "           ; ").drop (sprintf_lu retry).length ++ cstr "retry" ++ cstr " (" ++
        ttl_text retry ++ cstr ")" ++ tctx.linebreak ++ sprintf_lu expire ++
        (cstr "           ; ").drop (sprintf_lu expire).length ++ cstr "expire" ++ cstr " (" ++
        ttl_text expire ++ cstr ")" ++ tctx.linebreak ++ sprintf_lu minimum ++
        (cstr "           ; ").drop (sprintf_lu minimum).length ++ cstr "minimum" ++ cstr " (" ++
        ttl_text minimum ++ cstr ")" ++ tctx.linebreak)) :=
    totext_soa_numbers_step dns_ttl_totext MULTILINE COMMENT tctx 0 4 16 _ _ _
      (by rw [hlen]) (by rw [e16]; exact f4)
  rw [s0, s1, s2, s3, s4, totext_soa_numbers]

/-- The whole text of `totext_soa` when the flags are not both set. -/
theorem totext_soa_text_plain (name_prefix_fn : NamePrefixFn) (dns_name_totext : NameTotext)
    (dns_ttl_totext : TtlTotext) (MULTILINE COMMENT : Nat)
    (dns_name_fromregion : NameFromregion) (x : dns_rdata_t) (tctx : dns_rdata_textctx_t)
    (target : isc_buffer_t) (a b ta tb : List Nat)
    (serial refresh retry expire minimum : Nat)
    (hx : x.type = 6)
    (hdata : x.data = a ++ (b ++ (uint32_bytes serial ++
      (uint32_bytes refresh ++ (uint32_bytes retry ++
        (uint32_bytes expire ++ uint32_bytes minimum))))))
    (h1 : serial < 2 ^ 32) (h2 : refresh < 2 ^ 32) (h3 : retry < 2 ^ 32)
    (h4 : expire < 2 ^ 32) (h5 : minimum < 2 ^ 32)
    (ha : dns_name_fromregion (a ++ (b ++ (uint32_bytes serial ++
      (uint32_bytes refresh ++ (uint32_bytes retry ++
        (uint32_bytes expire ++ uint32_bytes minimum)))))) = a)
    (hb : dns_name_fromregion (b ++ (uint32_bytes serial ++
      (uint32_bytes refresh ++ (uint32_bytes retry ++
        (uint32_bytes expire ++ uint32_bytes minimum))))) = b)
    (hwf : target.used ≤ target.base.length)
    (hna : dns_name_totext (name_prefix_fn a tctx.origin).2 (name_prefix_fn a tctx.origin).1
      target = (.success, target.put ta))
    (hnb : dns_name_totext (name_prefix_fn b tctx.origin).2 (name_prefix_fn b tctx.origin).1
      (target.put (ta ++ cstr " ")) = (.success, target.put (ta ++ cstr " " ++ tb)))
    (hmask : ¬ (tctx.flags &&& (MULTILINE ||| COMMENT) = MULTILINE ||| COMMENT))
    (hroom : target.used + (ta ++ cstr " " ++ tb ++ cstr " (" ++ tctx.linebreak ++
      sprintf_lu serial ++ cstr " " ++ sprintf_lu refresh ++ cstr " " ++ sprintf_lu retry ++
      cstr " " ++ sprintf_lu expire ++ cstr " " ++ sprintf_lu minimum ++ cstr " " ++
      cstr ")").length ≤ target.base.length) :
    totext_soa name_prefix_fn dns_name_totext dns_ttl_totext MULTILINE COMMENT
        dns_name_fromregion x tctx target =
      .returned (.success, target.put (ta ++ cstr " " ++ tb ++ cstr " (" ++ tctx.linebreak ++
        sprintf_lu serial ++ cstr " " ++ sprintf_lu refresh ++ cstr " " ++ sprintf_lu retry ++
        cstr " " ++ sprintf_lu expire ++ cstr " " ++ sprintf_lu minimum ++ cstr " " ++
        cstr ")")) := by
  have hr := hroom
  simp only [List.length_append] at hr
  have hhead := totext_soa_head name_prefix_fn dns_name_totext dns_ttl_totext MULTILINE
    COMMENT dns_name_fromregion x tctx target a b _ ta tb hx hdata ha hb hwf hna hnb
    (by simp only [List.length_append]; omega)
  have hloop := totext_soa_numbers_plain dns_ttl_totext MULTILINE COMMENT tctx target ta tb
    serial refresh retry expire minimum h1 h2 h3 h4 h5 hwf hmask
    (by simp only [List.length_append]; omega)
  have hclose := str_totext_put (cstr ")") _ target hwf hroom
  rw [hhead, hloop]
  simp only [Outcome.bind, RETERR_success, hclose]

/-- The whole text of `totext_soa` when both flags are set. -/
theorem totext_soa_text_annotated (name_prefix_fn : NamePrefixFn) (dns_name_totext : NameTotext)
    (dns_ttl_totext : TtlTotext) (MULTILINE COMMENT : Nat)
    (dns_name_fromregion : NameFromregion) (x : dns_rdata_t) (tctx : dns_rdata_textctx_t)
    (target : isc_buffer_t) (a b ta tb : List Nat)
    (serial refresh retry expire minimum : Nat)
    (hx : x.type = 6)
    (hdata : x.data = a ++ (b ++ (uint32_bytes serial ++
      (uint32_bytes refresh ++ (uint32_bytes retry ++
        (uint32_bytes expire ++ uint32_bytes minimum))))))
    (h1 : serial < 2 ^ 32) (h2 : refresh < 2 ^ 32) (h3 : retry < 2 ^ 32)
    (h4 : expire < 2 ^ 32) (h5 : minimum < 2 ^ 32)
    (ha : dns_name_fromregion (a ++ (b ++ (uint32_bytes serial ++
      (uint32_bytes refresh ++ (uint32_bytes retry ++
        (uint32_bytes expire ++ uint32_bytes minimum)))))) = a)
    (hb : dns_name_fromregion (b ++ (uint32_bytes serial ++
      (uint32_bytes refresh ++ (uint32_bytes retry ++
        (uint32_bytes expire ++ uint32_bytes minimum))))) = b)
    (hwf : target.used ≤ target.base.length)
    (hna : dns_name_totext (name_prefix_fn a tctx.origin).2 (name_prefix_fn a tctx.origin).1
      target = (.success, target.put ta))
    (hnb : dns_name_totext (name_prefix_fn b tctx.origin).2 (name_prefix_fn b tctx.origin).1
      (target.put (ta ++ cstr " ")) = (.success, target.put (ta ++ cstr " " ++ tb)))
    (ttl_text : Nat → List Nat)
    (hmask : tctx.flags &&& (MULTILINE ||| COMMENT) = MULTILINE ||| COMMENT)
    (httl : ∀ num, num = refresh ∨ num = retry ∨ num = expire ∨ num = minimum →
      ∀ u : isc_buffer_t, u.used + (ttl_text num).length ≤ u.base.length →
        dns_ttl_totext num true u = (.success, u.put (ttl_text num)))
    (hroom : target.used + (ta ++ cstr " " ++ tb ++ cstr " (" ++ tctx.linebreak ++
      sprintf_lu serial ++ (cstr "           ; ").drop (sprintf_lu serial).length ++
      cstr "serial" ++ tctx.linebreak ++ sprintf_lu refresh ++
      (cstr "           ; ").drop (sprintf_lu refresh).length ++ cstr "refresh" ++ cstr " (" ++
      ttl_text refresh ++ cstr ")" ++ tctx.linebreak ++ sprintf_lu retry ++
      (cstr "           ; ").drop (sprintf_lu retry).length ++ cstr "retry" ++ cstr " (" ++
      ttl_text retry ++ cstr ")" ++ tctx.linebreak ++ sprintf_lu expire ++
      (cstr "           ; ").drop (sprintf_lu expire).length ++ cstr "expire" ++ cstr " (" ++
      ttl_text expire ++ cstr ")" ++ tctx.linebreak ++ sprintf_lu minimum ++
      (cstr "           ; ").drop (sprintf_lu minimum).length ++ cstr "minimum" ++ cstr " (" ++
      ttl_text minimum ++ cstr ")" ++ tctx.linebreak ++ cstr ")").length ≤ target.base.length) :
    totext_soa name_prefix_fn dns_name_totext dns_ttl_totext MULTILINE COMMENT
        dns_name_fromregion x tctx target =
      .returned (.success, target.put (ta ++ cstr " " ++ tb ++ cstr " (" ++ tctx.linebreak ++
        sprintf_lu serial ++ (cstr "           ; ").drop (sprintf_lu serial).length ++
        cstr "serial" ++ tctx.linebreak ++ sprintf_lu refresh ++
        (cstr "           ; ").drop (sprintf_lu refresh).length ++ cstr "refresh" ++ cstr " (" ++
        ttl_text refresh ++ cstr ")" ++ tctx.linebreak ++ sprintf_lu retry ++
        (cstr "           ; ").drop (sprintf_lu retry).length ++ cstr "retry" ++ cstr " (" ++
        ttl_text retry ++ cstr ")" ++ tctx.linebreak ++ sprintf_lu expire ++
        (cstr "           ; ").drop (sprintf_lu expire).length ++ cstr "expire" ++ cstr " (" ++
        ttl_text expire ++ cstr ")" ++ tctx.linebreak ++ sprintf_lu minimum ++
        (cstr "           ; ").drop (sprintf_lu minimum).length ++ cstr "minimum" ++ cstr " (" ++
        ttl_text minimum ++ cstr ")" ++ tctx.linebreak ++ cstr ")")) := by
  have hr := hroom
  simp only [List.length_append] at hr
  have hhead := totext_soa_head name_prefix_fn dns_name_totext dns_ttl_totext MULTILINE
    COMMENT dns_name_fromregion x tctx target a b _ ta tb hx hdata ha hb hwf hna hnb
    (by simp only [List.length_append]; omega)
  have hloop := totext_soa_numbers_annotated dns_ttl_totext MULTILINE COMMENT tctx target
    ta tb ttl_text serial refresh retry expire minimum h1 h2 h3 h4 h5 hwf hmask httl
    (by simp only [List.length_append]; omega)
  have hclose := str_totext_put (cstr ")") _ target hwf hroom
  rw [hhead, hloop]
  simp only [Outcome.bind, RETERR_success, hclose]

/-- C15: the text `totext_soa` emits for SOA rdata `NAME(a) || NAME(b) || serial ||
refresh || retry || expire || minimum` whose two names are written as `ta` and
`tb`.  The test on the style flags holds exactly when both the multi-line and
the comment flag are set.  When either flag is clear, the text is the two
names, ` (`, the line break, then each of the five numbers followed by a single
space, then `)`: no field name and no duration, whatever `dns_ttl_totext`
does.  When both are set, each of the five numbers is followed by the padding
with `; `, its field name (`serial`, `refresh`, `retry`, `expire`, `minimum`, in
this order) and the line break, and the parenthesised duration that
`dns_ttl_totext` writes stands between field name and line break for the four
fields other than `serial` and not for `serial`, for which `dns_ttl_totext`
is not consulted. -/
theorem totext_soa_annotates (name_prefix_fn : NamePrefixFn) (dns_name_totext : NameTotext)
    (dns_ttl_totext : TtlTotext) (MULTILINE COMMENT : Nat)
    (dns_name_fromregion : NameFromregion) (x : dns_rdata_t) (tctx : dns_rdata_textctx_t)
    (target : isc_buffer_t) (a b ta tb : List Nat)
    (serial refresh retry expire minimum : Nat)
    (hx : x.type = 6)
    (hdata : x.data = a ++ (b ++ (uint32_bytes serial ++
      (uint32_bytes refresh ++ (uint32_bytes retry ++
        (uint32_bytes expire ++ uint32_bytes minimum))))))
    (h1 : serial < 2 ^ 32) (h2 : refresh < 2 ^ 32) (h3 : retry < 2 ^ 32)
    (h4 : expire < 2 ^ 32) (h5 : minimum < 2 ^ 32)
    (ha : dns_name_fromregion (a ++ (b ++ (uint32_bytes serial ++
      (uint32_bytes refresh ++ (uint32_bytes retry ++
        (uint32_bytes expire ++ uint32_bytes minimum)))))) = a)
    (hb : dns_name_fromregion (b ++ (uint32_bytes serial ++
      (uint32_bytes refresh ++ (uint32_bytes retry ++
        (uint32_bytes expire ++ uint32_bytes minimum))))) = b)
    (hwf : target.used ≤ target.base.length)
    (hna : dns_name_totext (name_prefix_fn a tctx.origin).2 (name_prefix_fn a tctx.origin).1
      target = (.success, target.put ta))
    (hnb : dns_name_totext (name_prefix_fn b tctx.origin).2 (name_prefix_fn b tctx.origin).1
      (target.put (ta ++ cstr " ")) = (.success, target.put (ta ++ cstr " " ++ tb))) :
    (tctx.flags &&& (MULTILINE ||| COMMENT) = MULTILINE ||| COMMENT ↔
        tctx.flags &&& MULTILINE = MULTILINE ∧ tctx.flags &&& COMMENT = COMMENT) ∧
      (¬ (tctx.flags &&& MULTILINE = MULTILINE ∧ tctx.flags &&& COMMENT = COMMENT) →
        ∀ text : List Nat,
          text = ta ++ cstr " " ++ tb ++ cstr " (" ++ tctx.linebreak ++
            sprintf_lu serial ++ cstr " " ++
            sprintf_lu refresh ++ cstr " " ++
            sprintf_lu retry ++ cstr " " ++
            sprintf_lu expire ++ cstr " " ++
            sprintf_lu minimum ++ cstr " " ++
            cstr ")" →
          target.used + text.length ≤ target.base.length →
          totext_soa name_prefix_fn dns_name_totext dns_ttl_totext MULTILINE COMMENT
            dns_name_fromregion x tctx target =
            .returned (.success, target.put text)) ∧
      (tctx.flags &&& MULTILINE = MULTILINE ∧ tctx.flags &&& COMMENT = COMMENT →
        ∀ ttl_text : Nat → List Nat,
          (∀ num, num = refresh ∨ num = retry ∨ num = expire ∨ num = minimum →
            ∀ u : isc_buffer_t, u.used + (ttl_text num).length ≤ u.base.length →
              dns_ttl_totext num true u = (.success, u.put (ttl_text num))) →
          ∀ text : List Nat,
            text = ta ++ cstr " " ++ tb ++ cstr " (" ++ tctx.linebreak ++
              sprintf_lu serial ++ (cstr "           ; ").drop (sprintf_lu serial).length ++
                cstr "serial" ++ tctx.linebreak ++
              sprintf_lu refresh ++ (cstr "           ; ").drop (sprintf_lu refresh).length ++
                cstr "refresh" ++ cstr " (" ++ ttl_text refresh ++ cstr ")" ++ tctx.linebreak ++
              sprintf_lu retry ++ (cstr "           ; ").drop (sprintf_lu retry).length ++
                cstr "retry" ++ cstr " (" ++ ttl_text retry ++ cstr ")" ++ tctx.linebreak ++
              sprintf_lu expire ++ (cstr "           ; ").drop (sprintf_lu expire).length ++
                cstr "expire" ++ cstr " (" ++ ttl_text expire ++ cstr ")" ++ tctx.linebreak ++
              sprintf_lu minimum ++ (cstr "           ; ").drop (sprintf_lu minimum).length ++
                cstr "minimum" ++ cstr " (" ++ ttl_text minimum ++ cstr ")" ++ tctx.linebreak ++
              cstr ")" →
            target.used + text.length ≤ target.base.length →
            totext_soa name_prefix_fn dns_name_totext dns_ttl_totext MULTILINE COMMENT
              dns_name_fromregion x tctx target =
              .returned (.success, target.put text)) := by
  have hboth := both_flags_iff tctx.flags MULTILINE COMMENT
  refine ⟨hboth, ?_, ?_⟩
  · intro hclear text htext hroom
    rw [htext] at hroom ⊢
    exact totext_soa_text_plain name_prefix_fn dns_name_totext dns_ttl_totext MULTILINE COMMENT
      dns_name_fromregion x tctx target a b ta tb serial refresh retry expire minimum hx hdata
      h1 h2 h3 h4 h5 ha hb hwf hna hnb
      (fun h => hclear (hboth.mp h)) hroom
  · intro hset ttl_text httl text htext hroom
    rw [htext] at hroom ⊢
    exact totext_soa_text_annotated name_prefix_fn dns_name_totext dns_ttl_totext MULTILINE COMMENT
      dns_name_fromregion x tctx target a b ta tb serial refresh retry expire minimum hx hdata
      h1 h2 h3 h4 h5 ha hb hwf hna hnb
      ttl_text (hboth.mpr hset) httl hroom

set_option maxRecDepth 20000 in
/-- Witness for C15: the spec's example written to an empty target of 200
bytes, with `MULTILINE` = 1 and `COMMENT` = 2: with only the multi-line flag
set the five numbers stand on one line, each followed by a single space; with
both flags set every number has its field name and all but `serial` a
duration. -/
theorem totext_soa_annotates_witness :
    totext_soa plain_prefix_fn plain_name_totext plain_ttl_totext 1 2 plain_name_fromregion
        soa_example ⟨none, 1, cstr "\n\t"⟩ ⟨List.replicate 200 0, 0, 0⟩ =
        .returned (.success, (⟨List.replicate 200 0, 0, 0⟩ : isc_buffer_t).put (cstr
          "ns1.example. hostmaster.example. (\n\t2020010100 3600 600 1209600 3600 )")) ∧
      totext_soa plain_prefix_fn plain_name_totext plain_ttl_totext 1 2 plain_name_fromregion
        soa_example ⟨none, 3, cstr "\n\t"⟩ ⟨List.replicate 200 0, 0, 0⟩ =
        .returned (.success, (⟨List.replicate 200 0, 0, 0⟩ : isc_buffer_t).put (cstr
          ("ns1.example. hostmaster.example. (\n\t2020010100 ; serial\n\t" ++
           "3600       ; refresh (1h)\n\t600        ; retry (10m)\n\t" ++
           "1209600    ; expire (2w)\n\t3600       ; minimum (1h)\n\t)"))) :=
  ⟨(totext_soa_annotates plain_prefix_fn plain_name_totext plain_ttl_totext 1 2
      plain_name_fromregion soa_example ⟨none, 1, cstr "\n\t"⟩ ⟨List.replicate 200 0, 0, 0⟩
      soa_example_mname soa_example_rname (cstr "ns1.example.") (cstr "hostmaster.example.")
      2020010100 3600 600 1209600 3600 (by decide) (by decide) (by decide) (by decide)
      (by decide) (by decide) (by decide) (by decide) (by decide) (by decide)
      (str_totext_success _ _ (by decide)) (str_totext_put _ _ _ (by decide) (by decide))).2.1
      (by decide) _ (by decide) (by decide),
   (totext_soa_annotates plain_prefix_fn plain_name_totext plain_ttl_totext 1 2
      plain_name_fromregion soa_example ⟨none, 3, cstr "\n\t"⟩ ⟨List.replicate 200 0, 0, 0⟩
      soa_example_mname soa_example_rname (cstr "ns1.example.") (cstr "hostmaster.example.")
      2020010100 3600 600 1209600 3600 (by decide) (by decide) (by decide) (by decide)
      (by decide) (by decide) (by decide) (by decide) (by decide) (by decide)
      (str_totext_success _ _ (by decide)) (str_totext_put _ _ _ (by decide) (by decide))).2.2
      (by decide)
      (fun ttl => if ttl = 0 then cstr "0s" else
        (if ttl / 604800 = 0 then [] else sprintf_lu (ttl / 604800) ++ [119]) ++
        (if ttl % 604800 / 86400 = 0 then [] else sprintf_lu (ttl % 604800 / 86400) ++ [100]) ++
        (if ttl % 86400 / 3600 = 0 then [] else sprintf_lu (ttl % 86400 / 3600) ++ [104]) ++
        (if ttl % 3600 / 60 = 0 then [] else sprintf_lu (ttl % 3600 / 60) ++ [109]) ++
        (if ttl % 60 = 0 then [] else sprintf_lu (ttl % 60) ++ [115]))
      (fun _ _ u h => str_totext_success _ u h) _ (by decide) (by decide)⟩

/-! ## The rejection threshold and the fast path of `isc_random_uniform` -/

/-- C23: the rejection threshold is exact within 32 bits.  For
`1 ≤ limit < 2 ^ 32` the value `(uint32_t)(-limit) % limit` that
`isc_random_uniform` computes is `2 ^ 32 mod limit`; the negation is
`2 ^ 32 - limit` and fits 32 bits, the result is below `limit`, and the
resample loop run with it is the loop run with `2 ^ 32 mod limit`. -/
theorem isc_random_uniform_residue_exact (limit : Nat) (h1 : 1 ≤ limit)
    (h2 : limit < 2 ^ 32) :
    isc_random_uniform_residue limit = 2 ^ 32 % limit ∧
      (2 ^ 32 - limit) % 2 ^ 32 = 2 ^ 32 - limit ∧
      isc_random_uniform_residue limit < limit ∧
      isc_random_uniform_residue limit < 2 ^ 32 ∧
      ∀ (σ : Type) (nxt : σ → Nat × σ),
        isc_random_uniform_loop nxt limit (isc_random_uniform_residue limit) =
          isc_random_uniform_loop nxt limit (2 ^ 32 % limit) := by
  have heq : isc_random_uniform_residue limit = 2 ^ 32 % limit := residue_eq limit h1 h2
  have hlt : 2 ^ 32 % limit < limit := Nat.mod_lt _ h1
  refine ⟨heq, Nat.mod_eq_of_lt (by omega), by rw [heq]; exact hlt, by rw [heq]; omega, ?_⟩
  intro σ nxt
  rw [heq]

/-- Witness for C23 at `limit = 3` (threshold 1) and at the largest limit
`2 ^ 32 - 1` (threshold 1). -/
theorem isc_random_uniform_residue_exact_witness :
    isc_random_uniform_residue 3 = 2 ^ 32 % 3 ∧ isc_random_uniform_residue 3 = 1 ∧
      isc_random_uniform_residue 4294967295 = 1 ∧ isc_random_uniform_residue 6 = 4 :=
  ⟨(isc_random_uniform_residue_exact 3 (by decide) (by decide)).1, by decide, by decide,
    by decide⟩

section refinement

variable {σ : Type} (nxt : σ → Nat × σ)

/-- The resample loop of the code, started on the product of the draw made in
state `s`, is the reference loop started in `s`. -/
theorem isc_random_uniform_loop_refines (hraw : ∀ s, (nxt s).1 < 2 ^ 32)
    (limit threshold : Nat) (h2 : limit < 2 ^ 32) :
    ∀ (fuel : Nat) (s : σ),
      (match isc_random_uniform_loop nxt limit threshold fuel
          (((nxt s).1 * limit) % 2 ^ 64) (nxt s).2 with
        | .returned (num, s') => Outcome.returned ((num >>> 32) % 2 ^ 32, s')
        | .aborted => .aborted
        | .undefined => .undefined
        | .unfinished => .unfinished) =
      reference_uniform_loop nxt limit threshold fuel s := by
  have hprod : ∀ s, (nxt s).1 * limit < 2 ^ 64 := by
    intro s
    calc (nxt s).1 * limit ≤ (nxt s).1 * 2 ^ 32 := Nat.mul_le_mul_left _ (le_of_lt h2)
      _ < 2 ^ 32 * 2 ^ 32 := Nat.mul_lt_mul_of_pos_right (hraw s) (by norm_num)
      _ = 2 ^ 64 := by norm_num
  have hhigh : ∀ s, (((nxt s).1 * limit) >>> 32) % 2 ^ 32 = ((nxt s).1 * limit) / 2 ^ 32 := by
    intro s
    rw [Nat.shiftRight_eq_div_pow]
    exact Nat.mod_eq_of_lt (Nat.div_lt_of_lt_mul (by
      calc (nxt s).1 * limit < 2 ^ 64 := hprod s
        _ = 2 ^ 32 * 2 ^ 32 := by norm_num))
  intro fuel
  induction fuel with
  | zero =>
    intro s
    rw [Nat.mod_eq_of_lt (hprod s)]
    unfold isc_random_uniform_loop reference_uniform_loop
    by_cases hlow : ((nxt s).1 * limit) % 2 ^ 32 < threshold
    · simp only [hlow, if_true]
    · simp only [hlow, if_false, hhigh]
  | succ f ih =>
    intro s
    rw [Nat.mod_eq_of_lt (hprod s)]
    unfold isc_random_uniform_loop reference_uniform_loop
    by_cases hlow : ((nxt s).1 * limit) % 2 ^ 32 < threshold
    · simp only [hlow, if_true]
      exact ih (nxt s).2
    · simp only [hlow, if_false, hhigh]

/-- The reference loop accepts at once a draw whose low word is not below the
threshold. -/
theorem reference_uniform_loop_accept (limit threshold fuel : Nat) (s : σ)
    (h : ¬ ((nxt s).1 * limit) % 2 ^ 32 < threshold) :
    reference_uniform_loop nxt limit threshold fuel s =
      .returned (((nxt s).1 * limit) / 2 ^ 32, (nxt s).2) := by
  cases fuel <;> (unfold reference_uniform_loop; rw [if_neg h])

/-- On every generator of raw 32-bit draws, every state and every fuel,
`isc_random_uniform` and the reference sampler end the same way. -/
theorem isc_random_uniform_eq_reference (hraw : ∀ s, (nxt s).1 < 2 ^ 32)
    (fuel limit : Nat) (s : σ) (h1 : 1 ≤ limit) (h2 : limit < 2 ^ 32) :
    isc_random_uniform nxt fuel limit s = reference_uniform nxt fuel limit s := by
  have hprod : (nxt s).1 * limit < 2 ^ 64 := by
    calc (nxt s).1 * limit ≤ (nxt s).1 * 2 ^ 32 := Nat.mul_le_mul_left _ (le_of_lt h2)
      _ < 2 ^ 32 * 2 ^ 32 := Nat.mul_lt_mul_of_pos_right (hraw s) (by norm_num)
      _ = 2 ^ 64 := by norm_num
  have hhigh : (((nxt s).1 * limit) >>> 32) % 2 ^ 32 = ((nxt s).1 * limit) / 2 ^ 32 := by
    rw [Nat.shiftRight_eq_div_pow]
    exact Nat.mod_eq_of_lt (Nat.div_lt_of_lt_mul (by
      calc (nxt s).1 * limit < 2 ^ 64 := hprod
        _ = 2 ^ 32 * 2 ^ 32 := by norm_num))
  have hthr : 2 ^ 32 % limit < limit := Nat.mod_lt _ h1
  have hloop := isc_random_uniform_loop_refines nxt hraw limit (2 ^ 32 % limit) h2 fuel s
  unfold isc_random_uniform reference_uniform
  simp only [residue_eq limit h1 h2]
  by_cases hlow : ((nxt s).1 * limit) % 2 ^ 64 % 2 ^ 32 < limit
  · rw [if_pos hlow]
    exact hloop
  · rw [if_neg hlow]
    rw [Nat.mod_eq_of_lt hprod] at hlow ⊢
    rw [reference_uniform_loop_accept nxt limit _ fuel s (by omega), hhigh]

theorem counted_raw (hraw : ∀ s, (nxt s).1 < 2 ^ 32) (s : σ × Nat) :
    (counted nxt s).1 < 2 ^ 32 :=
  hraw s.1

end refinement

/-- C24: the fast path of `isc_random_uniform` is sound.  For
`1 ≤ limit < 2 ^ 32` the threshold `2 ^ 32 mod limit` is below `limit`, and on
every generator of raw 32-bit draws, every state and every fuel the code ends
as the reference sampler does: same value and same generator state, or both
out of fuel.  The same holds with a counter of the draws attached to the
generator, so the two make the same number of draws. -/
theorem isc_random_uniform_refines_reference {σ : Type} (nxt : σ → Nat × σ)
    (hraw : ∀ s, (nxt s).1 < 2 ^ 32) (fuel limit : Nat) (s : σ)
    (h1 : 1 ≤ limit) (h2 : limit < 2 ^ 32) :
    2 ^ 32 % limit < limit ∧
      isc_random_uniform nxt fuel limit s = reference_uniform nxt fuel limit s ∧
      ∀ n : Nat, isc_random_uniform (counted nxt) fuel limit (s, n) =
        reference_uniform (counted nxt) fuel limit (s, n) :=
  ⟨Nat.mod_lt _ h1, isc_random_uniform_eq_reference nxt hraw fuel limit s h1 h2,
   fun n => isc_random_uniform_eq_reference (counted nxt) (counted_raw nxt hraw) fuel limit
     (s, n) h1 h2⟩

/-- Witness for C24: from the seed `{0, 0, 0, 1}` with `limit = 3` and one
unit of fuel both samplers reject the first draw and return `0` after two
draws; with no fuel both stop unfinished. -/
theorem isc_random_uniform_refines_reference_witness :
    isc_random_uniform (counted next) 1 3 (⟨0, 0, 0, 1⟩, 0) =
        .returned (0, (⟨2049, 1, 1, 4194304⟩, 2)) ∧
      reference_uniform (counted next) 1 3 (⟨0, 0, 0, 1⟩, 0) =
        .returned (0, (⟨2049, 1, 1, 4194304⟩, 2)) ∧
      isc_random_uniform next 0 3 ⟨0, 0, 0, 1⟩ = reference_uniform next 0 3 ⟨0, 0, 0, 1⟩ :=
  have h := isc_random_uniform_refines_reference next next_output_lt 1 3 ⟨0, 0, 0, 1⟩
    (by decide) (by decide)
  ⟨by decide, (h.2.2 0).symm.trans (by decide),
    (isc_random_uniform_refines_reference next next_output_lt 0 3 ⟨0, 0, 0, 1⟩
      (by decide) (by decide)).2.1⟩

/-! ## Compression methods chosen by the SOA codec -/

/-- C21 (counterexample): with EDNS level 0 and a session that is not strict,
`towire_soa` does not permit all methods: it sets `DNS_COMPRESS_GLOBAL14`, and
the name encoder is called with that. -/
theorem towire_soa_level_zero_not_all :
    ¬ (∀ (cctx : dns_compress_t) (strict : Bool),
        (dns_compress_getedns cctx ≥ 1 ∨ strict = false) →
          (towire_soa_setmethods cctx).allowed = .DNS_COMPRESS_ALL) ∧
      (towire_soa_setmethods ⟨0, .DNS_COMPRESS_NONE, []⟩).allowed =
        .DNS_COMPRESS_GLOBAL14 ∧
      towire_soa plain_name_fromregion methods_probe_towire soa_example
          ⟨0, .DNS_COMPRESS_NONE, []⟩ example_message =
        .returned (.other 0, ⟨0, .DNS_COMPRESS_GLOBAL14, []⟩, example_message) := by
  refine ⟨?_, by decide, by decide⟩
  intro h
  have := h ⟨0, .DNS_COMPRESS_NONE, []⟩ false (Or.inr rfl)
  revert this
  decide

/-- C21 (as amended): on the write path the methods depend on the EDNS level
alone.  `towire_soa` permits all methods exactly when the level is at least 1
and restricts to `DNS_COMPRESS_GLOBAL14` exactly when it is not; level and
dictionary are left as they were; and the first name is written with the
context so set (seen here when that first call fails: its result is
returned as it is). -/
theorem towire_soa_methods (dns_name_fromregion : NameFromregion)
    (dns_name_towire : NameTowire) (x : dns_rdata_t) (cctx : dns_compress_t)
    (target : isc_buffer_t)
    (hx : x.type = 6)
    (hfit : name_length (dns_name_fromregion x.data) ≤ x.data.length)
    (hfail : (dns_name_towire (dns_name_fromregion x.data) (towire_soa_setmethods cctx)
      target).1 ≠ .success) :
    ((towire_soa_setmethods cctx).allowed = .DNS_COMPRESS_ALL ↔
        dns_compress_getedns cctx ≥ 1) ∧
      ((towire_soa_setmethods cctx).allowed = .DNS_COMPRESS_GLOBAL14 ↔
        ¬ dns_compress_getedns cctx ≥ 1) ∧
      (towire_soa_setmethods cctx).edns = cctx.edns ∧
      (towire_soa_setmethods cctx).table = cctx.table ∧
      towire_soa dns_name_fromregion dns_name_towire x cctx target =
        .returned (dns_name_towire (dns_name_fromregion x.data)
          (towire_soa_setmethods cctx) target) := by
  refine ⟨?_, ?_, ?_, ?_, ?_⟩
  · unfold towire_soa_setmethods dns_compress_setmethods
    by_cases h : dns_compress_getedns cctx ≥ 1 <;> simp [h]
  · unfold towire_soa_setmethods dns_compress_setmethods
    by_cases h : dns_compress_getedns cctx ≥ 1 <;> simp [h]
  · unfold towire_soa_setmethods dns_compress_setmethods
    by_cases h : dns_compress_getedns cctx ≥ 1 <;> simp [h]
  · unfold towire_soa_setmethods dns_compress_setmethods
    by_cases h : dns_compress_getedns cctx ≥ 1 <;> simp [h]
  · generalize ho : dns_name_towire (dns_name_fromregion x.data)
      (towire_soa_setmethods cctx) target = o at hfail
    obtain ⟨r, c, t⟩ := o
    simp only at hfail
    simp only [towire_soa, hx, ne_eq, not_true_eq_false, if_false, isc_region_consume,
      if_pos hfit, Outcome.bind, ho, hfail, not_false_eq_true, if_true]

/-- Witness for C21 (as amended): level 1 gives all methods, level 0 gives
`DNS_COMPRESS_GLOBAL14`, as the probing encoder reports. -/
theorem towire_soa_methods_witness :
    towire_soa plain_name_fromregion methods_probe_towire soa_example
        ⟨1, .DNS_COMPRESS_NONE, []⟩ example_message =
        .returned (.other 1, ⟨1, .DNS_COMPRESS_ALL, []⟩, example_message) ∧
      towire_soa plain_name_fromregion methods_probe_towire soa_example
        ⟨0, .DNS_COMPRESS_NONE, []⟩ example_message =
        .returned (.other 0, ⟨0, .DNS_COMPRESS_GLOBAL14, []⟩, example_message) :=
  ⟨(towire_soa_methods plain_name_fromregion methods_probe_towire soa_example
      ⟨1, .DNS_COMPRESS_NONE, []⟩ example_message (by decide) (by decide)
      (by decide)).2.2.2.2.trans (by decide),
   (towire_soa_methods plain_name_fromregion methods_probe_towire soa_example
      ⟨0, .DNS_COMPRESS_NONE, []⟩ example_message (by decide) (by decide)
      (by decide)).2.2.2.2.trans (by decide)⟩

/-- The digits `decimal_digits` produces denote the number. -/
theorem decimal_digits_value (fuel : Nat) :
    ∀ n, n < 10 ^ fuel → decimal_value (decimal_digits fuel n) = n := by
  induction fuel with
  | zero =>
    intro n hn
    have : n = 0 := by simpa using hn
    subst this
    rfl
  | succ f ih =>
    intro n hn
    unfold decimal_digits
    by_cases h10 : n < 10
    · rw [if_pos h10]
      simp [decimal_value]
    · rw [if_neg h10]
      have hdiv : n / 10 < 10 ^ f := Nat.div_lt_of_lt_mul (by rw [pow_succ] at hn; omega)
      have := ih (n / 10) hdiv
      unfold decimal_value at this ⊢
      rw [List.foldl_append, this]
      simp only [List.foldl_cons, List.foldl_nil, Nat.add_sub_cancel_left]
      omega

/-- Every character `decimal_digits` produces is a digit. -/
theorem decimal_digits_are_digits (fuel : Nat) :
    ∀ n, ∀ c ∈ decimal_digits fuel n, 48 ≤ c ∧ c ≤ 57 := by
  induction fuel with
  | zero => intro n c hc; simp [decimal_digits] at hc
  | succ f ih =>
    intro n c hc
    unfold decimal_digits at hc
    by_cases h10 : n < 10
    · rw [if_pos h10] at hc
      simp only [List.mem_singleton] at hc
      omega
    · rw [if_neg h10] at hc
      rcases List.mem_append.mp hc with h | h
      · exact ih _ c h
      · simp only [List.mem_singleton] at h
        omega

/-- The value `uint32_fromregion` reads is a 32-bit value. -/
theorem uint32_fromregion_lt (region : List Nat) (n : Nat)
    (h : uint32_fromregion region = .returned n) : n < 2 ^ 32 := by
  unfold uint32_fromregion at h
  split at h
  · cases h
  · cases h
    omega

theorem RETERR_total {α : Type} (x : Result × α) (k : α → Outcome (Result × α))
    (hk : ∀ a, ∃ p, k a = .returned p) : ∃ p, RETERR x k = .returned p := by
  unfold RETERR
  split
  · exact ⟨x, rfl⟩
  · exact hk x.2

/-- For a 32-bit value the text of a field never stops in the `INSIST`: it
returns, with success or with the error of a collaborator. -/
theorem totext_soa_number_returns (dns_ttl_totext : TtlTotext) (MULTILINE COMMENT : Nat)
    (tctx : dns_rdata_textctx_t) (i num : Nat) (target : isc_buffer_t)
    (hnum : num < 2 ^ 32) :
    ∃ p, totext_soa_number dns_ttl_totext MULTILINE COMMENT tctx i num target =
      .returned p := by
  obtain ⟨hlo, hhi⟩ := sprintf_lu_length num hnum
  have hinsist : ¬ ¬ ((sprintf_lu num).length > 0 ∧ (sprintf_lu num).length < 11) := by
    rw [not_not]; exact ⟨by omega, by omega⟩
  unfold totext_soa_number
  simp only [if_neg hinsist]
  refine RETERR_total _ _ (fun t1 => ?_)
  split
  · refine RETERR_total _ _ (fun t2 => ?_)
    refine RETERR_total _ _ (fun t3 => ?_)
    have hann : ∃ q, (if i ≥ 1 then
        RETERR (str_totext (cstr " (") t3) fun target =>
        RETERR (dns_ttl_totext num true target) fun target =>
        RETERR (str_totext (cstr ")") target) fun target =>
        Outcome.returned (Result.success, target)
      else Outcome.returned (Result.success, t3)) = .returned q := by
      split
      · refine RETERR_total _ _ (fun t4 => ?_)
        refine RETERR_total _ _ (fun t5 => ?_)
        refine RETERR_total _ _ (fun t6 => ?_)
        exact ⟨_, rfl⟩
      · exact ⟨_, rfl⟩
    obtain ⟨q, hq⟩ := hann
    rw [hq]
    simp only [Outcome.bind]
    refine RETERR_total _ _ (fun t7 => ?_)
    refine RETERR_total _ _ (fun t8 => ?_)
    exact ⟨_, rfl⟩
  · refine RETERR_total _ _ (fun t2 => ?_)
    exact ⟨_, rfl⟩

/-- C25: the number formatting of `totext_soa` is safe for every 32-bit
`num`.  Its decimal rendering has between 1 and 10 characters, all digits,
denoting `num`; with the terminator it fits the 11 bytes of `buf`;
`INSIST(numlen > 0 && numlen < 11)` never fails, for no collaborator, flag,
field index or target; the offset `numlen` stays inside the 13 characters of
the padding literal, what is left of the literal is `11 - numlen` spaces and
`; `, and the number with those spaces is 11 characters wide.  Every value
the loop formats is 32-bit, as `uint32_fromregion` reads it. -/
theorem totext_soa_format_safe (num : Nat) (hnum : num < 2 ^ 32) :
    1 ≤ (sprintf_lu num).length ∧ (sprintf_lu num).length ≤ 10 ∧
      (∀ c ∈ sprintf_lu num, 48 ≤ c ∧ c ≤ 57) ∧
      decimal_value (sprintf_lu num) = num ∧
      (sprintf_lu num).length + 1 ≤ 11 ∧
      (∀ (dns_ttl_totext : TtlTotext) (MULTILINE COMMENT : Nat)
          (tctx : dns_rdata_textctx_t) (i : Nat) (target : isc_buffer_t),
        totext_soa_number dns_ttl_totext MULTILINE COMMENT tctx i num target ≠ .aborted) ∧
      (cstr "           ; ").length = 13 ∧
      (sprintf_lu num).length ≤ (cstr "           ; ").length ∧
      (cstr "           ; ").drop (sprintf_lu num).length =
        List.replicate (11 - (sprintf_lu num).length) 32 ++ cstr "; " ∧
      (sprintf_lu num ++ List.replicate (11 - (sprintf_lu num).length) 32).length = 11 ∧
      (∀ region n, uint32_fromregion region = .returned n → n < 2 ^ 32) := by
  obtain ⟨hlo, hhi⟩ := sprintf_lu_length num hnum
  refine ⟨hlo, hhi, decimal_digits_are_digits 20 num,
    decimal_digits_value 20 num (by omega), by omega, ?_, rfl, ?_, ?_, ?_,
    uint32_fromregion_lt⟩
  · intro ttl M C tctx i target habort
    obtain ⟨p, hp⟩ := totext_soa_number_returns ttl M C tctx i num target hnum
    rw [hp] at habort
    cases habort
  · have : (cstr "           ; ").length = 13 := rfl
    omega
  · have hpad : cstr "           ; " = List.replicate 11 32 ++ cstr "; " := by decide
    rw [hpad, List.drop_append_of_le_length (by simp; omega), List.drop_replicate]
  · simp only [List.length_append, List.length_replicate]
    omega

/-- Witness for C25: the largest 32-bit value has 10 digits and is followed
by one space before `; `; the value 0 has one digit and ten spaces. -/
theorem totext_soa_format_safe_witness :
    sprintf_lu 4294967295 = cstr "4294967295" ∧
      (cstr "           ; ").drop (sprintf_lu 4294967295).length = cstr " ; " ∧
      sprintf_lu 0 = cstr "0" ∧
      (cstr "           ; ").drop (sprintf_lu 0).length = cstr "          ; " ∧
      decimal_value (sprintf_lu 4294967295) = 4294967295 :=
  ⟨by decide, by decide, by decide, by decide,
    (totext_soa_format_safe 4294967295 (by decide)).2.2.2.1⟩

/-! ## `towire_hs_a` and the length of the rdata -/

theorem memcpy_after (dst : List Nat) (doff : Nat) (src : List Nat) (soff n : Nat)
    (h1 : doff ≤ dst.length) (h2 : soff + n ≤ src.length) :
    (memcpy dst doff src soff n).drop (doff + n) = dst.drop (doff + n) := by
  unfold memcpy
  exact List.drop_left' (by simp; omega)

/-- C26: `towire_hs_a` has no `REQUIRE` on `rdata->length`.  For class 4 and
type 1 and a well-formed target: it returns `ISC_R_NOSPACE` when fewer than
`rdata->length` bytes are available; otherwise it copies `rdata->length` bytes
and commits 4.  When 4 bytes are available the call succeeds whatever the
length: the copied bytes are the rdata, `used` grows by 4, the 4 committed
bytes are the rdata, with the commit inside the checked space, exactly when
the length is 4, and for a shorter rdata the rest of the committed bytes are
what the store held before.  When the check passes with fewer than 4 bytes
available, which needs a length below 4, the commit fails its bound. -/
theorem towire_hs_a_length (x : dns_rdata_t) (cctx : dns_compress_t)
    (target : isc_buffer_t)
    (hclass : x.rdclass = 4) (htype : x.type = 1)
    (hwf : target.used ≤ target.base.length) :
    ((isc_buffer_availableregion target).length < x.length →
        towire_hs_a x cctx target = .returned (.nospace, target)) ∧
      (x.length ≤ (isc_buffer_availableregion target).length →
        4 ≤ (isc_buffer_availableregion target).length →
        towire_hs_a x cctx target =
            .returned (.success,
              { target with
                base := memcpy target.base target.used x.data 0 x.length,
                used := target.used + 4 }) ∧
          ((memcpy target.base target.used x.data 0 x.length).drop target.used).take
              x.length = x.data ∧
          (memcpy target.base target.used x.data 0 x.length).length = target.base.length ∧
          ((((memcpy target.base target.used x.data 0 x.length).drop target.used).take 4 =
              x.data ∧ 4 ≤ x.length) ↔ x.length = 4) ∧
          (x.length < 4 →
            ((memcpy target.base target.used x.data 0 x.length).drop
                (target.used + x.length)).take (4 - x.length) =
              (target.base.drop (target.used + x.length)).take (4 - x.length))) ∧
      (x.length ≤ (isc_buffer_availableregion target).length →
        (isc_buffer_availableregion target).length < 4 →
        x.length < 4 ∧ towire_hs_a x cctx target = .aborted) := by
  simp only [isc_buffer_availableregion, isc_buffer_available, dns_rdata_t.length]
  refine ⟨?_, ?_, ?_⟩
  · intro h
    simp [towire_hs_a, hclass, htype, isc_buffer_availableregion, isc_buffer_available,
      dns_rdata_t.length, h]
  · intro h1 h4
    have hlen : (memcpy target.base target.used x.data 0 x.data.length).length =
        target.base.length := memcpy_length _ _ _ _ _ (by omega) (by omega)
    have hcopied : ((memcpy target.base target.used x.data 0 x.data.length).drop
        target.used).take x.data.length = x.data := by
      rw [memcpy_slice _ _ _ _ _ hwf (by omega), List.drop_zero, List.take_length]
    refine ⟨?_, hcopied, hlen, ?_, ?_⟩
    · have e1 : ¬ (target.base.length - target.used < x.data.length) := by omega
      have e2 : 4 ≤ (memcpy target.base target.used x.data 0 x.data.length).length -
          target.used := by rw [hlen]; omega
      simp [towire_hs_a, hclass, htype, isc_buffer_availableregion, isc_buffer_available,
        dns_rdata_t.length, isc_buffer_add, Outcome.bind, e1, e2]
    · constructor
      · rintro ⟨heq, _⟩
        have h4len : (((memcpy target.base target.used x.data 0 x.data.length).drop
            target.used).take 4).length = 4 := by
          simp only [List.length_take, List.length_drop, hlen]
          omega
        rw [heq] at h4len
        exact h4len
      · intro h
        refine ⟨?_, by omega⟩
        rw [← h]
        exact hcopied
    · intro _
      rw [memcpy_after _ _ _ _ _ hwf (by omega)]
  · intro h1 h4
    refine ⟨by omega, ?_⟩
    have hlen : (memcpy target.base target.used x.data 0 x.data.length).length =
        target.base.length := memcpy_length _ _ _ _ _ (by omega) (by omega)
    have e1 : ¬ (target.base.length - target.used < x.data.length) := by omega
    have e2 : ¬ (4 ≤ (memcpy target.base target.used x.data 0 x.data.length).length -
        target.used) := by rw [hlen]; omega
    simp [towire_hs_a, hclass, htype, isc_buffer_availableregion, isc_buffer_available,
      dns_rdata_t.length, isc_buffer_add, Outcome.bind, e1, e2]

/-- Witness for C26: a 2-byte rdata.  With 4 bytes available the call
succeeds and commits the 2 copied bytes and 2 bytes the store held before;
with 3 bytes available the space check passes and the commit aborts; a
6-byte rdata has 6 bytes copied and 4 committed. -/
theorem towire_hs_a_length_witness :
    towire_hs_a ⟨4, 1, [18, 52]⟩ ⟨0, .DNS_COMPRESS_NONE, []⟩ ⟨[7, 7, 7, 7, 7], 1, 0⟩ =
        .returned (.success, ⟨[7, 18, 52, 7, 7], 5, 0⟩) ∧
      towire_hs_a ⟨4, 1, [18, 52]⟩ ⟨0, .DNS_COMPRESS_NONE, []⟩ ⟨[7, 7, 7, 7, 7], 2, 0⟩ =
        .aborted ∧
      towire_hs_a ⟨4, 1, [1, 2, 3, 4, 5, 6]⟩ ⟨0, .DNS_COMPRESS_NONE, []⟩
          ⟨[7, 7, 7, 7, 7, 7, 7, 7], 1, 0⟩ =
        .returned (.success, ⟨[7, 1, 2, 3, 4, 5, 6, 7], 5, 0⟩) :=
  ⟨((towire_hs_a_length ⟨4, 1, [18, 52]⟩ ⟨0, .DNS_COMPRESS_NONE, []⟩
      ⟨[7, 7, 7, 7, 7], 1, 0⟩ (by decide) (by decide) (by decide)).2.1 (by decide)
      (by decide)).1.trans (by decide),
   ((towire_hs_a_length ⟨4, 1, [18, 52]⟩ ⟨0, .DNS_COMPRESS_NONE, []⟩
      ⟨[7, 7, 7, 7, 7], 2, 0⟩ (by decide) (by decide) (by decide)).2.2 (by decide)
      (by decide)).2,
   ((towire_hs_a_length ⟨4, 1, [1, 2, 3, 4, 5, 6]⟩ ⟨0, .DNS_COMPRESS_NONE, []⟩
      ⟨[7, 7, 7, 7, 7, 7, 7, 7], 1, 0⟩ (by decide) (by decide) (by decide)).2.1 (by decide)
      (by decide)).1.trans (by decide)⟩

end Bind9
